import Mathlib

/-!
# IMIC_SDS: ring interconnect, tag directory, runtime and translator

A shallow embedding of `ring_bus_simulator.cpp`, of the MMU layer and the
core execution loop of `knc_runtime.cpp`, of the translation cache of
`knc_instruction_translator.cpp`, of the header checks of
`knc_binary_loader.cpp`, of the option handling of `main.cpp`, of the delay
computation of `pcie_bridge.cpp` and of the instruction counters of
`knc_performance_monitor.cpp`, with the properties of the specification stated
over it.

Conventions of the embedding.

* `uint32_t` values are natural numbers and every 32-bit operation of the
  source is written with an explicit `% 4294967296`; `int32_t` values are
  integers brought back into range by `int32_wrap`.
* `uint64_t` addresses are natural numbers and address arithmetic is written
  with an explicit `% 18446744073709551616`.  The 64-bit event counters and
  the simulation clock only ever grow by one event at a time and are plain
  natural numbers.
* A `const void* data` argument is the list of bytes found at the pointer;
  `memcpy(dst, data, size)` keeps the first `size` of them.
* `std::queue` is a list with the front at the head; `push` appends at the
  end and `pop` drops the head.
* A `double` is the rational number it denotes and every operation on
  doubles is the exact operation followed by `round_binary64`.
* The functions of the C library used by `main.cpp` (`getopt_long`, `strtoul`,
  `strtoull`) are parameters: `parse_arguments` takes the list of options that
  `getopt_long` reports.
* Every member function is a sequential state transformer.  Of the mutexes
  only this is part of the embedding: `network_mutex` is a `std::mutex`, which
  is not recursive, and a call of `send_message` made while
  `process_pending_messages` holds it locks it a second time and never
  returns; `route_message` and the functions that call it then have no result
  (`none`).
* The worker threads of `run()` are interleaved at the granularity of one
  pass through the loop of `execute_core` (`execute_core_step`); a worker run
  on its own is `execute_core`, which takes a bound on the number of loop
  tests and returns `none` when the bound does not suffice.
-/

namespace IMIC

/-! ## Machine integers -/

/-- Value of an arbitrary integer as a two-complement `int32_t`. -/
def int32_wrap (z : Int) : Int := (z + 2147483648) % 4294967296 - 2147483648

/-- Conversion of an integer to `uint32_t`. -/
def uint32_of_int (z : Int) : Nat := (z % 4294967296).toNat

/-- The `int` expression `1 << t` converted to `uint32_t`.  The source shifts a
32-bit `int`; for `t ≥ 32` the shift count is taken modulo 32, as the x86
shift instruction does. -/
def shl_one (t : Nat) : Nat := (1 <<< (t % 32)) % 4294967296

/-- Bitwise complement of a `uint32_t`. -/
def not32 (x : Nat) : Nat := 4294967295 - x % 4294967296

/-! ## `knc_types.h` -/

inductive knc_architecture_t where
  | ARCH_KNC
  | ARCH_KNL
  | ARCH_KNF
  deriving DecidableEq

def KNC_NUM_CORES : Nat := 60
def KNC_CORES_PER_TILE : Nat := 4
def KNC_NUM_TILES : Nat := KNC_NUM_CORES / KNC_CORES_PER_TILE
def KNC_MEMORY_SIZE : Nat := 8 * 1024 * 1024 * 1024
def KNC_NUM_MMUS : Nat := 8
def KNC_MMU_SIZE : Nat := KNC_MEMORY_SIZE / KNC_NUM_MMUS
def KNL_NUM_CORES : Nat := 68
def KNL_CORES_PER_TILE : Nat := 2
def KNL_NUM_TILES : Nat := KNL_NUM_CORES / KNL_CORES_PER_TILE
def KNL_MEMORY_SIZE : Nat := 16 * 1024 * 1024 * 1024
def KNL_NUM_MMUS : Nat := 38
def KNL_MMU_SIZE : Nat := KNL_MEMORY_SIZE / KNL_NUM_MMUS

inductive knc_error_t where
  | KNC_SUCCESS
  | KNC_ERROR_INVALID_ARGUMENT
  | KNC_ERROR_MEMORY_ACCESS
  | KNC_ERROR_INVALID_INSTRUCTION
  | KNC_ERROR_DIVIDE_BY_ZERO
  | KNC_ERROR_OVERFLOW
  | KNC_ERROR_UNDERFLOW
  | KNC_ERROR_SYSTEM_CALL
  deriving DecidableEq

/-! ## `ring_bus_simulator.h` -/

structure ring_bus_config_t where
  num_nodes : Nat
  bandwidth_mbps : Nat
  latency_cycles : Nat
  buffer_size : Nat
  enable_contention : Bool
  enable_latency_modeling : Bool
  architecture : knc_architecture_t
  num_rings : Nat
  deriving DecidableEq

structure ring_bus_message_t where
  source_node : Nat
  dest_node : Nat
  priority : Nat
  data : List Nat
  size : Nat
  timestamp : Nat
  delivery_time : Nat
  deriving DecidableEq

structure ring_bus_node_t where
  node_id : Nat
  inbound_queue : List ring_bus_message_t
  outbound_queue : List ring_bus_message_t
  buffer_occupancy : Nat
  last_activity_time : Nat
  messages_sent : Nat
  messages_received : Nat
  bytes_transmitted : Nat
  contention_cycles : Nat
  deriving DecidableEq

structure dtd_cache_line_t where
  cache_line_address : Nat
  owner_tile : Nat
  sharer_mask : Nat
  is_modified : Bool
  is_exclusive : Bool
  is_shared : Bool
  timestamp : Nat
  deriving DecidableEq

structure dtd_tile_state_t where
  tile_id : Nat
  cache_directory : List dtd_cache_line_t
  directory_size : Nat
  snoop_requests : Nat
  invalidation_requests : Nat
  cache_misses : Nat
  cache_hits : Nat
  deriving DecidableEq

structure RingBusSimulator where
  config : ring_bus_config_t
  nodes : List ring_bus_node_t
  routing_table : List (List Nat)
  dtd_enabled : Bool
  dtd_home_nodes : List Nat
  dtd_tiles : List dtd_tile_state_t
  cache_line_size : Nat
  associativity : Nat
  running : Bool
  simulation_time : Nat
  total_messages : Nat
  total_bytes : Nat
  total_latency : Nat
  max_contention : Nat
  deriving DecidableEq

namespace RingBusSimulator

/-! ## DTD helper functions (`ring_bus_simulator.cpp`, lines 15-155) -/

def is_memory_request (_data : List Nat) (size : Nat) : Bool := decide (size ≥ 8)

/-- First eight bytes at the pointer read as a little-endian `uint64_t`. -/
def extract_memory_address (data : List Nat) (size : Nat) : Nat :=
  if size ≥ 8 then (data.take 8).foldr (fun b acc => b + 256 * acc) 0 else 0

def get_dtd_home_node (s : RingBusSimulator) (address : Nat) : Nat :=
  (address % s.config.num_nodes) % 4294967296

def get_mmu_home_node (s : RingBusSimulator) (address : Nat) : Nat :=
  if s.config.architecture = knc_architecture_t.ARCH_KNL then address % KNL_NUM_MMUS
  else address % KNC_NUM_MMUS

/-- The expression `address & ~(cache_line_size - 1)`: the complement is taken
on the 32-bit `cache_line_size` and zero-extended before the 64-bit `&`. -/
def cache_line_align (s : RingBusSimulator) (address : Nat) : Nat :=
  address &&& not32 ((s.cache_line_size + 4294967295) % 4294967296)

/-- The pointer returned by `find_cache_line` is the pair of the home tile and
the position of the first matching record in the directory of that tile. -/
def find_cache_line (s : RingBusSimulator) (address : Nat) : Option (Nat × Nat) :=
  let cache_line_addr := cache_line_align s address
  let home_tile := get_dtd_home_node s address
  match s.dtd_tiles[home_tile]? with
  | none => none
  | some tile_state =>
    match tile_state.cache_directory.findIdx? (fun cache_line => cache_line.cache_line_address == cache_line_addr) with
    | none => none
    | some idx => some (home_tile, idx)

/-- Dereference of a pointer returned by `find_cache_line`. -/
def cache_line_at (s : RingBusSimulator) (p : Nat × Nat) : Option dtd_cache_line_t :=
  match s.dtd_tiles[p.1]? with
  | none => none
  | some tile_state => tile_state.cache_directory[p.2]?

/-- Store through a pointer returned by `find_cache_line`. -/
def set_cache_line (s : RingBusSimulator) (p : Nat × Nat) (line : dtd_cache_line_t) : RingBusSimulator :=
  match s.dtd_tiles[p.1]? with
  | none => s
  | some tile_state =>
    { s with dtd_tiles := s.dtd_tiles.set p.1 { tile_state with cache_directory := tile_state.cache_directory.set p.2 line } }

def dtd_check_coherency (s : RingBusSimulator) (address requesting_tile : Nat) : Bool :=
  match (find_cache_line s address).bind (cache_line_at s) with
  | none => true
  | some cache_line =>
    if cache_line.owner_tile = requesting_tile then true
    else if cache_line.is_modified then false
    else true

def dtd_invalidate_cacheline (s : RingBusSimulator) (address requesting_tile : Nat) : RingBusSimulator :=
  match find_cache_line s address with
  | none => s
  | some p =>
    match cache_line_at s p with
    | none => s
    | some cache_line =>
      let sharer_mask := cache_line.sharer_mask &&& not32 (shl_one requesting_tile)
      let s1 := set_cache_line s p { cache_line with sharer_mask := sharer_mask, owner_tile := requesting_tile, timestamp := s.simulation_time }
      let home_tile := get_dtd_home_node s address
      match s1.dtd_tiles[home_tile]? with
      | none => s1
      | some tile_state =>
        { s1 with dtd_tiles := s1.dtd_tiles.set home_tile { tile_state with invalidation_requests := (tile_state.invalidation_requests + 1) % 4294967296 } }

def dtd_update_ownership (s : RingBusSimulator) (address owner_tile : Nat) (is_modified : Bool) : RingBusSimulator :=
  match (find_cache_line s address).bind (fun p => (cache_line_at s p).map (fun l => (p, l))) with
  | none =>
    let new_line : dtd_cache_line_t :=
      { cache_line_address := cache_line_align s address, owner_tile := owner_tile, sharer_mask := shl_one owner_tile, is_modified := is_modified, is_exclusive := true, is_shared := false, timestamp := s.simulation_time }
    let home_tile := get_dtd_home_node s address
    match s.dtd_tiles[home_tile]? with
    | none => s
    | some tile_state =>
      { s with dtd_tiles := s.dtd_tiles.set home_tile { tile_state with cache_directory := tile_state.cache_directory ++ [new_line] } }
  | some (p, cache_line) =>
    set_cache_line s p { cache_line with owner_tile := owner_tile, sharer_mask := shl_one owner_tile, is_modified := is_modified, is_exclusive := is_modified, is_shared := !is_modified, timestamp := s.simulation_time }

/-- Shortest-distance computation of lines 272-278: `int32_t` casts of both
nodes, `std::abs`, the unsigned difference `num_nodes - direct_distance`
stored in an `int32_t`, and `std::min` converted to `uint32_t`. -/
def calculate_distance (s : RingBusSimulator) (node1 node2 : Nat) : Nat :=
  let direct_distance : Int := int32_wrap |int32_wrap (int32_wrap node2 - int32_wrap node1)|
  let wrap_distance : Int := int32_wrap ((s.config.num_nodes : Int) - direct_distance)
  uint32_of_int (min direct_distance wrap_distance)

def calculate_dtd_latency (s : RingBusSimulator) (source_tile dest_tile address : Nat) : Nat :=
  let base_latency := calculate_distance s source_tile dest_tile
  if !s.dtd_enabled then base_latency
  else
    match (find_cache_line s address).bind (cache_line_at s) with
    | none => (base_latency + 2) % 4294967296
    | some cache_line =>
      if cache_line.is_modified && decide (cache_line.owner_tile ≠ source_tile) then (base_latency + 3) % 4294967296
      else if cache_line.sharer_mask ≠ shl_one source_tile then (base_latency + 1) % 4294967296
      else base_latency

/-! ## Construction and topology (lines 157-270) -/

/-- The constructor `RingBusSimulator(num_nodes, arch)`. -/
def construct (num_nodes : Nat) (arch : knc_architecture_t) : RingBusSimulator :=
  { config :=
      { num_nodes := num_nodes
        bandwidth_mbps := if arch = knc_architecture_t.ARCH_KNL then 213312 else 134784
        latency_cycles := 2
        buffer_size := 1024
        enable_contention := true
        enable_latency_modeling := true
        architecture := arch
        num_rings := if arch = knc_architecture_t.ARCH_KNL then 2 else 1 }
    nodes := []
    routing_table := []
    dtd_enabled := true
    dtd_home_nodes := List.range num_nodes
    dtd_tiles := (List.range num_nodes).map (fun i =>
      { tile_id := i, cache_directory := [], directory_size := 1024, snoop_requests := 0, invalidation_requests := 0, cache_misses := 0, cache_hits := 0 })
    cache_line_size := 64
    associativity := 8
    running := false
    simulation_time := 0
    total_messages := 0
    total_bytes := 0
    total_latency := 0
    max_contention := 0 }

/-- Entry `routing_table[i][j]` after both loops of `build_ring_topology`:
the clockwise neighbour, replaced by the counter-clockwise one when that
direction is strictly shorter. -/
def routing_entry (num_nodes i j : Nat) : Nat :=
  if i = j then i
  else
    let clockwise_dist := (((j + 4294967296 - i) % 4294967296 + num_nodes) % 4294967296) % num_nodes
    let counter_clockwise_dist := (((i + 4294967296 - j) % 4294967296 + num_nodes) % 4294967296) % num_nodes
    if counter_clockwise_dist < clockwise_dist then
      (((i + 4294967295) % 4294967296 + num_nodes) % 4294967296) % num_nodes
    else ((i + 1) % 4294967296) % num_nodes

def build_ring_topology (s : RingBusSimulator) : RingBusSimulator :=
  { s with routing_table := (List.range s.config.num_nodes).map (fun i =>
      (List.range s.config.num_nodes).map (fun j => routing_entry s.config.num_nodes i j)) }

/-- The member function `initialize()` (the name is reserved in Lean): `nodes.resize` keeps the queues of nodes that
already exist, the counters of every node are cleared. -/
def init_simulator (s : RingBusSimulator) : RingBusSimulator :=
  build_ring_topology
    { s with nodes := (List.range s.config.num_nodes).map (fun i =>
        { node_id := i
          inbound_queue := match s.nodes[i]? with
            | some n => n.inbound_queue
            | none => []
          outbound_queue := match s.nodes[i]? with
            | some n => n.outbound_queue
            | none => []
          buffer_occupancy := 0
          last_activity_time := 0
          messages_sent := 0
          messages_received := 0
          bytes_transmitted := 0
          contention_cycles := 0 }) }

def get_next_hop (s : RingBusSimulator) (source dest : Nat) : Nat :=
  if source < s.config.num_nodes ∧ dest < s.config.num_nodes then
    match s.routing_table[source]? with
    | none => source
    | some row => row.getD dest source
  else source

/-! ## Message passing (lines 280-412) -/

/-- Lines 297-325 of `send_message`: the coherency action taken for a memory
request, returning the new state, `actual_dest` and `dtd_latency`. -/
def send_message_dtd (s : RingBusSimulator) (source_node dest_node : Nat) (data : List Nat)
    (size : Nat) : RingBusSimulator × Nat × Nat :=
  let address := extract_memory_address data size
  let dtd_home := get_dtd_home_node s address
  let coherency_ok := dtd_check_coherency s address source_node
  let r : RingBusSimulator × Nat :=
    if !coherency_ok then
      let s1 := dtd_invalidate_cacheline s address source_node
      match s1.dtd_tiles[dtd_home]? with
      | none => (s1, dtd_home)
      | some tile_state =>
        ({ s1 with dtd_tiles := s1.dtd_tiles.set dtd_home { tile_state with snoop_requests := (tile_state.snoop_requests + 1) % 4294967296 } }, dtd_home)
    else (dtd_update_ownership s address source_node (decide (size > 8)), dest_node)
  (r.1, r.2, calculate_dtd_latency r.1 source_node r.2 address)

/-- The function `send_message`; the result is the returned flag and the state
afterwards.  Indexing `nodes` before `initialize()` has sized it is undefined
in the source; the embedding then leaves the state alone. -/
def send_message (s : RingBusSimulator) (source_node dest_node : Nat) (data : List Nat)
    (size priority : Nat) : Bool × RingBusSimulator :=
  if source_node ≥ s.config.num_nodes ∨ dest_node ≥ s.config.num_nodes then (false, s)
  else
    match s.nodes[source_node]? with
    | none => (false, s)
    | some source0 =>
      if (source0.buffer_occupancy + size) % 4294967296 > s.config.buffer_size then (false, s)
      else
        let r : RingBusSimulator × Nat × Nat :=
          if s.dtd_enabled && is_memory_request data size then send_message_dtd s source_node dest_node data size
          else (s, dest_node, 0)
        let s1 := r.1
        let actual_dest := r.2.1
        let dtd_latency := r.2.2
        let distance := calculate_distance s1 source_node actual_dest
        let base_latency := (distance * s1.config.latency_cycles) % 4294967296
        let message : ring_bus_message_t :=
          { source_node := source_node
            dest_node := actual_dest
            priority := priority
            data := data.take size
            size := size
            timestamp := s1.simulation_time
            delivery_time := s1.simulation_time + base_latency + dtd_latency }
        let source : ring_bus_node_t :=
          { source0 with
            outbound_queue := source0.outbound_queue ++ [message]
            buffer_occupancy := (source0.buffer_occupancy + size) % 4294967296
            last_activity_time := s1.simulation_time }
        (true, { s1 with
                  nodes := s1.nodes.set source_node source
                  total_messages := s1.total_messages + 1
                  total_bytes := s1.total_bytes + size })

def update_performance_stats (s : RingBusSimulator) (_message : ring_bus_message_t) (latency : Nat) : RingBusSimulator :=
  { s with
    total_latency := s.total_latency + latency
    max_contention := if latency > s.max_contention then latency else s.max_contention }

/-- The function `receive_message(node_id, message)`: the returned flag, the
`message` object of the caller afterwards and the state afterwards.  On success
the payload is released with `delete[]` before returning; the record handed
back still carries it. -/
def receive_message (s : RingBusSimulator) (node_id : Nat) (message : ring_bus_message_t) :
    Bool × ring_bus_message_t × RingBusSimulator :=
  if node_id ≥ s.config.num_nodes then (false, message, s)
  else
    match s.nodes[node_id]? with
    | none => (false, message, s)
    | some node =>
      match node.inbound_queue with
      | [] => (false, message, s)
      | front :: rest =>
        if s.simulation_time ≥ front.delivery_time then
          let node1 : ring_bus_node_t :=
            { node with
              inbound_queue := rest
              messages_received := node.messages_received + 1
              last_activity_time := s.simulation_time }
          let s1 := { s with nodes := s.nodes.set node_id node1 }
          let actual_latency := (s.simulation_time + 18446744073709551616 - front.timestamp) % 4294967296
          (true, front, update_performance_stats s1 front actual_latency)
        else (false, front, s)

/-! ## Simulation loop (lines 448-494, 562-594) -/

def advance_simulation (s : RingBusSimulator) : RingBusSimulator :=
  { s with simulation_time := s.simulation_time + 1 }

/-- A call of `send_message` made by a thread that holds `network_mutex`: the
index test of line 282 comes first; the `lock_guard` of line 286 then locks the
mutex a second time.  `network_mutex` is a `std::mutex`, which is not
recursive, so the call never returns: `none`. -/
def send_message_holding_mutex (s : RingBusSimulator) (source_node dest_node : Nat)
    (_data : List Nat) (_size _priority : Nat) : Option (Bool × RingBusSimulator) :=
  if source_node ≥ s.config.num_nodes ∨ dest_node ≥ s.config.num_nodes then some (false, s)
  else none

/-- The function `route_message`.  Its only caller is `process_node_queue`,
which runs inside `process_pending_messages` with `network_mutex` held (line
453), so the nested `send_message` is a call by a thread that holds the mutex;
`none` when the call never returns. -/
def route_message (s : RingBusSimulator) (message : ring_bus_message_t) :
    Option (Bool × RingBusSimulator) :=
  let current_node := message.source_node
  let next_hop := get_next_hop s current_node message.dest_node
  if next_hop ≠ message.dest_node then
    let source_tile := current_node / KNC_CORES_PER_TILE
    let dest_tile := next_hop / KNC_CORES_PER_TILE
    send_message_holding_mutex s source_tile dest_tile message.data message.size message.priority
  else some (true, s)

/-- The `while` loop of `process_node_queue`, run for at most `fuel`
iterations; `none` when the fuel does not suffice or when `route_message` does
not return. -/
def process_node_queue : Nat → RingBusSimulator → Nat → Option RingBusSimulator
  | 0, _, _ => none
  | fuel + 1, s, node_id =>
    match s.nodes[node_id]? with
    | none => some s
    | some node =>
      match node.outbound_queue with
      | [] => some s
      | message :: _ =>
        match route_message s message with
        | none => none
        | some r =>
          if r.1 then
            match r.2.nodes[node_id]? with
            | none => some r.2
            | some node1 =>
              let node2 : ring_bus_node_t :=
                { node1 with
                  outbound_queue := node1.outbound_queue.tail
                  buffer_occupancy := (node1.buffer_occupancy + 4294967296 - message.size % 4294967296) % 4294967296
                  messages_sent := node1.messages_sent + 1
                  bytes_transmitted := node1.bytes_transmitted + message.size }
              process_node_queue fuel { r.2 with nodes := r.2.nodes.set node_id node2 } node_id
          else some r.2

/-- The `for` loop of `process_pending_messages` over the nodes `0 .. num_nodes - 1`. -/
def process_pending_messages (fuel : Nat) (s : RingBusSimulator) : Option RingBusSimulator :=
  (List.range s.config.num_nodes).foldlM (fun st i => process_node_queue fuel st i) s

def step_simulation (fuel : Nat) (s : RingBusSimulator) : Option RingBusSimulator :=
  process_pending_messages fuel (advance_simulation s)

def reset_simulation (s : RingBusSimulator) : RingBusSimulator :=
  { s with
    simulation_time := 0
    nodes := s.nodes.map (fun node =>
      { node with
        inbound_queue := []
        outbound_queue := []
        buffer_occupancy := 0
        last_activity_time := 0
        messages_sent := 0
        messages_received := 0
        bytes_transmitted := 0
        contention_cycles := 0 })
    total_messages := 0
    total_bytes := 0
    total_latency := 0
    max_contention := 0 }

/-- Repeated `step_simulation`: `k` calls, each with its own fuel bound. -/
def run_steps (fuel : Nat) : Nat → RingBusSimulator → Option RingBusSimulator
  | 0, s => some s
  | k + 1, s => (step_simulation fuel s).bind (run_steps fuel k)

end RingBusSimulator

/-! ## `pcie_bridge.h`, `knc_runtime.h` -/

/-- Integer counters of the PCIe bridge.  The accumulated latency is computed
in `double` and the transfer sleeps the caller; neither is part of the
embedding. -/
structure PCIeBridge where
  bytes_transferred_host_to_device : Nat
  bytes_transferred_device_to_host : Nat
  total_transfers : Nat
  deriving DecidableEq

namespace PCIeBridge

def transferDataHostToDevice (b : PCIeBridge) (bytes : Nat) : Bool × PCIeBridge :=
  if bytes = 0 then (false, b)
  else (true, { b with
    bytes_transferred_host_to_device := b.bytes_transferred_host_to_device + bytes
    total_transfers := b.total_transfers + 1 })

def transferDataDeviceToHost (b : PCIeBridge) (bytes : Nat) : Bool × PCIeBridge :=
  if bytes = 0 then (false, b)
  else (true, { b with
    bytes_transferred_device_to_host := b.bytes_transferred_device_to_host + bytes
    total_transfers := b.total_transfers + 1 })

end PCIeBridge

structure knc_register_file_t where
  zmm : List Nat
  k : List Nat
  gpr : List Nat
  rip : Nat
  rflags : Nat
  deriving DecidableEq

structure knc_core_state_t where
  registers : knc_register_file_t
  core_id : Nat
  tile_id : Nat
  is_halted : Bool
  cycles_executed : Nat
  deriving DecidableEq

structure knc_mmu_t where
  mmu_id : Nat
  base_address : Nat
  size : Nat
  tile_id : Nat
  accesses : Nat
  cache_hits : Nat
  cache_misses : Nat
  deriving DecidableEq

/-- The record `knc_memory_system_t` without its array `mmus[KNC_NUM_MMUS]`,
which the runtime never writes or reads (it keeps its own vector `mmus`). -/
structure knc_memory_system_t where
  total_size : Nat
  active_mmus : Nat
  deriving DecidableEq

/-- State of `KNCRuntime`.  `memory` gives the byte stored at each address of
the backing array (meaningful below `memory_size` once `initialize()` has
allocated it; before that the pointer is null and the MMU functions must not
be called); `pcie_bridge` is the bridge object behind the pointer, `none` for
a null pointer. -/
structure KNCRuntime where
  architecture : knc_architecture_t
  core_states : List knc_core_state_t
  memory : Nat → Nat
  memory_system : knc_memory_system_t
  mmus : List knc_mmu_t
  num_cores : Nat
  memory_size : Nat
  should_halt : Bool
  global_cycle_count : Nat
  pcie_bridge : Option PCIeBridge
  initialized : Bool
  running : Bool

namespace KNCRuntime

/-- The constructor `KNCRuntime(cores, mem_size, arch)`. -/
def construct (cores mem_size : Nat) (arch : knc_architecture_t) : KNCRuntime :=
  let num_mmus := if arch = knc_architecture_t.ARCH_KNL then KNL_NUM_MMUS else KNC_NUM_MMUS
  let mmu_size := (if arch = knc_architecture_t.ARCH_KNL then KNL_MMU_SIZE else KNC_MMU_SIZE) % 4294967296
  let num_tiles := if arch = knc_architecture_t.ARCH_KNL then KNL_NUM_TILES else KNC_NUM_TILES
  { architecture := arch
    core_states := (List.range cores).map (fun i =>
      { registers := { zmm := List.replicate 32 0, k := List.replicate 8 0, gpr := List.replicate 16 0, rip := 0, rflags := 0 }
        core_id := i
        tile_id := i / KNC_CORES_PER_TILE
        is_halted := true
        cycles_executed := 0 })
    memory := fun _ => 0
    memory_system := { total_size := mem_size, active_mmus := num_mmus }
    mmus := (List.range num_mmus).map (fun i =>
      { mmu_id := i
        base_address := (i * mmu_size) % 4294967296
        size := mmu_size
        tile_id := (i * (num_tiles / num_mmus)) % 4294967296
        accesses := 0
        cache_hits := 0
        cache_misses := 0 })
    num_cores := cores
    memory_size := mem_size
    should_halt := false
    global_cycle_count := 0
    pcie_bridge := none
    initialized := false
    running := false }

/-- The member function `initialize()` (the name is reserved in Lean): the
backing array is allocated and zeroed and every register file is cleared. -/
def init_runtime (rt : KNCRuntime) : Bool × KNCRuntime :=
  (true, { rt with
    memory := fun _ => 0
    core_states := rt.core_states.map (fun core =>
      { core with registers := { zmm := List.replicate 32 0, k := List.replicate 8 0, gpr := List.replicate 16 0, rip := 0, rflags := 0 } })
    initialized := true })

def set_pcie_bridge (rt : KNCRuntime) (bridge : Option PCIeBridge) : KNCRuntime :=
  { rt with pcie_bridge := bridge }

def max_mmus (rt : KNCRuntime) : Nat :=
  if rt.architecture = knc_architecture_t.ARCH_KNL then KNL_NUM_MMUS else KNC_NUM_MMUS

def address_to_mmu (rt : KNCRuntime) (address : Nat) : Nat :=
  if address ≥ rt.memory_size then max_mmus rt
  else if rt.architecture = knc_architecture_t.ARCH_KNL then address % KNL_NUM_MMUS
  else address % KNC_NUM_MMUS

def is_valid_address (rt : KNCRuntime) (address : Nat) : Bool := decide (address < rt.memory_size)

/-- Result of `memcpy(memory + address, data, size)` on the backing array. -/
def memcpy_to_memory (memory : Nat → Nat) (address : Nat) (data : List Nat) (size : Nat) : Nat → Nat :=
  fun a => if address ≤ a ∧ a < address + size then data.getD (a - address) 0 else memory a

/-- Result of `memcpy(data, memory + address, size)` on the buffer of the caller. -/
def memcpy_from_memory (memory : Nat → Nat) (address : Nat) (data : List Nat) (size : Nat) : List Nat :=
  (List.range size).map (fun k => memory (address + k)) ++ data.drop size

/-- The statistics update shared by `mmu_write` and `mmu_read`; `r` is the
value returned by `rand()`. -/
def update_mmu_statistics (mmus : List knc_mmu_t) (mmu_id r : Nat) : List knc_mmu_t :=
  match mmus[mmu_id]? with
  | none => mmus
  | some m =>
    mmus.set mmu_id
      (if r % 100 < 90 then { m with accesses := m.accesses + 1, cache_hits := m.cache_hits + 1 }
       else { m with accesses := m.accesses + 1, cache_misses := m.cache_misses + 1 })

/-- The function `mmu_write(address, data, size)`; `r` is the value returned by
`rand()`.  The sum `address + size - 1` is a 64-bit unsigned sum.  The
embedding describes the calls whose buffer `data` holds `size` bytes: the
buffer and the backing array are two objects of one 64-bit address space, so
`size + memory_size ≤ 2^64`, the sum cannot wrap for an address inside the
array, and the `memcpy` stays inside the array.  For other arguments the
`memcpy` of the source is undefined and the embedding says nothing. -/
def mmu_write (rt : KNCRuntime) (address : Nat) (data : List Nat) (size r : Nat) : knc_error_t × KNCRuntime :=
  if !is_valid_address rt address || !is_valid_address rt ((address + size + 18446744073709551615) % 18446744073709551616) then
    (knc_error_t.KNC_ERROR_MEMORY_ACCESS, rt)
  else
    let mmu_id := address_to_mmu rt address
    if mmu_id ≥ max_mmus rt then (knc_error_t.KNC_ERROR_MEMORY_ACCESS, rt)
    else
      (knc_error_t.KNC_SUCCESS, { rt with
        pcie_bridge := rt.pcie_bridge.map (fun b => (b.transferDataHostToDevice size).2)
        mmus := update_mmu_statistics rt.mmus mmu_id r
        memory := memcpy_to_memory rt.memory address data size })

/-- The function `mmu_read(address, data, size)`: the error code, the buffer of
the caller afterwards and the state afterwards; `r` is the value returned by
`rand()`.  As for `mmu_write`, the embedding describes the calls whose buffer
`data` holds `size` bytes. -/
def mmu_read (rt : KNCRuntime) (address : Nat) (data : List Nat) (size r : Nat) : knc_error_t × List Nat × KNCRuntime :=
  if !is_valid_address rt address || !is_valid_address rt ((address + size + 18446744073709551615) % 18446744073709551616) then
    (knc_error_t.KNC_ERROR_MEMORY_ACCESS, data, rt)
  else
    let mmu_id := address_to_mmu rt address
    if mmu_id ≥ max_mmus rt then (knc_error_t.KNC_ERROR_MEMORY_ACCESS, data, rt)
    else
      (knc_error_t.KNC_SUCCESS, memcpy_from_memory rt.memory address data size, { rt with
        pcie_bridge := rt.pcie_bridge.map (fun b => (b.transferDataDeviceToHost size).2)
        mmus := update_mmu_statistics rt.mmus mmu_id r })

/-! ### Program load and core execution (`knc_runtime.cpp`, lines 134-328) -/

/-- The function `load_program(program_data, program_size)`: the returned flag
and the state afterwards.  The loop over `i < num_cores` resets the entry
point of the cores with those indices. -/
def load_program (rt : KNCRuntime) (program_data : List Nat) (program_size : Nat) : Bool × KNCRuntime :=
  if !rt.initialized then (false, rt)
  else if program_size > rt.memory_size then (false, rt)
  else
    (true, { rt with
      memory := memcpy_to_memory rt.memory 0 program_data program_size
      core_states := rt.core_states.mapIdx (fun i core =>
        if i < rt.num_cores then
          { core with registers := { core.registers with rip := 0 }, is_halted := false }
        else core) })

/-- The function `syscall_exit`; the message on standard output is not part of
the embedding. -/
def syscall_exit (rt : KNCRuntime) (core : knc_core_state_t) (_exit_code : Int) :
    knc_error_t × knc_core_state_t × KNCRuntime :=
  (knc_error_t.KNC_SUCCESS, { core with is_halted := true }, { rt with should_halt := true })

/-- The function `syscall_write`; the bytes sent to standard output are not part
of the embedding. -/
def syscall_write (rt : KNCRuntime) (core : knc_core_state_t) :
    knc_error_t × knc_core_state_t × KNCRuntime :=
  let fd := core.registers.gpr.getD 1 0
  let count := core.registers.gpr.getD 3 0
  if fd = 1 then
    (knc_error_t.KNC_SUCCESS,
      { core with registers := { core.registers with gpr := core.registers.gpr.set 0 count } }, rt)
  else
    (knc_error_t.KNC_ERROR_SYSTEM_CALL,
      { core with registers := { core.registers with gpr := core.registers.gpr.set 0 18446744073709551615 } }, rt)

def syscall_read (rt : KNCRuntime) (core : knc_core_state_t) :
    knc_error_t × knc_core_state_t × KNCRuntime :=
  let fd := core.registers.gpr.getD 1 0
  if fd = 0 then
    (knc_error_t.KNC_SUCCESS,
      { core with registers := { core.registers with gpr := core.registers.gpr.set 0 0 } }, rt)
  else
    (knc_error_t.KNC_ERROR_SYSTEM_CALL,
      { core with registers := { core.registers with gpr := core.registers.gpr.set 0 18446744073709551615 } }, rt)

/-- The function `handle_system_call`; `syscall` is the value of the enumeration
`knc_syscall_type_t` the switch compares (60 exit, 1 write, 0 read). -/
def handle_system_call (rt : KNCRuntime) (core : knc_core_state_t) (syscall : Nat) :
    knc_error_t × knc_core_state_t × KNCRuntime :=
  if syscall = 60 then syscall_exit rt core (int32_wrap (core.registers.gpr.getD 0 0))
  else if syscall = 1 then syscall_write rt core
  else if syscall = 0 then syscall_read rt core
  else (knc_error_t.KNC_ERROR_SYSTEM_CALL, core, rt)

/-- The function `execute_instruction(core, instruction)`; `instruction` is the
address the pointer `memory + rip` refers to.  The cast of the 64-bit `gpr[0]`
to the 32-bit enumeration keeps its low 32 bits. -/
def execute_instruction (rt : KNCRuntime) (core : knc_core_state_t) (instruction : Nat) :
    knc_error_t × knc_core_state_t × KNCRuntime :=
  if rt.memory instruction = 15 ∧ rt.memory (instruction + 1) = 5 then
    handle_system_call rt core (core.registers.gpr.getD 0 0 % 4294967296)
  else if rt.memory instruction = 144 then (knc_error_t.KNC_SUCCESS, core, rt)
  else if rt.memory instruction = 195 then (knc_error_t.KNC_SUCCESS, { core with is_halted := true }, rt)
  else (knc_error_t.KNC_SUCCESS, core, rt)

/-- The condition of the `while` loop of `execute_core`. -/
def execute_core_condition (rt : KNCRuntime) (core_id : Nat) : Bool :=
  match rt.core_states[core_id]? with
  | none => false
  | some core => rt.running && !rt.should_halt && !core.is_halted

/-- One pass through the body of the `while` loop of `execute_core`: the flag
tells whether the body left the function with `return`.  The debugger and
performance-monitor hooks only observe the core and are not part of the
embedding. -/
def execute_core_body (rt : KNCRuntime) (core_id : Nat) : Bool × KNCRuntime :=
  match rt.core_states[core_id]? with
  | none => (true, rt)
  | some core =>
    let rip := core.registers.rip
    if rip ≥ rt.memory_size then
      (true, { rt with core_states := rt.core_states.set core_id { core with is_halted := true } })
    else
      let r := execute_instruction rt core rip
      let core1 := r.2.1
      let rt1 := r.2.2
      if r.1 ≠ knc_error_t.KNC_SUCCESS then
        (true, { rt1 with core_states := rt1.core_states.set core_id { core1 with is_halted := true } })
      else
        let core2 : knc_core_state_t :=
          { core1 with
            registers := { core1.registers with rip := (core1.registers.rip + 1) % 18446744073709551616 }
            cycles_executed := core1.cycles_executed + 1 }
        (false, { rt1 with core_states := rt1.core_states.set core_id core2 })

/-- The worker `execute_core(core_id)` run on its own for at most `fuel` loop
iterations; `none` when the fuel does not suffice. -/
def execute_core : Nat → KNCRuntime → Nat → Option KNCRuntime
  | 0, _, _ => none
  | fuel + 1, rt, core_id =>
    if execute_core_condition rt core_id then
      let r := execute_core_body rt core_id
      if r.1 then some r.2 else execute_core fuel r.2 core_id
    else some rt

/-- One scheduling step of the worker of `core_id`: the loop test followed,
when it holds, by one pass through the loop body. -/
def execute_core_step (rt : KNCRuntime) (core_id : Nat) : KNCRuntime :=
  if execute_core_condition rt core_id then (execute_core_body rt core_id).2 else rt

/-- An interleaving of the workers: the listed cores take one scheduling step
each, in order. -/
def run_schedule (rt : KNCRuntime) (schedule : List Nat) : KNCRuntime :=
  schedule.foldl execute_core_step rt

/-- The part of `run()` before the threads are started: the error return for
an uninitialized runtime, otherwise the two stores. -/
def run_begin (rt : KNCRuntime) : Option knc_error_t × KNCRuntime :=
  if !rt.initialized then (some knc_error_t.KNC_ERROR_INVALID_ARGUMENT, rt)
  else (none, { rt with running := true, should_halt := false })

/-- The condition of the coordinator loop of `run()`. -/
def run_loop_condition (rt : KNCRuntime) : Bool := rt.running && !rt.should_halt

def update_global_cycle_count (rt : KNCRuntime) : KNCRuntime :=
  { rt with global_cycle_count := rt.global_cycle_count + 1 }

def halt (rt : KNCRuntime) : knc_error_t × KNCRuntime :=
  (knc_error_t.KNC_SUCCESS, { rt with running := false })

/-- One call of a member function of the embedding, or one scheduling step of a
worker. -/
inductive Step : KNCRuntime → KNCRuntime → Prop where
  | init (rt : KNCRuntime) : Step rt (init_runtime rt).2
  | set_pcie_bridge (rt : KNCRuntime) (bridge : Option PCIeBridge) :
      Step rt (set_pcie_bridge rt bridge)
  | load_program (rt : KNCRuntime) (program_data : List Nat) (program_size : Nat) :
      Step rt (load_program rt program_data program_size).2
  | mmu_write (rt : KNCRuntime) (address : Nat) (data : List Nat) (size r : Nat) :
      Step rt (mmu_write rt address data size r).2
  | mmu_read (rt : KNCRuntime) (address : Nat) (data : List Nat) (size r : Nat) :
      Step rt (mmu_read rt address data size r).2.2
  | run_begin (rt : KNCRuntime) : Step rt (run_begin rt).2
  | execute_core_step (rt : KNCRuntime) (core_id : Nat) : Step rt (execute_core_step rt core_id)
  | update_global_cycle_count (rt : KNCRuntime) : Step rt (update_global_cycle_count rt)
  | halt (rt : KNCRuntime) : Step rt (halt rt).2

/-- States of the runtime reachable from the constructor. -/
inductive Reachable : KNCRuntime → Prop where
  | construct (cores mem_size : Nat) (arch : knc_architecture_t) :
      Reachable (construct cores mem_size arch)
  | step (rt rt1 : KNCRuntime) : Reachable rt → Step rt rt1 → Reachable rt1

end KNCRuntime

/-! ## `knc_instruction_translator.h`, `xed/xed-decode.h`

Bytes are natural numbers below 256, a byte pointer is the list of bytes it
points to, `std::vector` and `std::string` are lists and strings, the
`std::unordered_map` from instruction classes to instruction types is an
association list.  The 64-bit statistics counters are natural numbers.  The
decoder of the repository (`xed/xed-decode.h`) accepts every input and reports
the instruction class `XED_ICLASS_INVALID`; the length it reports is the field
`_decoded_length` of a local `xed_decoded_inst_t` that no code writes, so the
value is an input `decoded_length` of `translate_instruction`.  In the same
way `indeterminate_length` stands for the member `translated_length` of a
record on the paths that return it without assigning it. -/

def XED_ERROR_NONE : Nat := 0
def XED_ICLASS_INVALID : Nat := 0
def XED_ICLASS_VPADDD : Nat := 100
def XED_ICLASS_VPSUBD : Nat := 101
def XED_ICLASS_VPMULUD : Nat := 102
def XED_ICLASS_VPERMD : Nat := 103
def XED_ICLASS_VPBROADCASTD : Nat := 104
def XED_ICLASS_VGATHERDPS : Nat := 105
def XED_ICLASS_VSCATTERDPS : Nat := 106
def XED_ICLASS_VCMPPS : Nat := 107
def XED_ICLASS_VMAXPS : Nat := 108
def XED_ICLASS_VMINPS : Nat := 109

def KNC_INST_VPADDD : Nat := 254
def KNC_INST_VPSUBD : Nat := 250
def KNC_INST_VPMULUD : Nat := 113
def KNC_INST_VPERMD : Nat := 126
def KNC_INST_VPBROADCASTD : Nat := 124
def KNC_INST_VGATHERDPS : Nat := 125
def KNC_INST_VSCATTERDPS : Nat := 127
def KNC_INST_VCMPPS : Nat := 194
def KNC_INST_VMAXPS : Nat := 95
def KNC_INST_VMINPS : Nat := 93

/-- The decoder `xed_decode` of `xed/xed-decode.h`. -/
def xed_decode (_itext : List Nat) (_bytes : Nat) : Nat := XED_ERROR_NONE

/-- The function `xed_decoded_inst_get_iclass` of `xed/xed-decode.h`. -/
def xed_decoded_inst_get_iclass : Nat := XED_ICLASS_INVALID

/-- The members of `knc_translation_context_t` other than the decoder record. -/
structure knc_translation_context_t where
  knc_type : Nat
  instruction_length : Nat
  instruction_bytes : List Nat
  is_vector_instruction : Bool
  is_knc_specific : Bool
  needs_translation : Bool
deriving DecidableEq

structure knc_translated_instruction_t where
  translated_bytes : List Nat
  translated_length : Nat
  description : String
  is_emulated : Bool
  emulation_overhead_cycles : Nat
deriving DecidableEq

structure knc_translation_cache_entry_t where
  original_address : Nat
  original_bytes : List Nat
  translated : knc_translated_instruction_t
  access_count : Nat
  is_valid : Bool
deriving DecidableEq

/-- State of a `KNCInstructionTranslator`: the translation cache, the map from
instruction classes to instruction types, and the statistics. -/
structure KNCInstructionTranslator where
  translation_cache : List knc_translation_cache_entry_t
  xed_to_knc_map : List (Nat × Nat)
  instructions_translated : Nat
  cache_hits : Nat
  cache_misses : Nat
  knc_specific_instructions : Nat
  vector_instructions : Nat
deriving DecidableEq

namespace KNCInstructionTranslator

def CACHE_SIZE : Nat := 16384

/-- A value-initialized cache entry, as `translation_cache.resize` creates it. -/
def empty_cache_entry : knc_translation_cache_entry_t :=
  { original_address := 0
    original_bytes := List.replicate 16 0
    translated := { translated_bytes := [], translated_length := 0, description := "", is_emulated := false, emulation_overhead_cycles := 0 }
    access_count := 0
    is_valid := false }

/-- The constructor `KNCInstructionTranslator()`. -/
def construct : KNCInstructionTranslator :=
  { translation_cache := List.replicate CACHE_SIZE empty_cache_entry
    xed_to_knc_map := []
    instructions_translated := 0
    cache_hits := 0
    cache_misses := 0
    knc_specific_instructions := 0
    vector_instructions := 0 }

/-- The assignment `map[key] = value` of `std::unordered_map`. -/
def map_assign (m : List (Nat × Nat)) (key value : Nat) : List (Nat × Nat) :=
  (key, value) :: m.filter (fun p => p.1 ≠ key)

/-- The function `initialize_instruction_maps` (the table of names is only
printed and is not part of the embedding). -/
def initialize_instruction_maps (t : KNCInstructionTranslator) : KNCInstructionTranslator :=
  let m0 := t.xed_to_knc_map
  let m1 := map_assign m0 XED_ICLASS_VPADDD KNC_INST_VPADDD
  let m2 := map_assign m1 XED_ICLASS_VPSUBD KNC_INST_VPSUBD
  let m3 := map_assign m2 XED_ICLASS_VPMULUD KNC_INST_VPMULUD
  let m4 := map_assign m3 XED_ICLASS_VPERMD KNC_INST_VPERMD
  let m5 := map_assign m4 XED_ICLASS_VPBROADCASTD KNC_INST_VPBROADCASTD
  let m6 := map_assign m5 XED_ICLASS_VGATHERDPS KNC_INST_VGATHERDPS
  let m7 := map_assign m6 XED_ICLASS_VSCATTERDPS KNC_INST_VSCATTERDPS
  let m8 := map_assign m7 XED_ICLASS_VCMPPS KNC_INST_VCMPPS
  let m9 := map_assign m8 XED_ICLASS_VMAXPS KNC_INST_VMAXPS
  let m10 := map_assign m9 XED_ICLASS_VMINPS KNC_INST_VMINPS
  { t with xed_to_knc_map := m10 }

/-- The member function `initialize()` (the name is reserved in Lean). -/
def init_translator (t : KNCInstructionTranslator) : Bool × KNCInstructionTranslator :=
  (true, initialize_instruction_maps t)

def generate_avx512_vector_op (avx512_mnemonic : String) : List Nat :=
  [98] ++ (if avx512_mnemonic = "vpaddd" then [1, 0, 88]
           else if avx512_mnemonic = "vpsubd" then [1, 0, 250]
           else []) ++ [0, 0]

def generate_vector_broadcast : List Nat := [98, 1, 0, 124, 0, 0]

def generate_vector_gather : List Nat := [98, 1, 0, 125, 0, 0]

def generate_vector_scatter : List Nat := [98, 1, 0, 127, 0, 0]

def translate_vpaddd : knc_translated_instruction_t :=
  { translated_bytes := generate_avx512_vector_op "vpaddd"
    translated_length := (generate_avx512_vector_op "vpaddd").length
    description := "KNC VPADDD -> AVX-512 VPADDD"
    is_emulated := false
    emulation_overhead_cycles := 0 }

def translate_vpsubd : knc_translated_instruction_t :=
  { translated_bytes := generate_avx512_vector_op "vpsubd"
    translated_length := (generate_avx512_vector_op "vpsubd").length
    description := "KNC VPSUBD -> AVX-512 VPSUBD"
    is_emulated := false
    emulation_overhead_cycles := 1 }

def translate_vpmulud : knc_translated_instruction_t :=
  { translated_bytes := generate_avx512_vector_op "vpmulud"
    translated_length := (generate_avx512_vector_op "vpmulud").length
    description := "KNC VPMULUD -> AVX-512 VPMULUD"
    is_emulated := false
    emulation_overhead_cycles := 1 }

def translate_vpermd : knc_translated_instruction_t :=
  { translated_bytes := generate_avx512_vector_op "vpermd"
    translated_length := (generate_avx512_vector_op "vpermd").length
    description := "KNC VPERMD -> AVX-512 VPERMD"
    is_emulated := false
    emulation_overhead_cycles := 1 }

def translate_vpbroadcastd : knc_translated_instruction_t :=
  { translated_bytes := generate_vector_broadcast
    translated_length := generate_vector_broadcast.length
    description := "KNC VPBROADCASTD -> AVX-512 VPBROADCASTD"
    is_emulated := false
    emulation_overhead_cycles := 0 }

def translate_vgatherdps : knc_translated_instruction_t :=
  { translated_bytes := generate_vector_gather
    translated_length := generate_vector_gather.length
    description := "KNC VGATHERDPS -> AVX-512 VGATHERDPS"
    is_emulated := false
    emulation_overhead_cycles := 1 }

def translate_vscatterdps : knc_translated_instruction_t :=
  { translated_bytes := generate_vector_scatter
    translated_length := generate_vector_scatter.length
    description := "KNC VSCATTERDPS -> AVX-512 VSCATTERDPS"
    is_emulated := false
    emulation_overhead_cycles := 1 }

def translate_vcmpps : knc_translated_instruction_t :=
  { translated_bytes := generate_avx512_vector_op "vcmpps"
    translated_length := (generate_avx512_vector_op "vcmpps").length
    description := "KNC VCMPPS -> AVX-512 VCMPPS"
    is_emulated := false
    emulation_overhead_cycles := 1 }

def translate_vmaxps : knc_translated_instruction_t :=
  { translated_bytes := generate_avx512_vector_op "vmaxps"
    translated_length := (generate_avx512_vector_op "vmaxps").length
    description := "KNC VMAXPS -> AVX-512 VMAXPS"
    is_emulated := false
    emulation_overhead_cycles := 1 }

def translate_vminps : knc_translated_instruction_t :=
  { translated_bytes := generate_avx512_vector_op "vminps"
    translated_length := (generate_avx512_vector_op "vminps").length
    description := "KNC VMINPS -> AVX-512 VMINPS"
    is_emulated := false
    emulation_overhead_cycles := 1 }

/-- The function `translate_vector_instruction`; the `default` case returns a
record whose `translated_length` was never assigned. -/
def translate_vector_instruction (ctx : knc_translation_context_t) (indeterminate_length : Nat) :
    knc_translated_instruction_t :=
  if ctx.knc_type = KNC_INST_VPADDD then translate_vpaddd
  else if ctx.knc_type = KNC_INST_VPSUBD then translate_vpsubd
  else if ctx.knc_type = KNC_INST_VPMULUD then translate_vpmulud
  else if ctx.knc_type = KNC_INST_VPERMD then translate_vpermd
  else if ctx.knc_type = KNC_INST_VPBROADCASTD then translate_vpbroadcastd
  else if ctx.knc_type = KNC_INST_VGATHERDPS then translate_vgatherdps
  else if ctx.knc_type = KNC_INST_VSCATTERDPS then translate_vscatterdps
  else if ctx.knc_type = KNC_INST_VCMPPS then translate_vcmpps
  else if ctx.knc_type = KNC_INST_VMAXPS then translate_vmaxps
  else if ctx.knc_type = KNC_INST_VMINPS then translate_vminps
  else
    { translated_bytes := []
      translated_length := indeterminate_length
      description := "Unknown vector instruction - needs emulation"
      is_emulated := true
      emulation_overhead_cycles := 10 }

def translate_scalar_instruction (ctx : knc_translation_context_t) : knc_translated_instruction_t :=
  { translated_bytes :=
      if ctx.instruction_length > 0 then ctx.instruction_bytes.take ctx.instruction_length else []
    translated_length := ctx.instruction_length
    description := "KNC scalar instruction - emulation needed"
    is_emulated := true
    emulation_overhead_cycles := 5 }

def is_knc_vector_instruction (iclass : Nat) : Bool :=
  iclass = XED_ICLASS_VPADDD || iclass = XED_ICLASS_VPSUBD || iclass = XED_ICLASS_VPMULUD
  || iclass = XED_ICLASS_VPERMD || iclass = XED_ICLASS_VPBROADCASTD
  || iclass = XED_ICLASS_VGATHERDPS || iclass = XED_ICLASS_VSCATTERDPS
  || iclass = XED_ICLASS_VCMPPS || iclass = XED_ICLASS_VMAXPS || iclass = XED_ICLASS_VMINPS

def is_knc_specific_instruction (_iclass : Nat) : Bool := false

/-- The function `classify_instruction`: the entry of `xed_to_knc_map` for the
instruction class of the decoded instruction, or the class itself. -/
def classify_instruction (t : KNCInstructionTranslator) : Nat :=
  let iclass := xed_decoded_inst_get_iclass
  match t.xed_to_knc_map.lookup iclass with
  | some knc_type => knc_type
  | none => iclass

def get_cache_index (address : Nat) : Nat := (address / 16) % CACHE_SIZE

/-- The function `lookup_in_cache`: the cached record on a hit, and the state
afterwards (`access_count` is a 32-bit counter). -/
def lookup_in_cache (t : KNCInstructionTranslator) (address : Nat) :
    Option knc_translated_instruction_t × KNCInstructionTranslator :=
  let index := get_cache_index address
  match t.translation_cache[index]? with
  | none => (none, t)
  | some entry =>
    if entry.is_valid ∧ entry.original_address = address then
      (some entry.translated, { t with
        translation_cache := t.translation_cache.set index
          { entry with access_count := (entry.access_count + 1) % 4294967296 } })
    else (none, t)

/-- The function `add_to_cache`; the `memcpy` overwrites the first
`min(16, translated_length)` bytes kept in the entry. -/
def add_to_cache (t : KNCInstructionTranslator) (address : Nat) (original_bytes : List Nat)
    (translated : knc_translated_instruction_t) : KNCInstructionTranslator :=
  let index := get_cache_index address
  match t.translation_cache[index]? with
  | none => t
  | some entry =>
    let n := min 16 translated.translated_length
    { t with
      translation_cache := t.translation_cache.set index
        { original_address := address
          original_bytes := original_bytes.take n ++ entry.original_bytes.drop n
          translated := translated
          access_count := 1
          is_valid := true } }

/-- The function `translate_instruction(address, instruction_bytes)`: the
returned record and the state afterwards. -/
def translate_instruction (t : KNCInstructionTranslator) (address : Nat)
    (instruction_bytes : List Nat) (decoded_length indeterminate_length : Nat) :
    knc_translated_instruction_t × KNCInstructionTranslator :=
  let t1 := { t with instructions_translated := t.instructions_translated + 1 }
  match lookup_in_cache t1 address with
  | (some cached_result, t2) => (cached_result, { t2 with cache_hits := t2.cache_hits + 1 })
  | (none, t2) =>
    let t3 := { t2 with cache_misses := t2.cache_misses + 1 }
    if xed_decode instruction_bytes 15 ≠ XED_ERROR_NONE then
      ({ translated_bytes := []
         translated_length := indeterminate_length
         description := ""
         is_emulated := false
         emulation_overhead_cycles := 0 }, t3)
    else
      let iclass := xed_decoded_inst_get_iclass
      let ctx : knc_translation_context_t :=
        { knc_type := classify_instruction t3
          instruction_length := decoded_length
          instruction_bytes := instruction_bytes
          is_vector_instruction := is_knc_vector_instruction iclass
          is_knc_specific := is_knc_specific_instruction iclass
          needs_translation := is_knc_specific_instruction iclass || is_knc_vector_instruction iclass }
      if ctx.is_vector_instruction then
        let t4 := { t3 with vector_instructions := t3.vector_instructions + 1 }
        let cached_result := translate_vector_instruction ctx indeterminate_length
        (cached_result, add_to_cache t4 address instruction_bytes cached_result)
      else if ctx.is_knc_specific then
        let t4 := { t3 with knc_specific_instructions := t3.knc_specific_instructions + 1 }
        let cached_result := translate_scalar_instruction ctx
        (cached_result, add_to_cache t4 address instruction_bytes cached_result)
      else
        let cached_result : knc_translated_instruction_t :=
          { translated_bytes := instruction_bytes.take ctx.instruction_length
            translated_length := ctx.instruction_length
            description := "Native x86 instruction"
            is_emulated := false
            emulation_overhead_cycles := 0 }
        (cached_result, add_to_cache t3 address instruction_bytes cached_result)

/-- One call of `translate_instruction` with the values it reads. -/
structure translate_call where
  address : Nat
  instruction_bytes : List Nat
  decoded_length : Nat
  indeterminate_length : Nat
deriving DecidableEq

/-- A sequence of calls of `translate_instruction`, first call first. -/
def run_calls (t : KNCInstructionTranslator) (calls : List translate_call) : KNCInstructionTranslator :=
  calls.foldl (fun t c =>
    (translate_instruction t c.address c.instruction_bytes c.decoded_length c.indeterminate_length).2) t

end KNCInstructionTranslator

/-! ## `knc_binary_loader.h`, `knc_binary_loader.cpp` (lines 67-124, 245-247) -/

structure elf64_header_t where
  e_ident : List Nat
  e_type : Nat
  e_machine : Nat
  e_version : Nat
  e_entry : Nat
  e_phoff : Nat
  e_shoff : Nat
  e_flags : Nat
  e_ehsize : Nat
  e_phentsize : Nat
  e_phnum : Nat
  e_shentsize : Nat
  e_shnum : Nat
  e_shstrndx : Nat
  deriving DecidableEq

/-- The record `knc_binary_info_t` without its symbol and relocation tables. -/
structure knc_binary_info_t where
  filename : String
  entry_point : Nat
  text_section : List Nat
  data_section : List Nat
  is_knc_binary : Bool
  deriving DecidableEq

namespace KNCBinaryLoader

def EM_K1OM : Nat := 181

/-- The function `validate_elf_header`; `e_ident[i]` is `e_ident.getD i 0` and
the characters `E`, `L`, `F` are the bytes 69, 76, 70.  The messages on the
error stream are not part of the embedding. -/
def validate_elf_header (header : elf64_header_t) : Bool :=
  if header.e_ident.getD 0 0 ≠ 127 ∨ header.e_ident.getD 1 0 ≠ 69
      ∨ header.e_ident.getD 2 0 ≠ 76 ∨ header.e_ident.getD 3 0 ≠ 70 then false
  else if header.e_ident.getD 4 0 ≠ 2 then false
  else if header.e_ident.getD 5 0 ≠ 1 then false
  else true

def is_knc_machine (machine : Nat) : Bool := decide (machine = EM_K1OM)

/-- Lines 67-79 of `load_binary`, between reading the header and reading the
program headers: `none` stands for the `return false` after a failed
validation, otherwise the entry point and the machine flag are recorded (a
machine other than `EM_K1OM` only produces a warning). -/
def load_binary_header (binary_info : knc_binary_info_t) (header : elf64_header_t) :
    Option knc_binary_info_t :=
  if !validate_elf_header header then none
  else some { binary_info with
    entry_point := header.e_entry
    is_knc_binary := is_knc_machine header.e_machine }

end KNCBinaryLoader

/-! ## `main.cpp`

`getopt_long`, `strtoul` and `strtoull` belong to the C library.  The loop of
`parse_arguments` is run over the list of values `getopt_long` returns before
it returns -1, each with the `optarg` it sets; the two conversion functions
are parameters, and so is the value `run_emulation` returns.  Standard output
is the text written to it; the messages on the error stream are named by a
constructor each. -/

structure imic_sde_config where
  binary_path : String
  enable_debugging : Bool
  enable_performance_monitoring : Bool
  enable_ring_bus_simulation : Bool
  target_architecture : knc_architecture_t
  num_cores : Nat
  memory_size : Nat
  config_file : String
  deriving DecidableEq

/-- One return of `getopt_long`: the returned value `c` and `optarg`. -/
structure getopt_result where
  c : Int
  optarg : String
  deriving DecidableEq

/-- The messages `parse_arguments` writes to the error stream. -/
inductive parse_error where
  | unsupported_architecture (optarg : String)
  | cores_zero
  | memory_zero
  | cores_exceed (max_cores : Nat)
  | memory_exceed (max_memory_mb : Nat)
  | no_binary
  deriving DecidableEq

def detect_host_architecture : knc_architecture_t := knc_architecture_t.ARCH_KNC

def get_num_cores (arch : knc_architecture_t) : Nat :=
  match arch with
  | knc_architecture_t.ARCH_KNC => KNC_NUM_CORES
  | knc_architecture_t.ARCH_KNL => KNL_NUM_CORES
  | knc_architecture_t.ARCH_KNF => KNC_NUM_CORES

def get_memory_size (arch : knc_architecture_t) : Nat :=
  match arch with
  | knc_architecture_t.ARCH_KNC => KNC_MEMORY_SIZE
  | knc_architecture_t.ARCH_KNL => KNL_MEMORY_SIZE
  | knc_architecture_t.ARCH_KNF => KNC_MEMORY_SIZE

/-- The text `print_usage(program_name)` writes to standard output. -/
def print_usage (program_name : String) : String :=
  "IMIC_SDS - Independent Many Integrated Core Software Development Suite\n"
  ++ "Supports KNC, KNL architectures\n\n"
  ++ "Usage: " ++ program_name ++ " [options] <knc_binary>\n\n"
  ++ "Options:\n"
  ++ "  -h, --help                    Show this help message\n"
  ++ "  -d, --debug                   Enable debugging mode\n"
  ++ "  -p, --performance             Enable performance monitoring\n"
  ++ "  -r, --ring-bus               Enable ring bus simulation\n"
  ++ "  -a, --arch <architecture>     Target architecture (knc, knl)\n"
  ++ "  -c, --cores <num>             Number of cores to simulate (default: auto)\n"
  ++ "  -m, --memory <size>            Memory size in MB (default: auto)\n"
  ++ "  -f, --config <file>           Configuration file\n"
  ++ "\nArchitectures:\n"
  ++ "  knc - Knights Corner (Xeon Phi 5110P, 60 cores, 8GB)\n"
  ++ "  knl - Knights Landing (Xeon Phi 7250, 68 cores, 16GB)\n"
  ++ "\nExamples:\n"
  ++ "  " ++ program_name ++ " --arch knl --debug --performance my_knl_program\n"
  ++ "  " ++ program_name ++ " --ring-bus --cores 30 vector_benchmark\n"

/-- What `parse_arguments` leaves behind: the returned flag, the configuration,
standard output and the error stream. -/
structure parse_result where
  ok : Bool
  config : imic_sde_config
  out : String
  err : List parse_error
  deriving DecidableEq

/-- The defaults `parse_arguments` stores before the option loop;
`binary_path` is empty until the end of the function. -/
def default_config : imic_sde_config :=
  { binary_path := ""
    enable_debugging := false
    enable_performance_monitoring := false
    enable_ring_bus_simulation := false
    target_architecture := detect_host_architecture
    num_cores := get_num_cores detect_host_architecture
    memory_size := get_memory_size detect_host_architecture
    config_file := "config/imic_sde.conf" }

/-- Lines 133-166 of `parse_arguments`: the validation after the option loop;
`binary` is `argv[optind]` when `optind < argc`. -/
def parse_validate (config : imic_sde_config) (binary : Option String) : parse_result :=
  let max_cores := get_num_cores config.target_architecture
  let max_memory := get_memory_size config.target_architecture
  if config.num_cores = 0 then
    { ok := false, config := config, out := "", err := [parse_error.cores_zero] }
  else if config.memory_size = 0 then
    { ok := false, config := config, out := "", err := [parse_error.memory_zero] }
  else if config.num_cores > max_cores then
    { ok := false, config := config, out := "", err := [parse_error.cores_exceed max_cores] }
  else if config.memory_size > max_memory then
    { ok := false, config := config, out := "",
      err := [parse_error.memory_exceed (max_memory / (1024 * 1024))] }
  else
    match binary with
    | none => { ok := false, config := config, out := "", err := [parse_error.no_binary] }
    | some path => { ok := true, config := { config with binary_path := path }, out := "", err := [] }

/-- The option loop of `parse_arguments` (lines 90-131) followed by the
validation.  The option characters are `h` 104, `d` 100, `p` 112, `r` 114,
`a` 97, `c` 99, `m` 109, `f` 102. -/
def parse_loop (program_name : String) (strtoul strtoull : String → Nat)
    (binary : Option String) : List getopt_result → imic_sde_config → parse_result
  | [], config => parse_validate config binary
  | r :: rest, config =>
    if r.c = 104 then
      { ok := false, config := config, out := print_usage program_name, err := [] }
    else if r.c = 100 then
      parse_loop program_name strtoul strtoull binary rest { config with enable_debugging := true }
    else if r.c = 112 then
      parse_loop program_name strtoul strtoull binary rest
        { config with enable_performance_monitoring := true }
    else if r.c = 114 then
      parse_loop program_name strtoul strtoull binary rest
        { config with enable_ring_bus_simulation := true }
    else if r.c = 97 then
      if r.optarg = "knc" then
        parse_loop program_name strtoul strtoull binary rest
          { config with
            target_architecture := knc_architecture_t.ARCH_KNC
            num_cores := get_num_cores knc_architecture_t.ARCH_KNC
            memory_size := get_memory_size knc_architecture_t.ARCH_KNC }
      else if r.optarg = "knl" then
        parse_loop program_name strtoul strtoull binary rest
          { config with
            target_architecture := knc_architecture_t.ARCH_KNL
            num_cores := get_num_cores knc_architecture_t.ARCH_KNL
            memory_size := get_memory_size knc_architecture_t.ARCH_KNL }
      else
        { ok := false, config := config, out := "",
          err := [parse_error.unsupported_architecture r.optarg] }
    else if r.c = 99 then
      parse_loop program_name strtoul strtoull binary rest
        { config with num_cores := strtoul r.optarg % 4294967296 }
    else if r.c = 109 then
      parse_loop program_name strtoul strtoull binary rest
        { config with memory_size := (strtoull r.optarg * 1024 * 1024) % 18446744073709551616 }
    else if r.c = 102 then
      parse_loop program_name strtoul strtoull binary rest { config with config_file := r.optarg }
    else
      { ok := false, config := config, out := "", err := [] }

/-- The function `parse_arguments`. -/
def parse_arguments (program_name : String) (strtoul strtoull : String → Nat)
    (options : List getopt_result) (binary : Option String) : parse_result :=
  parse_loop program_name strtoul strtoull binary options default_config

/-- The function `main`: the returned value, standard output and the error
stream of the argument parser; `run_emulation` is the value the call
`run_emulation(config)` returns. -/
def main (program_name : String) (strtoul strtoull : String → Nat)
    (options : List getopt_result) (binary : Option String)
    (run_emulation : imic_sde_config → Int) : Int × String × List parse_error :=
  let r := parse_arguments program_name strtoul strtoull options binary
  if !r.ok then (-1, r.out, r.err)
  else (run_emulation r.config, r.out, r.err)

/-! ## Binary64 arithmetic, `pcie_bridge.cpp` (lines 19-38)

A `double` is the rational number it denotes.  Every arithmetic operation of
the source on doubles is the exact operation followed by `round_binary64`,
rounding to nearest with ties to even at 53 significant bits; a decimal literal
is the rounding of its value.  The exponent range is not part of the embedding:
all values computed here lie far inside it. -/

/-- Rounding of a rational number to the nearest integer, ties to the even
one. -/
def round_half_even (q : ℚ) : ℤ :=
  if q - ⌊q⌋ < 1 / 2 then ⌊q⌋
  else if 1 / 2 < q - ⌊q⌋ then ⌊q⌋ + 1
  else if ⌊q⌋ % 2 = 0 then ⌊q⌋
  else ⌊q⌋ + 1

/-- Rounding of a rational number to binary64: with `e = ⌊log2 |q|⌋` the
significand `q / 2^(e - 52)` is rounded to an integer. -/
def round_binary64 (q : ℚ) : ℚ :=
  if q = 0 then 0
  else (round_half_even (q / 2 ^ (Int.log 2 |q| - 52)) : ℚ) * 2 ^ (Int.log 2 |q| - 52)

/-- The macro `KNC_CYCLE_TIME_NS`, the literal `0.95`. -/
def KNC_CYCLE_TIME_NS : ℚ := round_binary64 (19 / 20)

namespace PCIeBridge

def PCIE_BANDWIDTH_GBPS : ℚ := 8

def PCIE_LATENCY_NS : ℚ := 100

def BYTES_PER_GB : Nat := 1024 * 1024 * 1024

/-- The function `calculate_transfer_time_ns(bytes)`; the literal `1e9` is the
integer 1000000000. -/
def calculate_transfer_time_ns (bytes : Nat) : ℚ :=
  let bytes_per_second := round_binary64 (PCIE_BANDWIDTH_GBPS * round_binary64 (BYTES_PER_GB : ℚ))
  round_binary64 (round_binary64 (round_binary64 (bytes : ℚ) / bytes_per_second) * 1000000000)

/-- The local `cycles` of `calculate_cycle_delay(bytes)`. -/
def cycle_delay_cycles (bytes : Nat) : ℚ :=
  let transfer_time_ns := round_binary64 (calculate_transfer_time_ns bytes + PCIE_LATENCY_NS)
  round_binary64 (transfer_time_ns / KNC_CYCLE_TIME_NS)

/-- The function `calculate_cycle_delay(bytes)`: the conversion of the
non-negative `cycles` to `uint64_t` drops the fraction. -/
def calculate_cycle_delay (bytes : Nat) : Nat := ⌊cycle_delay_cycles bytes⌋.toNat

end PCIeBridge

/-! ## `knc_performance_monitor.h`, `knc_performance_monitor.cpp` (lines 10-114)

The 64-bit event counters are natural numbers; the counter configurations, the
clock readings and the PCM handle are not part of the embedding. -/

structure knc_core_perf_data_t where
  instructions_retired : Nat
  vector_instructions : Nat
  memory_accesses : Nat
  l1_hits : Nat
  l1_misses : Nat
  l2_hits : Nat
  l2_misses : Nat
  ring_bus_transactions : Nat
  cycles : Nat
  branches_taken : Nat
  branches_mispredicted : Nat
  cache_references : Nat
  tlb_hits : Nat
  tlb_misses : Nat
  last_update_time : Nat
  deriving DecidableEq

structure knc_performance_counters_t where
  instructions_retired : Nat
  vector_instructions : Nat
  memory_accesses : Nat
  l1_hits : Nat
  l1_misses : Nat
  l2_hits : Nat
  l2_misses : Nat
  ring_bus_transactions : Nat
  cycles : Nat
  branches_taken : Nat
  branches_mispredicted : Nat
  cache_references : Nat
  tlb_hits : Nat
  tlb_misses : Nat
  branch_instructions : Nat
  branch_mispredictions : Nat
  deriving DecidableEq

structure KNCPerformanceMonitor where
  num_cores : Nat
  monitoring_enabled : Bool
  core_data : List knc_core_perf_data_t
  aggregate_counters_val : knc_performance_counters_t
  deriving DecidableEq

namespace KNCPerformanceMonitor

/-- A zeroed `knc_core_perf_data_t`. -/
def zero_core_data : knc_core_perf_data_t :=
  { instructions_retired := 0, vector_instructions := 0, memory_accesses := 0, l1_hits := 0,
    l1_misses := 0, l2_hits := 0, l2_misses := 0, ring_bus_transactions := 0, cycles := 0,
    branches_taken := 0, branches_mispredicted := 0, cache_references := 0, tlb_hits := 0,
    tlb_misses := 0, last_update_time := 0 }

/-- A zeroed `knc_performance_counters_t`. -/
def zero_counters : knc_performance_counters_t :=
  { instructions_retired := 0, vector_instructions := 0, memory_accesses := 0, l1_hits := 0,
    l1_misses := 0, l2_hits := 0, l2_misses := 0, ring_bus_transactions := 0, cycles := 0,
    branches_taken := 0, branches_mispredicted := 0, cache_references := 0, tlb_hits := 0,
    tlb_misses := 0, branch_instructions := 0, branch_mispredictions := 0 }

/-- The constructor `KNCPerformanceMonitor(cores)`. -/
def construct (cores : Nat) : KNCPerformanceMonitor :=
  { num_cores := cores
    monitoring_enabled := false
    core_data := List.replicate cores zero_core_data
    aggregate_counters_val := zero_counters }

def reset_counters (m : KNCPerformanceMonitor) : KNCPerformanceMonitor :=
  { m with
    core_data := m.core_data.map (fun _ => zero_core_data)
    aggregate_counters_val := zero_counters }

/-- The member function `initialize()` (the name is reserved in Lean). -/
def init_monitor (m : KNCPerformanceMonitor) : Bool × KNCPerformanceMonitor :=
  (true, reset_counters m)

def enable_monitoring (m : KNCPerformanceMonitor) (enable : Bool) : KNCPerformanceMonitor :=
  { m with monitoring_enabled := enable }

def is_monitoring_enabled (m : KNCPerformanceMonitor) : Bool := m.monitoring_enabled

/-- The function `record_instruction(core_id, inst_type)`; `inst_type` is the
value of the enumeration `knc_instruction_type_t` the two comparisons see. -/
def record_instruction (m : KNCPerformanceMonitor) (core_id inst_type : Nat) :
    KNCPerformanceMonitor :=
  if !m.monitoring_enabled || decide (core_id ≥ m.num_cores) then m
  else
    match m.core_data[core_id]? with
    | none => m
    | some core =>
      let core1 := { core with instructions_retired := core.instructions_retired + 1 }
      let core2 :=
        if inst_type ≥ KNC_INST_VPADDD ∧ inst_type ≤ KNC_INST_VMINPS then
          { core1 with vector_instructions := core1.vector_instructions + 1 }
        else core1
      { m with
        core_data := m.core_data.set core_id core2
        aggregate_counters_val :=
          { m.aggregate_counters_val with
            instructions_retired := m.aggregate_counters_val.instructions_retired + 1 } }

end KNCPerformanceMonitor

/-! ## Concrete scenarios -/

/-- The 4-node KNC ring after `initialize()`. -/
def ring4 : RingBusSimulator :=
  RingBusSimulator.init_simulator (RingBusSimulator.construct 4 knc_architecture_t.ARCH_KNC)

/-- The 8-node KNC ring after `initialize()`. -/
def ring8 : RingBusSimulator :=
  RingBusSimulator.init_simulator (RingBusSimulator.construct 8 knc_architecture_t.ARCH_KNC)

/-- State of the 4-node ring once the one-byte message of node 0 to node 1 has
been routed by the first simulation step. -/
def ring4_routed : RingBusSimulator :=
  { ring4 with
    simulation_time := 1
    total_messages := 1
    total_bytes := 1
    nodes := ring4.nodes.set 0 { node_id := 0, inbound_queue := [], outbound_queue := [], buffer_occupancy := 0, last_activity_time := 0, messages_sent := 1, messages_received := 0, bytes_transmitted := 1, contention_cycles := 0 } }

/-- Little-endian payload whose first eight bytes encode the address `0x1000`. -/
def payload_0x1000 : List Nat := [0, 16, 0, 0, 0, 0, 0, 0]

/-- The 4-node ring after tile 0 has written cache line `0x1000` (a 16-byte
request, so the directory records the line as Modified with owner 0). -/
def ring4_line_modified : RingBusSimulator :=
  (RingBusSimulator.send_message ring4 0 2 (payload_0x1000 ++ [1, 2, 3, 4, 5, 6, 7, 8]) 16 0).2

/-- A message of three bytes from node 0, due at cycle 4. -/
def sample_message : ring_bus_message_t :=
  { source_node := 0, dest_node := 2, priority := 0, data := [1, 2, 3], size := 3, timestamp := 0, delivery_time := 4 }

/-- Node 2 of a ring holding `sample_message` at the head of its inbound queue. -/
def sample_node : ring_bus_node_t :=
  { node_id := 2, inbound_queue := [sample_message], outbound_queue := [], buffer_occupancy := 0, last_activity_time := 0, messages_sent := 0, messages_received := 0, bytes_transmitted := 0, contention_cycles := 0 }

/-- The 4-node ring at cycle 5 with `sample_node` in place of node 2. -/
def ring4_inbound : RingBusSimulator :=
  { ring4 with simulation_time := 5, nodes := ring4.nodes.set 2 sample_node }

/-- Node 0 of `ring4`. -/
def ring4_node0 : ring_bus_node_t :=
  { node_id := 0, inbound_queue := [], outbound_queue := [], buffer_occupancy := 0, last_activity_time := 0, messages_sent := 0, messages_received := 0, bytes_transmitted := 0, contention_cycles := 0 }

/-- The default KNC runtime (60 cores, 8 GB) after `initialize()`. -/
def knc_runtime : KNCRuntime :=
  (KNCRuntime.init_runtime (KNCRuntime.construct 60 KNC_MEMORY_SIZE knc_architecture_t.ARCH_KNC)).2

/-- States reachable from a constructed and initialized simulator through the
public interface. -/
inductive Reachable : RingBusSimulator → Prop where
  | init (num_nodes : Nat) (arch : knc_architecture_t) :
      Reachable (RingBusSimulator.init_simulator (RingBusSimulator.construct num_nodes arch))
  | send (s : RingBusSimulator) (source_node dest_node : Nat) (data : List Nat) (size priority : Nat) :
      Reachable s → Reachable (RingBusSimulator.send_message s source_node dest_node data size priority).2
  | step (fuel : Nat) (s s1 : RingBusSimulator) :
      Reachable s → RingBusSimulator.step_simulation fuel s = some s1 → Reachable s1
  | receive (s : RingBusSimulator) (node_id : Nat) (message : ring_bus_message_t) :
      Reachable s → Reachable (RingBusSimulator.receive_message s node_id message).2.2
  | reset (s : RingBusSimulator) : Reachable s → Reachable (RingBusSimulator.reset_simulation s)

/-! ## Scenarios and invariants of the runtime -/

section
open KNCRuntime

/-- The counters of `bank` moved from `old` to `new` by one counted access:
`accesses` grew by 1, exactly one of `cache_hits` and `cache_misses` grew by 1,
and no entry of another bank changed. -/
def bank_counted (old new : List knc_mmu_t) (bank : Nat) : Prop :=
  (∃ m m1, old[bank]? = some m ∧ new[bank]? = some m1
      ∧ m1.accesses = m.accesses + 1
      ∧ ((m1.cache_hits = m.cache_hits + 1 ∧ m1.cache_misses = m.cache_misses)
          ∨ (m1.cache_hits = m.cache_hits ∧ m1.cache_misses = m.cache_misses + 1)))
  ∧ ∀ j, j ≠ bank → new[j]? = old[j]?

/-- A runtime with 2 cores and 16 bytes of memory after `initialize()`. -/
def small_runtime : KNCRuntime :=
  (init_runtime (KNCRuntime.construct 2 16 knc_architecture_t.ARCH_KNC)).2

/-- The 2-core runtime of 16 bytes with the one-byte program `0xC3` loaded, at
the point where `run()` has started the workers. -/
def ret_runtime : KNCRuntime :=
  (run_begin (load_program small_runtime [195] 1).2).2

/-- Core 0 of `ret_runtime`: released at `rip = 0`, registers cleared. -/
def ret_core : knc_core_state_t :=
  { registers := { zmm := List.replicate 32 0, k := List.replicate 8 0, gpr := List.replicate 16 0, rip := 0, rflags := 0 }
    core_id := 0
    tile_id := 0
    is_halted := false
    cycles_executed := 0 }

/-- State of a core after the pass of the worker loop that executes `0xC3`. -/
def core_after_ret (core : knc_core_state_t) : knc_core_state_t :=
  { core with
    is_halted := true
    registers := { core.registers with rip := (core.registers.rip + 1) % 18446744073709551616 }
    cycles_executed := core.cycles_executed + 1 }

/-- The nine program bytes `48 C7 C0 3C 00 00 00 0F 05`. -/
def exit_program : List Nat := [72, 199, 192, 60, 0, 0, 0, 15, 5]

/-- A freshly constructed and initialized runtime with the nine bytes of
`exit_program` loaded, at the point where `run()` has started the workers. -/
def exit_runtime (cores mem_size : Nat) (arch : knc_architecture_t) : KNCRuntime :=
  (run_begin (load_program (init_runtime (KNCRuntime.construct cores mem_size arch)).2 exit_program 9).2).2

/-- What every interleaving of the workers keeps true while `exit_program` is
the memory image: the global flags are as `run()` set them, the general-purpose
registers are all zero, every core has executed one cycle per byte passed, and
a halted core stands at the end of memory. -/
def exit_inv (mem_size : Nat) (rt : KNCRuntime) : Prop :=
  rt.running = true ∧ rt.should_halt = false ∧ rt.memory_size = mem_size
  ∧ (∀ a, rt.memory a = exit_program.getD a 0)
  ∧ ∀ core ∈ rt.core_states,
      core.registers.gpr = List.replicate 16 0
      ∧ core.registers.rip ≤ mem_size
      ∧ core.cycles_executed = core.registers.rip
      ∧ (core.is_halted = true → core.registers.rip = mem_size)

/-- State of a core after a pass of the worker loop whose instruction had no
effect: `rip += 1` and `cycles_executed++`. -/
def core_advance (core : knc_core_state_t) : knc_core_state_t :=
  { core with
    registers := { core.registers with rip := (core.registers.rip + 1) % 18446744073709551616 }
    cycles_executed := core.cycles_executed + 1 }

/-- Core 0 of `syscall_runtime`: registers cleared except `gpr[0] = 2`. -/
def syscall_core : knc_core_state_t :=
  { registers := { zmm := List.replicate 32 0, k := List.replicate 8 0, gpr := 2 :: List.replicate 15 0, rip := 0, rflags := 0 }
    core_id := 0
    tile_id := 0
    is_halted := false
    cycles_executed := 0 }

/-- The 2-core runtime of 16 bytes with the program `0F 05` loaded and the
workers started, in which core 0 holds the unsupported system call number 2
in `gpr[0]`. -/
def syscall_runtime : KNCRuntime :=
  let rt := (run_begin (load_program small_runtime [15, 5] 2).2).2
  { rt with core_states := rt.core_states.set 0 syscall_core }

end

/-! ## Scenarios and invariants of the translator -/

section
open KNCInstructionTranslator

/-- The record the pass-through branch of `translate_instruction` builds from
the instruction bytes and the decoded length. -/
def passthrough_record (instruction_bytes : List Nat) (decoded_length : Nat) :
    knc_translated_instruction_t :=
  { translated_bytes := instruction_bytes.take decoded_length
    translated_length := decoded_length
    description := "Native x86 instruction"
    is_emulated := false
    emulation_overhead_cycles := 0 }

/-- The translator after `initialize()` and one translation of the byte `0x90`
at PC `0x1000` with decoded length 1. -/
def translator_after_nop : KNCInstructionTranslator :=
  (translate_instruction (init_translator KNCInstructionTranslator.construct).2 4096 [144] 1 0).2

/-- The cache entry the translation of `0x90` at PC `0x1000` leaves behind. -/
def nop_entry : knc_translation_cache_entry_t :=
  { original_address := 4096
    original_bytes := 144 :: List.replicate 15 0
    translated := passthrough_record [144] 1
    access_count := 1
    is_valid := true }

/-- Every valid entry of the translation cache holds the pass-through record of
a call in `S` for the PC stored in the entry. -/
def cache_inv (S : translate_call → Prop) (t : KNCInstructionTranslator) : Prop :=
  t.translation_cache.length = CACHE_SIZE
  ∧ ∀ (index : Nat) (entry : knc_translation_cache_entry_t),
      t.translation_cache[index]? = some entry → entry.is_valid = true →
      ∃ c, S c ∧ c.address = entry.original_address
        ∧ entry.translated = passthrough_record c.instruction_bytes c.decoded_length

end

/-! ## Broadcast (`ring_bus_simulator.cpp`, lines 501-511) -/

section
open RingBusSimulator

/-- The 4-node ring after tile 0 has written 16 bytes at address `0x1001`:
the home tile 1 holds the line `0x1000` Modified with owner 0. -/
def ring4_line_owned_by_0 : RingBusSimulator :=
  (RingBusSimulator.send_message ring4 0 2 (1 :: 16 :: List.replicate 14 0) 16 0).2

/-- The function `simulate_broadcast(source_tile, data, size)`: the returned
flag and the state afterwards.  `success &= ...` evaluates every send. -/
def RingBusSimulator.simulate_broadcast (s : RingBusSimulator) (source_tile : Nat)
    (data : List Nat) (size : Nat) : Bool × RingBusSimulator :=
  (List.range s.config.num_nodes).foldl (fun acc i =>
    if i ≠ source_tile then
      let r := RingBusSimulator.send_message acc.2 source_tile i data size 1
      (acc.1 && r.1, r.2)
    else acc) (true, s)

/-- The outbound queue of a node, when the node exists. -/
def outbound_of (s : RingBusSimulator) (node : Nat) : Option (List ring_bus_message_t) :=
  (s.nodes[node]?).map (fun n => n.outbound_queue)

/-- How the `dest_node` of a broadcast message relates to the tile `dst` it was
sent for: it is `dst`, or, for a memory request with the directory enabled,
the home tile of the address. -/
def broadcast_dest (enabled : Bool) (size home : Nat) (m : ring_bus_message_t) (dst : Nat) : Prop :=
  (m.dest_node = dst ∨ (enabled = true ∧ size ≥ 8 ∧ m.dest_node = home))
  ∧ (¬ (enabled = true ∧ size ≥ 8) → m.dest_node = dst)

end

/-! ## Command line options -/

section
open KNCBinaryLoader

/-- The options that let the loop of `parse_arguments` go on: `d`, `p`, `r`,
`c`, `m`, `f`, and `a` with the argument `knc` or `knl`. -/
def option_continues (r : getopt_result) : Prop :=
  r.c = 100 ∨ r.c = 112 ∨ r.c = 114 ∨ r.c = 99 ∨ r.c = 109 ∨ r.c = 102
  ∨ (r.c = 97 ∧ (r.optarg = "knc" ∨ r.optarg = "knl"))

end

/-! ## Scenarios and invariants of the directories -/

section
open RingBusSimulator

/-- The directory record `find_cache_line(address)` points to, if any. -/
def record_for (s : RingBusSimulator) (address : Nat) : Option dtd_cache_line_t :=
  (RingBusSimulator.find_cache_line s address).bind (RingBusSimulator.cache_line_at s)

/-- Every record of every directory satisfies `Q`. -/
def all_lines (Q : dtd_cache_line_t → Prop) (s : RingBusSimulator) : Prop :=
  ∀ tile ∈ s.dtd_tiles, ∀ line ∈ tile.cache_directory, Q line

/-- Number of bits set in a 32-bit mask. -/
def popcount32 (x : Nat) : Nat := ((List.range 32).filter (fun i => x.testBit i)).length

/-- The record `dtd_update_ownership` allocates on a miss. -/
def new_cache_line (s : RingBusSimulator) (address owner_tile : Nat) (is_modified : Bool) :
    dtd_cache_line_t :=
  { cache_line_address := RingBusSimulator.cache_line_align s address
    owner_tile := owner_tile
    sharer_mask := shl_one owner_tile
    is_modified := is_modified
    is_exclusive := true
    is_shared := false
    timestamp := s.simulation_time }

/-- The record `dtd_update_ownership` leaves in place of an existing one. -/
def updated_cache_line (s : RingBusSimulator) (line : dtd_cache_line_t) (owner_tile : Nat)
    (is_modified : Bool) : dtd_cache_line_t :=
  { line with
    owner_tile := owner_tile
    sharer_mask := shl_one owner_tile
    is_modified := is_modified
    is_exclusive := is_modified
    is_shared := !is_modified
    timestamp := s.simulation_time }

/-- The record `dtd_invalidate_cacheline` leaves in place of an existing one. -/
def invalidated_cache_line (s : RingBusSimulator) (line : dtd_cache_line_t)
    (requesting_tile : Nat) : dtd_cache_line_t :=
  { line with
    sharer_mask := line.sharer_mask &&& not32 (shl_one requesting_tile)
    owner_tile := requesting_tile
    timestamp := s.simulation_time }

/-- The state with the directory entry of one tile replaced. -/
def with_tile (s : RingBusSimulator) (home : Nat) (tile : dtd_tile_state_t) : RingBusSimulator :=
  { s with dtd_tiles := s.dtd_tiles.set home tile }

/-- The 34-node KNL ring after `initialize()`. -/
def ring34 : RingBusSimulator :=
  RingBusSimulator.init_simulator (RingBusSimulator.construct 34 knc_architecture_t.ARCH_KNL)

/-- The 34-node ring after tile 0 has written cache line `0x1000`. -/
def ring34_line_modified : RingBusSimulator :=
  (RingBusSimulator.send_message ring34 0 2 (payload_0x1000 ++ [1, 2, 3, 4, 5, 6, 7, 8]) 16 0).2

/-- The 4-node ring after tile 0 has written cache line `0x1000` and tile 3
has then requested it. -/
def ring4_written_back : RingBusSimulator :=
  (RingBusSimulator.send_message ring4_line_modified 3 2 payload_0x1000 8 0).2

/-- The state `ring4_written_back` after tile 0 has requested the line again. -/
def ring4_written_back_twice : RingBusSimulator :=
  (RingBusSimulator.send_message ring4_written_back 0 2 payload_0x1000 8 0).2

/-- The state flags a record can carry in a reachable directory: exactly one of
Exclusive and Shared, and Modified only together with Exclusive. -/
def flags_consistent (line : dtd_cache_line_t) : Prop :=
  line.is_exclusive = !line.is_shared ∧ (line.is_modified = true → line.is_exclusive = true)

/-- The 4-node ring after tile 0 has read line `0x1000` (an 8-byte request):
the record is Exclusive with owner 0. -/
def ring4_line_exclusive : RingBusSimulator :=
  (RingBusSimulator.send_message ring4 0 2 payload_0x1000 8 0).2

/-- The state `ring4_line_exclusive` after tile 1 has read the line as well: the
record is Shared with owner 1 and `sharer_mask = 2`. -/
def ring4_line_shared : RingBusSimulator :=
  (RingBusSimulator.send_message ring4_line_exclusive 1 2 payload_0x1000 8 0).2

/-- The eight little-endian bytes of a 64-bit address. -/
def address_bytes (a : Nat) : List Nat :=
  [a % 256, a / 256 % 256, a / 65536 % 256, a / 16777216 % 256, a / 4294967296 % 256,
    a / 1099511627776 % 256, a / 281474976710656 % 256, a / 72057594037927936 % 256]

/-- The 4-node ring after `k` rounds in which tile 0 sends an 8-byte request for
the line at address `256 * j` (home tile 0), `j = 0, ..., k - 1`, each followed
by `reset_simulation`, which empties the queues and leaves the directories
alone. -/
def fill_directory : Nat → RingBusSimulator
  | 0 => ring4
  | k + 1 =>
    RingBusSimulator.reset_simulation
      (RingBusSimulator.send_message (fill_directory k) 0 0 (address_bytes (256 * k)) 8 0).2

/-- What the rounds of `fill_directory` keep true. -/
def fill_inv (k : Nat) (s : RingBusSimulator) : Prop :=
  s.config = ring4.config ∧ s.dtd_enabled = true ∧ s.cache_line_size = 64
  ∧ (∃ node, s.nodes[0]? = some node ∧ node.buffer_occupancy = 0)
  ∧ ∃ tile, s.dtd_tiles[0]? = some tile ∧ tile.directory_size = 1024
      ∧ tile.cache_directory.map (fun line => line.cache_line_address)
          = (List.range k).map (fun j => 256 * j)

/-- The 9-node KNC ring after `initialize()`. -/
def ring9 : RingBusSimulator :=
  RingBusSimulator.init_simulator (RingBusSimulator.construct 9 knc_architecture_t.ARCH_KNC)

/-- The 9-node ring after `k` sends and nothing else: send `j` is an 8-byte
request of tile `j mod 9` for the line at address `576 * j`, whose home is
tile 0. -/
def fill_by_sends : Nat → RingBusSimulator
  | 0 => ring9
  | k + 1 =>
    (RingBusSimulator.send_message (fill_by_sends k) (k % 9) 0 (address_bytes (576 * k)) 8 0).2

/-- What the sends of `fill_by_sends` keep true. -/
def sends_inv (k : Nat) (s : RingBusSimulator) : Prop :=
  s.config = ring9.config ∧ s.dtd_enabled = true ∧ s.cache_line_size = 64
  ∧ (∀ i, i < 9 →
      ∃ node, s.nodes[i]? = some node ∧ node.buffer_occupancy = 8 * ((k + 8 - i) / 9))
  ∧ ∃ tile, s.dtd_tiles[0]? = some tile ∧ tile.directory_size = 1024
      ∧ tile.cache_directory.map (fun line => line.cache_line_address)
          = (List.range k).map (fun j => 576 * j)

end

/-! ## Accuracy of the PCIe cycle delay -/

section
open PCIeBridge

/-- The value `x` lies within `k` roundings of the exact value `y`: each
rounding changes a value by at most the fraction `2^-53` of itself. -/
def within_roundings (k : Nat) (x y : ℚ) : Prop :=
  y * (1 - 1 / 2 ^ 53) ^ k ≤ x ∧ x ≤ y * (1 + 1 / 2 ^ 53) ^ k

/-- The formula of the specification over exact rationals, before the ceiling:
`(n / (8 × 2^30) × 10^9 + 100) / 0.95`. -/
def spec_exact_cycles (n : Nat) : ℚ :=
  ((n : ℚ) / (8 * 2 ^ 30) * 10 ^ 9 + 100) / (19 / 20)

end

/-! ## Memory read by the worker loop (`knc_runtime.cpp`, lines 204-310)

The functions `execute_instruction`, `handle_system_call` and `syscall_write`
once more, this time returning the addresses of the backing array they read. -/

section
open KNCRuntime

/-- The bytes of the backing array that `syscall_write` hands to
`std::cout.write(memory + buf, count)`: the `count` addresses from `buf` on when
`fd` is 1 (a count of `2^63` or more is negative as a `std::streamsize` and
nothing is written). -/
def syscall_write_reads (core : knc_core_state_t) : List Nat :=
  let fd := core.registers.gpr.getD 1 0
  let buf := core.registers.gpr.getD 2 0
  let count := core.registers.gpr.getD 3 0
  if fd = 1 then
    if count < 9223372036854775808 then (List.range count).map (fun k => buf + k) else []
  else []

/-- The bytes of the backing array read by `handle_system_call`: only
`syscall_write` reads any. -/
def handle_system_call_reads (core : knc_core_state_t) (syscall : Nat) : List Nat :=
  if syscall = 60 then []
  else if syscall = 1 then syscall_write_reads core
  else []

/-- The addresses of the backing array read by `execute_instruction`, in order:
`instruction[0]`, then `instruction[1]` when the first byte is `0x0F` (the
`&&` does not evaluate its right operand otherwise), then what the system call
reads. -/
def execute_instruction_reads (rt : KNCRuntime) (core : knc_core_state_t) (instruction : Nat) :
    List Nat :=
  if rt.memory instruction = 15 then
    if rt.memory (instruction + 1) = 5 then
      [instruction, instruction + 1]
        ++ handle_system_call_reads core (core.registers.gpr.getD 0 0 % 4294967296)
    else [instruction, instruction + 1]
  else [instruction]

/-- The addresses of the backing array read by one pass through the body of the
loop of `execute_core`. -/
def execute_core_body_reads (rt : KNCRuntime) (core_id : Nat) : List Nat :=
  match rt.core_states[core_id]? with
  | none => []
  | some core =>
    if core.registers.rip ≥ rt.memory_size then []
    else execute_instruction_reads rt core core.registers.rip

/-- A program of 16 bytes: fifteen NOPs and a last byte `0x0F`. -/
def edge_program : List Nat := List.replicate 15 144 ++ [15]

/-- The 2-core runtime of 16 bytes with `edge_program` loaded and the workers
started, after core 0 has executed the fifteen NOPs: it stands at `rip = 15`,
the last byte of memory. -/
def edge_runtime : KNCRuntime :=
  run_schedule (run_begin (load_program small_runtime edge_program 16).2).2 (List.replicate 15 0)

/-- A core about to issue the system call `write(1, 8, 16)`: `gpr[0] = 1`,
`fd = gpr[1] = 1`, `buf = gpr[2] = 8` and `count = gpr[3] = 16`. -/
def write_core : knc_core_state_t :=
  { registers := { zmm := List.replicate 32 0, k := List.replicate 8 0, gpr := [1, 1, 8, 16] ++ List.replicate 12 0, rip := 0, rflags := 0 }
    core_id := 0
    tile_id := 0
    is_halted := false
    cycles_executed := 0 }

/-- The 2-core runtime of 16 bytes with the program `0F 05` loaded and the
workers started, in which core 0 is `write_core`. -/
def write_runtime : KNCRuntime :=
  let rt := (run_begin (load_program small_runtime [15, 5] 2).2).2
  { rt with core_states := rt.core_states.set 0 write_core }

end

/-! ## Vector instruction types -/

section
open KNCInstructionTranslator

/-- The ten KNC vector instruction types that `translate_vector_instruction`
has a case for. -/
def known_vector_types : List Nat :=
  [KNC_INST_VPADDD, KNC_INST_VPSUBD, KNC_INST_VPMULUD, KNC_INST_VPERMD, KNC_INST_VPBROADCASTD,
    KNC_INST_VGATHERDPS, KNC_INST_VSCATTERDPS, KNC_INST_VCMPPS, KNC_INST_VMAXPS, KNC_INST_VMINPS]

/-- The five vector instruction types whose mnemonic `generate_avx512_vector_op`
has no opcode for. -/
def types_without_opcode : List Nat :=
  [KNC_INST_VPMULUD, KNC_INST_VPERMD, KNC_INST_VCMPPS, KNC_INST_VMAXPS, KNC_INST_VMINPS]

/-- A translation context of a vector instruction of the given type. -/
def vector_context (knc_type : Nat) : knc_translation_context_t :=
  { knc_type := knc_type
    instruction_length := 6
    instruction_bytes := [98, 0, 0, 0, 0, 0]
    is_vector_instruction := true
    is_knc_specific := false
    needs_translation := true }

end

/-! ## Further scenarios -/

section
open KNCRuntime

/-- The runtime constructed for KNL with its 68 cores and 16 GB. -/
def knl_constructed : KNCRuntime :=
  KNCRuntime.construct KNL_NUM_CORES KNL_MEMORY_SIZE knc_architecture_t.ARCH_KNL

end

section
open RingBusSimulator

/-- The 4-node ring after `dtd_update_ownership(0x1000, 0, true)`. -/
def ring4_owned_0x1000 : RingBusSimulator :=
  RingBusSimulator.dtd_update_ownership ring4 4096 0 true

/-- The 4-node ring after `dtd_update_ownership(2^32, 1, true)`. -/
def ring4_owned_4g : RingBusSimulator :=
  RingBusSimulator.dtd_update_ownership ring4 4294967296 1 true

end

section
open KNCPerformanceMonitor

/-- The monitor of 60 cores after `initialize()` and `enable_monitoring(true)`. -/
def knc_monitor : KNCPerformanceMonitor :=
  KNCPerformanceMonitor.enable_monitoring
    (KNCPerformanceMonitor.init_monitor (KNCPerformanceMonitor.construct 60)).2 true

end

/-! ## Invariants of the outbound queues -/

section
open RingBusSimulator

/-- The bytes of the messages waiting in the outbound queue of a node. -/
def queued_bytes (node : ring_bus_node_t) : Nat :=
  (node.outbound_queue.map (fun m => m.size)).sum

/-- What holds of the outbound queues between any two statements of the
simulator: every next hop is a node of the ring, every queued message was sent
by a node of the ring, and `buffer_occupancy` is the 32-bit sum of the sizes of
the queued messages. -/
def queues_inv (s : RingBusSimulator) : Prop :=
  (∀ i j, i < s.config.num_nodes →
      RingBusSimulator.get_next_hop s i j < s.config.num_nodes)
  ∧ ∀ node ∈ s.nodes,
      node.buffer_occupancy = queued_bytes node % 4294967296
      ∧ ∀ m ∈ node.outbound_queue, m.source_node < s.config.num_nodes

/-- What holds whenever a member function has returned: `queues_inv`, the
buffer size of the constructor, and no occupancy above it. -/
def occupancy_inv (s : RingBusSimulator) : Prop :=
  queues_inv s ∧ s.config.buffer_size = 1024
  ∧ ∀ node ∈ s.nodes, node.buffer_occupancy ≤ s.config.buffer_size

/-- The 4-node ring after `send_message(0, 0, p, 1)` and the oversized
`send_message(0, 2, q, 0xFFFFFFFF)` that the wrapped sum lets through. -/
def ring4_oversized : RingBusSimulator :=
  (RingBusSimulator.send_message (RingBusSimulator.send_message ring4 0 0 [7] 1 0).2 0 2
    (List.replicate 4294967295 0) 4294967295 0).2

end

/-! ## Delivery of messages (C1) -/

theorem process_node_queue_of_outbound_empty (fuel : Nat) (s : RingBusSimulator) (i : Nat)
    (h : ∀ n ∈ s.nodes, n.outbound_queue = []) :
    RingBusSimulator.process_node_queue (fuel + 1) s i = some s := by
  unfold RingBusSimulator.process_node_queue
  cases hn : s.nodes[i]? with
  | none => rfl
  | some node =>
    have hmem : node ∈ s.nodes := List.getElem?_mem hn
    simp only [h node hmem]

theorem foldlM_process_of_outbound_empty (fuel : Nat) (l : List Nat) (s : RingBusSimulator)
    (h : ∀ n ∈ s.nodes, n.outbound_queue = []) :
    l.foldlM (fun st i => RingBusSimulator.process_node_queue (fuel + 1) st i) s = some s := by
  induction l with
  | nil => rfl
  | cons a l ih =>
    rw [List.foldlM_cons, process_node_queue_of_outbound_empty fuel s a h]
    exact ih

theorem step_simulation_of_outbound_empty (fuel : Nat) (s : RingBusSimulator)
    (h : ∀ n ∈ s.nodes, n.outbound_queue = []) :
    RingBusSimulator.step_simulation (fuel + 1) s
      = some { s with simulation_time := s.simulation_time + 1 } := by
  unfold RingBusSimulator.step_simulation RingBusSimulator.process_pending_messages
    RingBusSimulator.advance_simulation
  exact foldlM_process_of_outbound_empty fuel _ _ h

theorem run_steps_of_outbound_empty (fuel k : Nat) (s : RingBusSimulator)
    (h : ∀ n ∈ s.nodes, n.outbound_queue = []) :
    RingBusSimulator.run_steps (fuel + 1) k s
      = some { s with simulation_time := s.simulation_time + k } := by
  induction k generalizing s with
  | zero => rfl
  | succ k ih =>
    unfold RingBusSimulator.run_steps
    rw [step_simulation_of_outbound_empty fuel s h]
    simp only [Option.some_bind]
    rw [ih { s with simulation_time := s.simulation_time + 1 } h]
    simp only [Nat.add_assoc, Nat.add_comm 1 k]

theorem receive_message_of_inbound_empty (s : RingBusSimulator) (b : Nat)
    (message : ring_bus_message_t) (h : ∀ n ∈ s.nodes, n.inbound_queue = []) :
    (RingBusSimulator.receive_message s b message).1 = false := by
  unfold RingBusSimulator.receive_message
  split
  · rfl
  · cases hn : s.nodes[b]? with
    | none => rfl
    | some node =>
      have hmem : node ∈ s.nodes := List.getElem?_mem hn
      simp only [h node hmem]

theorem ring4_first_step (fuel : Nat) :
    RingBusSimulator.step_simulation (fuel + 2) (RingBusSimulator.send_message ring4 0 1 [65] 1 0).2
      = some ring4_routed := by
  rfl

theorem ring4_routed_outbound_empty : ∀ n ∈ ring4_routed.nodes, n.outbound_queue = [] := by
  decide

theorem ring4_routed_inbound_empty : ∀ n ∈ ring4_routed.nodes, n.inbound_queue = [] := by
  decide

/-- C1 (failing input): on the 4-node ring `send_message(0, 1, [0x41], 1, 0)`
returns true, and then for every number `k` of `step_simulation` calls (each
terminating, whatever loop bound `fuel + 2` is allowed) and every node `b`,
`receive_message(b)` returns false: `route_message` reports the final
destination as reached and the message is popped from the outbound queue
without ever being pushed onto an inbound queue. -/
theorem C1_message_never_delivered (fuel k b : Nat) (message : ring_bus_message_t) :
    (RingBusSimulator.send_message ring4 0 1 [65] 1 0).1 = true
    ∧ ∃ s, RingBusSimulator.run_steps (fuel + 2) k (RingBusSimulator.send_message ring4 0 1 [65] 1 0).2 = some s
        ∧ (RingBusSimulator.receive_message s b message).1 = false := by
  refine ⟨by decide, ?_⟩
  cases k with
  | zero =>
    refine ⟨_, rfl, ?_⟩
    exact receive_message_of_inbound_empty _ _ _ (by decide)
  | succ k =>
    unfold RingBusSimulator.run_steps
    rw [ring4_first_step fuel]
    simp only [Option.some_bind]
    rw [run_steps_of_outbound_empty (fuel + 1) k _ ring4_routed_outbound_empty]
    exact ⟨_, rfl, receive_message_of_inbound_empty _ _ _ ring4_routed_inbound_empty⟩

/-! ## Delivery time (C2) -/

/-- C2 (failing input): on the 8-node ring at time 0,
`send_message(0, 4, p, 8, 0)` with an 8-byte request for address 0 enqueues a
message for node 4 with `delivery_time = 12`.  The distance is 4 and
`latency_cycles` is 2, so the claimed value is `0 + 4 * 2 + e` with `e` one of
0, 1, 2, 3; the code adds `calculate_dtd_latency`, which already contains the
distance 4, on top of `distance * latency_cycles`. -/
theorem C2_delivery_time_counts_distance_twice :
    (RingBusSimulator.send_message ring8 0 4 [0, 0, 0, 0, 0, 0, 0, 0] 8 0).1 = true
    ∧ (RingBusSimulator.send_message ring8 0 4 [0, 0, 0, 0, 0, 0, 0, 0] 8 0).2.nodes.map
        (fun n => n.outbound_queue.map (fun m => (m.dest_node, m.timestamp, m.delivery_time)))
      = [[(4, 0, 12)], [], [], [], [], [], [], []]
    ∧ RingBusSimulator.calculate_distance ring8 0 4 = 4
    ∧ ring8.config.latency_cycles = 2
    ∧ ∀ e ∈ [0, 1, 2, 3], 12 ≠ 0 + 4 * 2 + e := by
  decide

/-! ## Acceptance of a send (C4, C5) -/

/-- Every rejection of `send_message` leaves the whole simulator state
unchanged: this is the case when `src ≥ N`, when `dst ≥ N`, and when the
32-bit sum `nodes[src].buffer_occupancy + size` exceeds `buffer_size`. -/
theorem send_message_rejects (s : RingBusSimulator) (source_node dest_node : Nat)
    (data : List Nat) (size priority : Nat)
    (h : source_node ≥ s.config.num_nodes ∨ dest_node ≥ s.config.num_nodes
      ∨ ∃ node, s.nodes[source_node]? = some node
          ∧ (node.buffer_occupancy + size) % 4294967296 > s.config.buffer_size) :
    RingBusSimulator.send_message s source_node dest_node data size priority = (false, s) := by
  unfold RingBusSimulator.send_message
  by_cases hv : source_node ≥ s.config.num_nodes ∨ dest_node ≥ s.config.num_nodes
  · rw [if_pos hv]
  · rw [if_neg hv]
    rcases h with h | h | ⟨node, hnode, hfull⟩
    · exact absurd (Or.inl h) hv
    · exact absurd (Or.inr h) hv
    · rw [hnode]
      simp only []
      rw [if_pos hfull]

/-- Node 0 of the 4-node ring holds 1024 bytes after one send; one more byte
is rejected and nothing changes. -/
theorem send_message_rejects_full_buffer :
    RingBusSimulator.send_message
        (RingBusSimulator.send_message ring4 0 1 (List.replicate 1024 0) 1024 0).2 0 1 [9] 1 0
      = (false, (RingBusSimulator.send_message ring4 0 1 (List.replicate 1024 0) 1024 0).2) :=
  send_message_rejects
    (RingBusSimulator.send_message ring4 0 1 (List.replicate 1024 0) 1024 0).2 0 1 [9] 1 0
    (Or.inr (Or.inr ⟨_, rfl, by decide⟩))

/-- C4 (failing input): on the 4-node ring node 0 holds one byte after
`send_message(0, 0, p, 1)`.  For `send_message(0, 2, q, 0xFFFFFFFF)` the sum
`buffer_occupancy + size = 1 + 4294967295` exceeds `buffer_size = 1024`, yet
the call returns true and changes the state: node 0 then has two outbound
messages, `total_messages = 2` and `total_bytes = 4294967296`. -/
theorem C4_oversized_send_accepted :
    ((RingBusSimulator.send_message ring4 0 0 [7] 1 0).2.nodes[0]?).map
        (fun n => n.buffer_occupancy) = some 1
    ∧ (RingBusSimulator.send_message ring4 0 0 [7] 1 0).2.config.buffer_size = 1024
    ∧ 1 + 4294967295 > 1024
    ∧ (RingBusSimulator.send_message (RingBusSimulator.send_message ring4 0 0 [7] 1 0).2 0 2
        (List.replicate 4294967295 0) 4294967295 0).1 = true
    ∧ ((RingBusSimulator.send_message (RingBusSimulator.send_message ring4 0 0 [7] 1 0).2 0 2
        (List.replicate 4294967295 0) 4294967295 0).2.nodes[0]?).map
        (fun n => (n.outbound_queue.length, n.buffer_occupancy)) = some (2, 0)
    ∧ (RingBusSimulator.send_message (RingBusSimulator.send_message ring4 0 0 [7] 1 0).2 0 2
        (List.replicate 4294967295 0) 4294967295 0).2.total_messages = 2
    ∧ (RingBusSimulator.send_message (RingBusSimulator.send_message ring4 0 0 [7] 1 0).2 0 2
        (List.replicate 4294967295 0) 4294967295 0).2.total_bytes = 4294967296 := by
  decide

/-- C5 (counterexample): on the freshly initialized 4-node ring,
`send_message(0, 1, data, 0, 0)` returns true and node 0 then holds one
outbound message. -/
theorem C5_counterexample :
    (RingBusSimulator.send_message ring4 0 1 [] 0 0).1 = true
    ∧ (RingBusSimulator.send_message ring4 0 1 [] 0 0).2.nodes.map
        (fun n => n.outbound_queue.length) = [1, 0, 0, 0] := by
  decide

/-- C5 (amended): for valid nodes `src, dst < N` and every state in which
`nodes[src].buffer_occupancy ≤ buffer_size`, `send_message(src, dst, data, 0,
prio)` returns true and appends one message of size 0 with an empty payload to
`nodes[src].outbound_queue`; the occupancy is unchanged, `total_messages`
grows by one and the directory is not consulted. -/
theorem C5_send_message_size_zero (s : RingBusSimulator) (source_node dest_node : Nat)
    (data : List Nat) (priority : Nat) (node : ring_bus_node_t)
    (hs : source_node < s.config.num_nodes) (hd : dest_node < s.config.num_nodes)
    (hnode : s.nodes[source_node]? = some node)
    (h32 : node.buffer_occupancy < 4294967296)
    (hfit : node.buffer_occupancy ≤ s.config.buffer_size) :
    RingBusSimulator.send_message s source_node dest_node data 0 priority
      = (true, { s with
          nodes := s.nodes.set source_node
            { node with
              outbound_queue := node.outbound_queue ++
                [{ source_node := source_node, dest_node := dest_node, priority := priority,
                   data := [], size := 0, timestamp := s.simulation_time,
                   delivery_time := s.simulation_time
                     + (RingBusSimulator.calculate_distance s source_node dest_node
                          * s.config.latency_cycles) % 4294967296 }]
              last_activity_time := s.simulation_time }
          total_messages := s.total_messages + 1 }) := by
  unfold RingBusSimulator.send_message
  have hv : ¬ (source_node ≥ s.config.num_nodes ∨ dest_node ≥ s.config.num_nodes) := by omega
  rw [if_neg hv, hnode]
  have hm : (node.buffer_occupancy + 0) % 4294967296 = node.buffer_occupancy := by
    rw [Nat.add_zero]; exact Nat.mod_eq_of_lt h32
  simp only [hm, RingBusSimulator.is_memory_request]
  rw [if_neg (by omega)]
  simp

/-- C5 (witness): the amended statement at the 4-node ring, nodes 0 and 1. -/
theorem C5_send_message_size_zero_witness :
    RingBusSimulator.send_message ring4 0 1 [] 0 0
      = (true, { ring4 with
          nodes := ring4.nodes.set 0
            { ring4_node0 with
              outbound_queue := ring4_node0.outbound_queue ++
                [{ source_node := 0, dest_node := 1, priority := 0,
                   data := [], size := 0, timestamp := ring4.simulation_time,
                   delivery_time := ring4.simulation_time
                     + (RingBusSimulator.calculate_distance ring4 0 1
                          * ring4.config.latency_cycles) % 4294967296 }]
              last_activity_time := ring4.simulation_time }
          total_messages := ring4.total_messages + 1 }) :=
  C5_send_message_size_zero ring4 0 1 [] 0 ring4_node0 (by decide) (by decide) (by decide)
    (by decide) (by decide)

/-! ## Ring distance (C6) -/

theorem int32_wrap_of_range (z : Int) (h1 : -2147483648 ≤ z) (h2 : z < 2147483648) :
    int32_wrap z = z := by
  unfold int32_wrap; omega

theorem uint32_of_int_of_range (z : Int) (h1 : 0 ≤ z) (h2 : z < 4294967296) :
    (uint32_of_int z : Int) = z := by
  unfold uint32_of_int
  rw [Int.toNat_of_nonneg (by omega)]; omega

theorem calculate_distance_formula (s : RingBusSimulator) (i j : Nat)
    (hN : s.config.num_nodes < 2147483648) (hi : i < s.config.num_nodes)
    (hj : j < s.config.num_nodes) :
    (RingBusSimulator.calculate_distance s i j : Int)
      = min |(i : Int) - j| ((s.config.num_nodes : Int) - |(i : Int) - j|) := by
  have hab : |(j : Int) - i| = |(i : Int) - j| := abs_sub_comm _ _
  have h0 : 0 ≤ |(i : Int) - j| := abs_nonneg _
  have h1 : |(i : Int) - j| < s.config.num_nodes := by
    rw [abs_lt]; constructor <;> omega
  unfold RingBusSimulator.calculate_distance
  simp only []
  rw [int32_wrap_of_range j (by omega) (by omega), int32_wrap_of_range i (by omega) (by omega),
    int32_wrap_of_range ((j : Int) - i) (by omega) (by omega), hab,
    int32_wrap_of_range _ (by omega) (by omega), int32_wrap_of_range _ (by omega) (by omega)]
  apply uint32_of_int_of_range
  · exact le_min h0 (by omega)
  · exact lt_of_le_of_lt (min_le_left _ _) (by omega)

/-- C6: for every ring size `N < 2^31` and all nodes `i, j < N`,
`calculate_distance(i, j) = min(|i - j|, N - |i - j|)`; hence it is symmetric,
at most `N / 2`, and `calculate_distance(i, i) = 0`.  The bound on `N` holds of
every ring the program can build: the constructor reserves 1024 directory
records for each of the `N` tiles and `initialize()` builds a routing table of
`N × N` 32-bit entries, which for `N = 2^31` is `2^64` bytes. -/
theorem C6_calculate_distance (s : RingBusSimulator) (i j : Nat)
    (hN : s.config.num_nodes < 2147483648) (hi : i < s.config.num_nodes)
    (hj : j < s.config.num_nodes) :
    (RingBusSimulator.calculate_distance s i j : Int)
        = min |(i : Int) - j| ((s.config.num_nodes : Int) - |(i : Int) - j|)
    ∧ RingBusSimulator.calculate_distance s i j = RingBusSimulator.calculate_distance s j i
    ∧ RingBusSimulator.calculate_distance s i j ≤ s.config.num_nodes / 2
    ∧ RingBusSimulator.calculate_distance s i i = 0 := by
  have hij := calculate_distance_formula s i j hN hi hj
  have hji := calculate_distance_formula s j i hN hj hi
  have hii := calculate_distance_formula s i i hN hi hi
  have hab : |(j : Int) - i| = |(i : Int) - j| := abs_sub_comm _ _
  refine ⟨hij, ?_, ?_, ?_⟩
  · rw [hab] at hji
    exact Int.ofNat_inj.mp (hij.trans hji.symm)
  · have h2 : (RingBusSimulator.calculate_distance s i j : Int) ≤ |(i : Int) - j| :=
      by rw [hij]; exact min_le_left _ _
    have h3 : (RingBusSimulator.calculate_distance s i j : Int)
        ≤ (s.config.num_nodes : Int) - |(i : Int) - j| := by rw [hij]; exact min_le_right _ _
    omega
  · simp only [sub_self, abs_zero, sub_zero] at hii
    have h4 : min (0 : Int) (s.config.num_nodes : Int) = 0 := min_eq_left (by omega)
    rw [h4] at hii
    exact_mod_cast hii

/-- C6 (witness): the 15-tile KNC ring, nodes 2 and 13. -/
theorem C6_calculate_distance_witness :
    (RingBusSimulator.calculate_distance (RingBusSimulator.construct 15 knc_architecture_t.ARCH_KNC) 2 13 : Int)
        = min |((2 : Nat) : Int) - (13 : Nat)| ((15 : Nat) - |((2 : Nat) : Int) - (13 : Nat)|)
    ∧ RingBusSimulator.calculate_distance (RingBusSimulator.construct 15 knc_architecture_t.ARCH_KNC) 2 13
        = RingBusSimulator.calculate_distance (RingBusSimulator.construct 15 knc_architecture_t.ARCH_KNC) 13 2
    ∧ RingBusSimulator.calculate_distance (RingBusSimulator.construct 15 knc_architecture_t.ARCH_KNC) 2 13 ≤ 15 / 2
    ∧ RingBusSimulator.calculate_distance (RingBusSimulator.construct 15 knc_architecture_t.ARCH_KNC) 2 2 = 0 :=
  C6_calculate_distance (RingBusSimulator.construct 15 knc_architecture_t.ARCH_KNC) 2 13
    (by simp [RingBusSimulator.construct]) (by decide) (by decide)

/-! ## Receiving (C7) -/

theorem receive_message_ready (s : RingBusSimulator) (node_id : Nat) (message : ring_bus_message_t)
    (node : ring_bus_node_t) (front : ring_bus_message_t) (rest : List ring_bus_message_t)
    (hv : node_id < s.config.num_nodes) (hn : s.nodes[node_id]? = some node)
    (hq : node.inbound_queue = front :: rest) (ht : s.simulation_time ≥ front.delivery_time) :
    RingBusSimulator.receive_message s node_id message
      = (true, front, RingBusSimulator.update_performance_stats
          { s with nodes := s.nodes.set node_id
                              { node with
                                inbound_queue := rest
                                messages_received := node.messages_received + 1
                                last_activity_time := s.simulation_time } }
          front ((s.simulation_time + 18446744073709551616 - front.timestamp) % 4294967296)) := by
  unfold RingBusSimulator.receive_message
  rw [if_neg (by omega), hn]
  simp only [hq]
  rw [if_pos ht]

theorem receive_message_not_ready (s : RingBusSimulator) (node_id : Nat) (message : ring_bus_message_t)
    (h : ¬ (node_id < s.config.num_nodes ∧ ∃ node front rest, s.nodes[node_id]? = some node
          ∧ node.inbound_queue = front :: rest ∧ s.simulation_time ≥ front.delivery_time)) :
    (RingBusSimulator.receive_message s node_id message).1 = false
    ∧ (RingBusSimulator.receive_message s node_id message).2.2 = s := by
  unfold RingBusSimulator.receive_message
  by_cases hv : node_id ≥ s.config.num_nodes
  · rw [if_pos hv]; exact ⟨rfl, rfl⟩
  · rw [if_neg hv]
    cases hn : s.nodes[node_id]? with
    | none => exact ⟨rfl, rfl⟩
    | some node =>
      simp only []
      cases hq : node.inbound_queue with
      | nil => exact ⟨rfl, rfl⟩
      | cons front rest =>
        simp only []
        by_cases ht : s.simulation_time ≥ front.delivery_time
        · exact absurd ⟨by omega, node, front, rest, hn, hq, ht⟩ h
        · rw [if_neg ht]; exact ⟨rfl, rfl⟩

/-- C7: `receive_message(node)` returns true iff `node < N`, the inbound queue
of the node is non-empty and `simulation_time ≥ head.delivery_time`; when it
returns true the head is handed back, exactly the head is removed from the
inbound queue of that node and its `messages_received` grows by 1 (the other
nodes are untouched); when it returns false the simulator state is unchanged. -/
theorem C7_receive_message (s : RingBusSimulator) (node_id : Nat) (message : ring_bus_message_t) :
    ((RingBusSimulator.receive_message s node_id message).1 = true ↔
        node_id < s.config.num_nodes ∧ ∃ node front rest, s.nodes[node_id]? = some node
          ∧ node.inbound_queue = front :: rest ∧ s.simulation_time ≥ front.delivery_time)
    ∧ (∀ node front rest, node_id < s.config.num_nodes → s.nodes[node_id]? = some node →
        node.inbound_queue = front :: rest → s.simulation_time ≥ front.delivery_time →
        (RingBusSimulator.receive_message s node_id message).1 = true
        ∧ (RingBusSimulator.receive_message s node_id message).2.1 = front
        ∧ (RingBusSimulator.receive_message s node_id message).2.2.nodes = s.nodes.set node_id
            { node with
              inbound_queue := rest
              messages_received := node.messages_received + 1
              last_activity_time := s.simulation_time })
    ∧ ((RingBusSimulator.receive_message s node_id message).1 = false →
        (RingBusSimulator.receive_message s node_id message).2.2 = s) := by
  refine ⟨⟨fun h => ?_, fun h => ?_⟩, ?_, fun h => ?_⟩
  · by_contra hc
    rw [(receive_message_not_ready s node_id message hc).1] at h
    exact Bool.noConfusion h
  · obtain ⟨hv, node, front, rest, hn, hq, ht⟩ := h
    rw [receive_message_ready s node_id message node front rest hv hn hq ht]
  · intro node front rest hv hn hq ht
    rw [receive_message_ready s node_id message node front rest hv hn hq ht]
    exact ⟨rfl, rfl, rfl⟩
  · by_cases hc : node_id < s.config.num_nodes ∧ ∃ node front rest, s.nodes[node_id]? = some node
          ∧ node.inbound_queue = front :: rest ∧ s.simulation_time ≥ front.delivery_time
    · obtain ⟨hv, node, front, rest, hn, hq, ht⟩ := hc
      rw [receive_message_ready s node_id message node front rest hv hn hq ht] at h
      exact Bool.noConfusion h
    · exact (receive_message_not_ready s node_id message hc).2

/-- C7 (witness): node 2 of `ring4_inbound` holds a message due at cycle 4 and
the clock is at 5, so the message is handed over and removed. -/
theorem C7_receive_message_witness :
    (RingBusSimulator.receive_message ring4_inbound 2 sample_message).1 = true
    ∧ (RingBusSimulator.receive_message ring4_inbound 2 sample_message).2.1 = sample_message
    ∧ (RingBusSimulator.receive_message ring4_inbound 2 sample_message).2.2.nodes
        = ring4_inbound.nodes.set 2
            { sample_node with
              inbound_queue := []
              messages_received := sample_node.messages_received + 1
              last_activity_time := ring4_inbound.simulation_time } :=
  (C7_receive_message ring4_inbound 2 sample_message).2.1 sample_node sample_message []
    (by decide) (by decide) (by decide) (by decide)

/-! ## Inbound queues of reachable states -/

theorem set_cache_line_nodes (s : RingBusSimulator) (p : Nat × Nat) (line : dtd_cache_line_t) :
    (RingBusSimulator.set_cache_line s p line).nodes = s.nodes := by
  unfold RingBusSimulator.set_cache_line
  split <;> rfl

theorem dtd_invalidate_cacheline_nodes (s : RingBusSimulator) (address t : Nat) :
    (RingBusSimulator.dtd_invalidate_cacheline s address t).nodes = s.nodes := by
  unfold RingBusSimulator.dtd_invalidate_cacheline
  split
  · rfl
  · split
    · rfl
    · simp only []
      split
      · exact set_cache_line_nodes _ _ _
      · exact set_cache_line_nodes _ _ _

theorem dtd_update_ownership_nodes (s : RingBusSimulator) (address t : Nat) (m : Bool) :
    (RingBusSimulator.dtd_update_ownership s address t m).nodes = s.nodes := by
  unfold RingBusSimulator.dtd_update_ownership
  split
  · simp only []
    split <;> rfl
  · exact set_cache_line_nodes _ _ _

theorem send_message_dtd_nodes (s : RingBusSimulator) (src dst : Nat) (data : List Nat) (size : Nat) :
    (RingBusSimulator.send_message_dtd s src dst data size).1.nodes = s.nodes := by
  unfold RingBusSimulator.send_message_dtd
  simp only []
  split
  · split
    · exact dtd_invalidate_cacheline_nodes _ _ _
    · exact dtd_invalidate_cacheline_nodes _ _ _
  · exact dtd_update_ownership_nodes _ _ _ _

theorem send_message_inbound (s : RingBusSimulator) (src dst : Nat) (data : List Nat)
    (size priority : Nat) (h : ∀ n ∈ s.nodes, n.inbound_queue = []) :
    ∀ n ∈ (RingBusSimulator.send_message s src dst data size priority).2.nodes, n.inbound_queue = [] := by
  unfold RingBusSimulator.send_message
  split
  · exact h
  · split
    · exact h
    · rename_i source0 hsrc
      split
      · exact h
      · simp only []
        intro n hn
        have hnodes : (if (s.dtd_enabled && RingBusSimulator.is_memory_request data size) = true
            then RingBusSimulator.send_message_dtd s src dst data size else (s, dst, 0)).1.nodes = s.nodes := by
          split
          · exact send_message_dtd_nodes _ _ _ _ _
          · rfl
        rw [hnodes] at hn
        rcases List.mem_or_eq_of_mem_set hn with hm | he
        · exact h n hm
        · rw [he]
          exact h source0 (List.getElem?_mem hsrc)

/-- A call of `route_message` that returns leaves the state as it was. -/
theorem route_message_state (s : RingBusSimulator) (message : ring_bus_message_t)
    (r : Bool × RingBusSimulator) (h : RingBusSimulator.route_message s message = some r) :
    r.2 = s := by
  unfold RingBusSimulator.route_message RingBusSimulator.send_message_holding_mutex at h
  simp only [] at h
  split at h
  · split at h
    · cases h; rfl
    · cases h
  · cases h; rfl

theorem process_node_queue_inbound (fuel : Nat) (s s1 : RingBusSimulator) (node_id : Nat)
    (h : ∀ n ∈ s.nodes, n.inbound_queue = [])
    (hrun : RingBusSimulator.process_node_queue fuel s node_id = some s1) :
    ∀ n ∈ s1.nodes, n.inbound_queue = [] := by
  induction fuel generalizing s with
  | zero => simp [RingBusSimulator.process_node_queue] at hrun
  | succ fuel ih =>
    unfold RingBusSimulator.process_node_queue at hrun
    split at hrun
    · cases hrun; exact h
    · split at hrun
      · cases hrun; exact h
      · rename_i node hnode message rest hq
        cases hroute : RingBusSimulator.route_message s message with
        | none => rw [hroute] at hrun; cases hrun
        | some r =>
          rw [hroute] at hrun
          simp only [] at hrun
          have hr2 := route_message_state s message r hroute
          rw [hr2] at hrun
          split at hrun
          · split at hrun
            · cases hrun; exact h
            · rename_i node1 hnode1
              refine ih _ ?_ hrun
              intro n hn
              rcases List.mem_or_eq_of_mem_set hn with hm | he
              · exact h n hm
              · rw [he]
                exact h node1 (List.getElem?_mem hnode1)
          · cases hrun; exact h

theorem foldlM_process_inbound (fuel : Nat) (l : List Nat) (s s1 : RingBusSimulator)
    (h : ∀ n ∈ s.nodes, n.inbound_queue = [])
    (hrun : l.foldlM (fun st i => RingBusSimulator.process_node_queue fuel st i) s = some s1) :
    ∀ n ∈ s1.nodes, n.inbound_queue = [] := by
  induction l generalizing s with
  | nil =>
    simp only [List.foldlM_nil] at hrun
    cases hrun; exact h
  | cons a l ih =>
    rw [List.foldlM_cons] at hrun
    cases hp : RingBusSimulator.process_node_queue fuel s a with
    | none => rw [hp] at hrun; simp at hrun
    | some s2 =>
      rw [hp] at hrun
      exact ih s2 (process_node_queue_inbound fuel s s2 a h hp) hrun

theorem step_simulation_inbound (fuel : Nat) (s s1 : RingBusSimulator)
    (h : ∀ n ∈ s.nodes, n.inbound_queue = [])
    (hrun : RingBusSimulator.step_simulation fuel s = some s1) :
    ∀ n ∈ s1.nodes, n.inbound_queue = [] :=
  foldlM_process_inbound fuel _ (RingBusSimulator.advance_simulation s) s1 h hrun

/-- No reachable state holds a message in an inbound queue. -/
theorem reachable_inbound_empty (s : RingBusSimulator) (hs : Reachable s) :
    ∀ n ∈ s.nodes, n.inbound_queue = [] := by
  induction hs with
  | init num_nodes arch =>
    intro n hn
    simp only [RingBusSimulator.init_simulator, RingBusSimulator.build_ring_topology, RingBusSimulator.construct, List.mem_map] at hn
    obtain ⟨i, _, rfl⟩ := hn
    simp
  | send s src dst data size priority _ ih => exact send_message_inbound _ _ _ _ _ _ ih
  | step fuel s s1 _ hrun ih => exact step_simulation_inbound fuel s s1 ih hrun
  | receive s node_id message _ ih =>
    have hf := receive_message_of_inbound_empty s node_id message ih
    have hc : ¬ (node_id < s.config.num_nodes ∧ ∃ node front rest, s.nodes[node_id]? = some node
          ∧ node.inbound_queue = front :: rest ∧ s.simulation_time ≥ front.delivery_time) := by
      rintro ⟨_, node, front, rest, hn, hq, _⟩
      rw [ih node (List.getElem?_mem hn)] at hq
      exact List.noConfusion hq
    rw [(receive_message_not_ready s node_id message hc).2]
    exact ih
  | reset s _ _ =>
    intro n hn
    simp only [RingBusSimulator.reset_simulation, List.mem_map] at hn
    obtain ⟨m, _, rfl⟩ := hn
    rfl

/-- In every reachable state `RingBusSimulator.receive_message` returns false for every node. -/
theorem reachable_receive_message_false (s : RingBusSimulator) (hs : Reachable s) (b : Nat)
    (message : ring_bus_message_t) : (RingBusSimulator.receive_message s b message).1 = false :=
  receive_message_of_inbound_empty s b message (reachable_inbound_empty s hs)

/-! ## Write-back scenario of the directory (C8) -/

/-- C8 (failing input): the 4-node ring, `A = 0x1000`, `o = 0`, `r = 3`.  The
directory holds the line as Modified with owner 0 and `sharer_mask = 1`;
`dtd_check_coherency(A, 3)` is false and `send_message(3, 2, p, 8)` enqueues a
message for the home node `0x1000 mod 4 = 0`.  The latency added for the
directory is 2 (the distance 1 from node 3 to node 0 plus 1), so that
`delivery_time = 0 + 1 * 2 + 2 = 4`, not a surcharge of 3; and the record ends
with owner 3, Modified and `sharer_mask = 1`, not `1 << 3 = 8`. -/
theorem C8_write_back_scenario :
    (RingBusSimulator.find_cache_line ring4_line_modified 4096).bind
        (RingBusSimulator.cache_line_at ring4_line_modified)
      = some { cache_line_address := 4096, owner_tile := 0, sharer_mask := 1, is_modified := true,
               is_exclusive := true, is_shared := false, timestamp := 0 }
    ∧ RingBusSimulator.extract_memory_address payload_0x1000 8 = 4096
    ∧ RingBusSimulator.dtd_check_coherency ring4_line_modified 4096 3 = false
    ∧ (RingBusSimulator.send_message ring4_line_modified 3 2 payload_0x1000 8 0).1 = true
    ∧ ((RingBusSimulator.send_message ring4_line_modified 3 2 payload_0x1000 8 0).2.nodes[3]?).map
        (fun n => n.outbound_queue.map (fun m => (m.dest_node, m.timestamp, m.delivery_time)))
        = some [(0, 0, 4)]
    ∧ RingBusSimulator.calculate_distance ring4_line_modified 3 0 = 1
    ∧ ring4_line_modified.config.latency_cycles = 2
    ∧ (RingBusSimulator.send_message_dtd ring4_line_modified 3 2 payload_0x1000 8).2.2 = 2
    ∧ (RingBusSimulator.find_cache_line
          (RingBusSimulator.send_message ring4_line_modified 3 2 payload_0x1000 8 0).2 4096).bind
        (RingBusSimulator.cache_line_at
          (RingBusSimulator.send_message ring4_line_modified 3 2 payload_0x1000 8 0).2)
      = some { cache_line_address := 4096, owner_tile := 3, sharer_mask := 1, is_modified := true,
               is_exclusive := true, is_shared := false, timestamp := 0 }
    ∧ shl_one 3 = 8 := by
  decide

/-! ## MMU bounds and round trip (C9, C10) -/

theorem range_map_getD (B : List Nat) (f : Nat → Nat)
    (hf : ∀ k, k < B.length → f k = B.getD k 0) :
    (List.range B.length).map f = B := by
  apply List.ext_getElem
  · simp
  · intro k h1 h2
    simp only [List.getElem_map, List.getElem_range]
    rw [hf k h2, List.getD_eq_getElem _ _ h2]

theorem mmu_access_valid (rt : KNCRuntime) (address size : Nat)
    (hsize : 1 ≤ size) (hfit : address + size ≤ rt.memory_size)
    (h64 : rt.memory_size ≤ 18446744073709551616) :
    (!KNCRuntime.is_valid_address rt address
      || !KNCRuntime.is_valid_address rt
          ((address + size + 18446744073709551615) % 18446744073709551616)) = false
    ∧ ¬ (KNCRuntime.address_to_mmu rt address ≥ KNCRuntime.max_mmus rt) := by
  have e : (address + size + 18446744073709551615) % 18446744073709551616 = address + size - 1 := by
    omega
  constructor
  · rw [e]
    simp only [KNCRuntime.is_valid_address, Bool.or_eq_false_iff, Bool.not_eq_false',
      decide_eq_true_eq]
    omega
  · unfold KNCRuntime.address_to_mmu KNCRuntime.max_mmus KNL_NUM_MMUS KNC_NUM_MMUS
    rw [if_neg (by omega)]
    split <;> omega

theorem mmu_write_in_range (rt : KNCRuntime) (address : Nat) (data : List Nat) (size r : Nat)
    (hsize : 1 ≤ size) (hfit : address + size ≤ rt.memory_size)
    (h64 : rt.memory_size ≤ 18446744073709551616) :
    KNCRuntime.mmu_write rt address data size r
      = (knc_error_t.KNC_SUCCESS, { rt with
          pcie_bridge := rt.pcie_bridge.map (fun b => (b.transferDataHostToDevice size).2)
          mmus := KNCRuntime.update_mmu_statistics rt.mmus (KNCRuntime.address_to_mmu rt address) r
          memory := KNCRuntime.memcpy_to_memory rt.memory address data size }) := by
  obtain ⟨h1, h2⟩ := mmu_access_valid rt address size hsize hfit h64
  unfold KNCRuntime.mmu_write
  rw [h1]
  simp only [Bool.false_eq_true, if_false]
  rw [if_neg h2]

theorem mmu_read_in_range (rt : KNCRuntime) (address : Nat) (data : List Nat) (size r : Nat)
    (hsize : 1 ≤ size) (hfit : address + size ≤ rt.memory_size)
    (h64 : rt.memory_size ≤ 18446744073709551616) :
    KNCRuntime.mmu_read rt address data size r
      = (knc_error_t.KNC_SUCCESS, KNCRuntime.memcpy_from_memory rt.memory address data size, { rt with
          pcie_bridge := rt.pcie_bridge.map (fun b => (b.transferDataDeviceToHost size).2)
          mmus := KNCRuntime.update_mmu_statistics rt.mmus (KNCRuntime.address_to_mmu rt address) r }) := by
  obtain ⟨h1, h2⟩ := mmu_access_valid rt address size hsize hfit h64
  unfold KNCRuntime.mmu_read
  rw [h1]
  simp only [Bool.false_eq_true, if_false]
  rw [if_neg h2]

/-- C10: on an initialized runtime, for every address, every byte string `B` of
length `n ≥ 1` with `address + n ≤ memory_size` and every prior memory
content, `mmu_write(address, B, n)` succeeds, the `mmu_read(address, out, n)`
that follows succeeds and fills the first `n` bytes of `out` with `B` (the
rest of `out` is untouched), and memory outside `[address, address + n)` is
unchanged by both calls.  `r1` and `r2` are the two draws of `rand()`. -/
theorem C10_write_read_roundtrip (rt : KNCRuntime) (address : Nat) (B out : List Nat) (r1 r2 : Nat)
    (_hinit : rt.initialized = true) (hlen : 1 ≤ B.length)
    (hfit : address + B.length ≤ rt.memory_size)
    (h64 : rt.memory_size ≤ 18446744073709551616) :
    (KNCRuntime.mmu_write rt address B B.length r1).1 = knc_error_t.KNC_SUCCESS
    ∧ (KNCRuntime.mmu_read (KNCRuntime.mmu_write rt address B B.length r1).2 address out B.length r2).1
        = knc_error_t.KNC_SUCCESS
    ∧ (KNCRuntime.mmu_read (KNCRuntime.mmu_write rt address B B.length r1).2 address out B.length r2).2.1
        = B ++ out.drop B.length
    ∧ ∀ a, ¬ (address ≤ a ∧ a < address + B.length) →
        (KNCRuntime.mmu_write rt address B B.length r1).2.memory a = rt.memory a
        ∧ (KNCRuntime.mmu_read (KNCRuntime.mmu_write rt address B B.length r1).2 address out
            B.length r2).2.2.memory a = rt.memory a := by
  have hw := mmu_write_in_range rt address B B.length r1 hlen hfit h64
  have hms : (KNCRuntime.mmu_write rt address B B.length r1).2.memory_size = rt.memory_size := by
    rw [hw]
  have hmem : (KNCRuntime.mmu_write rt address B B.length r1).2.memory
      = KNCRuntime.memcpy_to_memory rt.memory address B B.length := by rw [hw]
  have hr := mmu_read_in_range (KNCRuntime.mmu_write rt address B B.length r1).2 address out
    B.length r2 hlen (by rw [hms]; exact hfit) (by rw [hms]; exact h64)
  rw [hr]
  simp only [hmem]
  refine ⟨by rw [hw], trivial, ?_, ?_⟩
  · simp only [KNCRuntime.memcpy_from_memory]
    congr 1
    apply range_map_getD
    intro k hk
    simp only [KNCRuntime.memcpy_to_memory]
    rw [if_pos (by omega)]
    congr 1
    omega
  · intro a ha
    simp only [KNCRuntime.memcpy_to_memory]
    rw [if_neg ha]
    exact ⟨rfl, rfl⟩

/-- C10 (witness): three bytes written at the last three addresses of the 8 GB
runtime are read back, and address 0 keeps its content. -/
theorem C10_write_read_roundtrip_witness :
    (KNCRuntime.mmu_write knc_runtime 8589934589 [171, 205, 239] 3 0).1 = knc_error_t.KNC_SUCCESS
    ∧ (KNCRuntime.mmu_read (KNCRuntime.mmu_write knc_runtime 8589934589 [171, 205, 239] 3 0).2
        8589934589 [0, 0, 0] 3 95).1 = knc_error_t.KNC_SUCCESS
    ∧ (KNCRuntime.mmu_read (KNCRuntime.mmu_write knc_runtime 8589934589 [171, 205, 239] 3 0).2
        8589934589 [0, 0, 0] 3 95).2.1 = [171, 205, 239]
    ∧ (KNCRuntime.mmu_write knc_runtime 8589934589 [171, 205, 239] 3 0).2.memory 0
        = knc_runtime.memory 0 :=
  have h := C10_write_read_roundtrip knc_runtime 8589934589 [171, 205, 239] [0, 0, 0] 0 95
    (by decide) (by decide) (by decide) (by decide)
  ⟨h.1, h.2.1, h.2.2.1, (h.2.2.2 0 (by decide)).1⟩

/-! ## MMU banks (C11, C12) -/

section
open KNCRuntime

/-- C11: for every address below `memory_size`, `address_to_mmu(address)` is
`address mod num_banks`, hence below `num_banks`, with `num_banks` equal to 8
for KNC and 38 for KNL; for an address at or beyond `memory_size` it returns
`num_banks`.  On the default KNC runtime (8 GB) `address_to_mmu(0) = 0` and
`address_to_mmu(0xFFFFFFFF) = 7`. -/
theorem C11_address_to_mmu (rt : KNCRuntime) (address : Nat) :
    (address < rt.memory_size →
        address_to_mmu rt address = address % max_mmus rt ∧ address_to_mmu rt address < max_mmus rt)
    ∧ (rt.memory_size ≤ address → address_to_mmu rt address = max_mmus rt)
    ∧ (rt.architecture = knc_architecture_t.ARCH_KNC → max_mmus rt = 8)
    ∧ (rt.architecture = knc_architecture_t.ARCH_KNL → max_mmus rt = 38)
    ∧ knc_runtime.memory_size = 8 * 1024 * 1024 * 1024
    ∧ knc_runtime.architecture = knc_architecture_t.ARCH_KNC
    ∧ address_to_mmu knc_runtime 0 = 0
    ∧ address_to_mmu knc_runtime 4294967295 = 7 := by
  refine ⟨fun h => ?_, fun h => ?_, fun h => ?_, fun h => ?_, by decide, by decide, by decide, by decide⟩
  · unfold address_to_mmu max_mmus KNL_NUM_MMUS KNC_NUM_MMUS
    rw [if_neg (by omega)]
    split
    · exact ⟨rfl, Nat.mod_lt _ (by decide)⟩
    · exact ⟨rfl, Nat.mod_lt _ (by decide)⟩
  · unfold address_to_mmu
    rw [if_pos h]
  · simp [max_mmus, h, KNC_NUM_MMUS]
  · simp [max_mmus, h, KNL_NUM_MMUS]

/-- C11 (witness): on the default KNL runtime the address 1000 lies in bank
`1000 mod 38 = 12` and the first address beyond the 16 GB gives the marker 38. -/
theorem C11_address_to_mmu_witness :
    (address_to_mmu (KNCRuntime.construct 68 KNL_MEMORY_SIZE knc_architecture_t.ARCH_KNL) 1000
        = 1000 % max_mmus (KNCRuntime.construct 68 KNL_MEMORY_SIZE knc_architecture_t.ARCH_KNL)
      ∧ address_to_mmu (KNCRuntime.construct 68 KNL_MEMORY_SIZE knc_architecture_t.ARCH_KNL) 1000
        < max_mmus (KNCRuntime.construct 68 KNL_MEMORY_SIZE knc_architecture_t.ARCH_KNL))
    ∧ max_mmus (KNCRuntime.construct 68 KNL_MEMORY_SIZE knc_architecture_t.ARCH_KNL) = 38 :=
  ⟨(C11_address_to_mmu (KNCRuntime.construct 68 KNL_MEMORY_SIZE knc_architecture_t.ARCH_KNL) 1000).1
      (by decide),
   (C11_address_to_mmu (KNCRuntime.construct 68 KNL_MEMORY_SIZE knc_architecture_t.ARCH_KNL) 1000).2.2.2.1
      (by decide)⟩

theorem mmu_write_cases (rt : KNCRuntime) (address : Nat) (data : List Nat) (size r : Nat) :
    ((mmu_write rt address data size r).1 = knc_error_t.KNC_SUCCESS
        ∧ address < rt.memory_size
        ∧ (mmu_write rt address data size r).2.mmus
            = update_mmu_statistics rt.mmus (address % max_mmus rt) r
        ∧ (mmu_write rt address data size r).2.architecture = rt.architecture)
    ∨ ((mmu_write rt address data size r).1 = knc_error_t.KNC_ERROR_MEMORY_ACCESS
        ∧ (mmu_write rt address data size r).2 = rt) := by
  unfold mmu_write
  split
  · exact Or.inr ⟨rfl, rfl⟩
  · rename_i hv
    simp only []
    split
    · exact Or.inr ⟨rfl, rfl⟩
    · have ha : address < rt.memory_size := by
        simp only [is_valid_address, Bool.or_eq_true, Bool.not_eq_true', decide_eq_false_iff_not,
          not_or, not_not] at hv
        exact hv.1
      have hm : address_to_mmu rt address = address % max_mmus rt := by
        unfold address_to_mmu max_mmus; rw [if_neg (by omega)]; split <;> rfl
      exact Or.inl ⟨rfl, ha, by rw [hm], rfl⟩

theorem mmu_read_cases (rt : KNCRuntime) (address : Nat) (data : List Nat) (size r : Nat) :
    ((mmu_read rt address data size r).1 = knc_error_t.KNC_SUCCESS
        ∧ address < rt.memory_size
        ∧ (mmu_read rt address data size r).2.2.mmus
            = update_mmu_statistics rt.mmus (address % max_mmus rt) r
        ∧ (mmu_read rt address data size r).2.2.architecture = rt.architecture)
    ∨ ((mmu_read rt address data size r).1 = knc_error_t.KNC_ERROR_MEMORY_ACCESS
        ∧ (mmu_read rt address data size r).2.2 = rt) := by
  unfold mmu_read
  split
  · exact Or.inr ⟨rfl, rfl⟩
  · rename_i hv
    simp only []
    split
    · exact Or.inr ⟨rfl, rfl⟩
    · have ha : address < rt.memory_size := by
        simp only [is_valid_address, Bool.or_eq_true, Bool.not_eq_true', decide_eq_false_iff_not,
          not_or, not_not] at hv
        exact hv.1
      have hm : address_to_mmu rt address = address % max_mmus rt := by
        unfold address_to_mmu max_mmus; rw [if_neg (by omega)]; split <;> rfl
      exact Or.inl ⟨rfl, ha, by rw [hm], rfl⟩

theorem update_mmu_statistics_length (mmus : List knc_mmu_t) (bank r : Nat) :
    (update_mmu_statistics mmus bank r).length = mmus.length := by
  unfold update_mmu_statistics
  split
  · rfl
  · simp

theorem update_mmu_statistics_other (mmus : List knc_mmu_t) (bank r j : Nat) (h : j ≠ bank) :
    (update_mmu_statistics mmus bank r)[j]? = mmus[j]? := by
  unfold update_mmu_statistics
  split
  · rfl
  · exact List.getElem?_set_ne (Ne.symm h)

theorem update_mmu_statistics_bank (mmus : List knc_mmu_t) (bank r : Nat) (h : bank < mmus.length) :
    ∃ m m1, mmus[bank]? = some m ∧ (update_mmu_statistics mmus bank r)[bank]? = some m1
      ∧ m1.accesses = m.accesses + 1
      ∧ ((m1.cache_hits = m.cache_hits + 1 ∧ m1.cache_misses = m.cache_misses)
          ∨ (m1.cache_hits = m.cache_hits ∧ m1.cache_misses = m.cache_misses + 1)) := by
  unfold update_mmu_statistics
  have hm : mmus[bank]? = some mmus[bank] := List.getElem?_eq_getElem h
  rw [hm]
  simp only []
  refine ⟨mmus[bank], _, rfl, List.getElem?_set_self h, ?_⟩
  split
  · exact ⟨rfl, Or.inl ⟨rfl, rfl⟩⟩
  · exact ⟨rfl, Or.inr ⟨rfl, rfl⟩⟩

theorem update_mmu_statistics_balanced (mmus : List knc_mmu_t) (bank r : Nat)
    (h : ∀ m ∈ mmus, m.accesses = m.cache_hits + m.cache_misses) :
    ∀ m ∈ update_mmu_statistics mmus bank r, m.accesses = m.cache_hits + m.cache_misses := by
  unfold update_mmu_statistics
  split
  · exact h
  · rename_i m0 hm0
    intro m hm
    have h0 := h m0 (List.getElem?_mem hm0)
    rcases List.mem_or_eq_of_mem_set hm with hmem | heq
    · exact h m hmem
    · rw [heq]
      split
      · simp only []; omega
      · simp only []; omega

theorem handle_system_call_frame (rt : KNCRuntime) (core : knc_core_state_t) (syscall : Nat) :
    ∃ sh, (handle_system_call rt core syscall).2.2 = { rt with should_halt := sh } := by
  unfold handle_system_call syscall_exit syscall_write syscall_read
  split
  · exact ⟨true, rfl⟩
  · split
    · simp only []
      split <;> exact ⟨rt.should_halt, rfl⟩
    · split
      · simp only []
        split <;> exact ⟨rt.should_halt, rfl⟩
      · exact ⟨rt.should_halt, rfl⟩

theorem execute_instruction_frame (rt : KNCRuntime) (core : knc_core_state_t) (instruction : Nat) :
    ∃ sh, (execute_instruction rt core instruction).2.2 = { rt with should_halt := sh } := by
  unfold execute_instruction
  split
  · exact handle_system_call_frame _ _ _
  · split
    · exact ⟨rt.should_halt, rfl⟩
    · split <;> exact ⟨rt.should_halt, rfl⟩

theorem execute_core_body_frame (rt : KNCRuntime) (core_id : Nat) :
    ∃ cs sh, (execute_core_body rt core_id).2 = { rt with core_states := cs, should_halt := sh } := by
  unfold execute_core_body
  split
  · exact ⟨rt.core_states, rt.should_halt, rfl⟩
  · rename_i core hcore
    simp only []
    split
    · exact ⟨_, rt.should_halt, rfl⟩
    · obtain ⟨sh, hsh⟩ := execute_instruction_frame rt core core.registers.rip
      split
      · rw [hsh]; exact ⟨_, sh, rfl⟩
      · rw [hsh]; exact ⟨_, sh, rfl⟩

theorem execute_core_step_frame (rt : KNCRuntime) (core_id : Nat) :
    ∃ cs sh, execute_core_step rt core_id = { rt with core_states := cs, should_halt := sh } := by
  unfold execute_core_step
  split
  · exact execute_core_body_frame rt core_id
  · exact ⟨rt.core_states, rt.should_halt, rfl⟩

theorem step_mmus (rt rt1 : KNCRuntime) (h : Step rt rt1) :
    rt1.architecture = rt.architecture
    ∧ (rt1.mmus = rt.mmus ∨ ∃ bank r, rt1.mmus = update_mmu_statistics rt.mmus bank r) := by
  cases h with
  | init => exact ⟨rfl, Or.inl rfl⟩
  | set_pcie_bridge bridge => exact ⟨rfl, Or.inl rfl⟩
  | load_program program_data program_size =>
    unfold load_program
    split
    · exact ⟨rfl, Or.inl rfl⟩
    · split <;> exact ⟨rfl, Or.inl rfl⟩
  | mmu_write address data size r =>
    rcases mmu_write_cases rt address data size r with ⟨_, _, hm, ha⟩ | ⟨_, he⟩
    · exact ⟨ha, Or.inr ⟨_, _, hm⟩⟩
    · rw [he]; exact ⟨rfl, Or.inl rfl⟩
  | mmu_read address data size r =>
    rcases mmu_read_cases rt address data size r with ⟨_, _, hm, ha⟩ | ⟨_, he⟩
    · exact ⟨ha, Or.inr ⟨_, _, hm⟩⟩
    · rw [he]; exact ⟨rfl, Or.inl rfl⟩
  | run_begin =>
    unfold run_begin
    split <;> exact ⟨rfl, Or.inl rfl⟩
  | execute_core_step core_id =>
    obtain ⟨cs, sh, he⟩ := execute_core_step_frame rt core_id
    rw [he]; exact ⟨rfl, Or.inl rfl⟩
  | update_global_cycle_count => exact ⟨rfl, Or.inl rfl⟩
  | halt => exact ⟨rfl, Or.inl rfl⟩

theorem reachable_mmus (rt : KNCRuntime) (h : KNCRuntime.Reachable rt) :
    rt.mmus.length = max_mmus rt
    ∧ ∀ m ∈ rt.mmus, m.accesses = m.cache_hits + m.cache_misses := by
  induction h with
  | construct cores mem_size arch =>
    constructor
    · simp only [KNCRuntime.construct, max_mmus, List.length_map, List.length_range]
    · intro m hm
      simp only [KNCRuntime.construct, List.mem_map] at hm
      obtain ⟨i, _, rfl⟩ := hm
      rfl
  | step rt rt1 _ hstep ih =>
    obtain ⟨ha, hm⟩ := step_mmus rt rt1 hstep
    have hmax : max_mmus rt1 = max_mmus rt := by unfold max_mmus; rw [ha]
    rcases hm with hm | ⟨bank, r, hm⟩
    · rw [hm, hmax]; exact ih
    · rw [hm, hmax, update_mmu_statistics_length]
      exact ⟨ih.1, update_mmu_statistics_balanced _ _ _ ih.2⟩

theorem update_mmu_statistics_monotone (mmus : List knc_mmu_t) (bank r j : Nat) (m : knc_mmu_t)
    (hj : mmus[j]? = some m) :
    ∃ m1, (update_mmu_statistics mmus bank r)[j]? = some m1 ∧ m.accesses ≤ m1.accesses
      ∧ m.cache_hits ≤ m1.cache_hits ∧ m.cache_misses ≤ m1.cache_misses := by
  by_cases hb : j = bank
  · subst hb
    have hlt : j < mmus.length := by
      rcases Nat.lt_or_ge j mmus.length with h | h
      · exact h
      · rw [List.getElem?_eq_none h] at hj; exact Option.noConfusion hj
    obtain ⟨m0, m1, h0, h1, ha, hhm⟩ := update_mmu_statistics_bank mmus j r hlt
    rw [hj] at h0
    cases h0
    refine ⟨m1, h1, by omega, ?_, ?_⟩
    · rcases hhm with ⟨h2, _⟩ | ⟨h2, _⟩ <;> omega
    · rcases hhm with ⟨_, h2⟩ | ⟨_, h2⟩ <;> omega
  · refine ⟨m, ?_, le_refl _, le_refl _, le_refl _⟩
    rw [update_mmu_statistics_other mmus bank r j hb, hj]

/-- C12: with the draw of `rand()` as the arbitrary input `r`, in every reachable
runtime state a successful `mmu_write` or `mmu_read` at `address` counts one
access on bank `address mod num_banks` (accesses + 1, exactly one of
cache_hits and cache_misses + 1) and changes no other bank; a failing call
changes no counter; every step of the runtime leaves every bank counter
non-decreasing; and `accesses = cache_hits + cache_misses` holds for every
bank. -/
theorem C12_bank_counters (rt : KNCRuntime) (hr : KNCRuntime.Reachable rt) (address : Nat)
    (data : List Nat) (size r : Nat) :
    ((mmu_write rt address data size r).1 = knc_error_t.KNC_SUCCESS →
        bank_counted rt.mmus (mmu_write rt address data size r).2.mmus (address % max_mmus rt))
    ∧ ((mmu_write rt address data size r).1 ≠ knc_error_t.KNC_SUCCESS →
        (mmu_write rt address data size r).2.mmus = rt.mmus)
    ∧ ((mmu_read rt address data size r).1 = knc_error_t.KNC_SUCCESS →
        bank_counted rt.mmus (mmu_read rt address data size r).2.2.mmus (address % max_mmus rt))
    ∧ ((mmu_read rt address data size r).1 ≠ knc_error_t.KNC_SUCCESS →
        (mmu_read rt address data size r).2.2.mmus = rt.mmus)
    ∧ (∀ rt1, Step rt rt1 → ∀ (j : Nat) (m : knc_mmu_t), rt.mmus[j]? = some m →
        ∃ m1 : knc_mmu_t, rt1.mmus[j]? = some m1 ∧ m.accesses ≤ m1.accesses
          ∧ m.cache_hits ≤ m1.cache_hits ∧ m.cache_misses ≤ m1.cache_misses)
    ∧ (∀ m ∈ rt.mmus, m.accesses = m.cache_hits + m.cache_misses) := by
  obtain ⟨hlen, hbal⟩ := reachable_mmus rt hr
  have hpos : 0 < max_mmus rt := by
    unfold max_mmus KNL_NUM_MMUS KNC_NUM_MMUS; split <;> decide
  have hbank : address % max_mmus rt < rt.mmus.length := by
    rw [hlen]; exact Nat.mod_lt _ hpos
  have hcount : ∀ new, new = update_mmu_statistics rt.mmus (address % max_mmus rt) r →
      bank_counted rt.mmus new (address % max_mmus rt) := by
    intro new hnew
    subst hnew
    exact ⟨update_mmu_statistics_bank _ _ _ hbank,
      fun j hj => update_mmu_statistics_other _ _ _ j hj⟩
  refine ⟨fun hs => ?_, fun hf => ?_, fun hs => ?_, fun hf => ?_, ?_, hbal⟩
  · rcases mmu_write_cases rt address data size r with ⟨_, _, hm, _⟩ | ⟨he, _⟩
    · exact hcount _ hm
    · rw [he] at hs; exact knc_error_t.noConfusion hs
  · rcases mmu_write_cases rt address data size r with ⟨hs, _⟩ | ⟨_, he⟩
    · exact absurd hs hf
    · rw [he]
  · rcases mmu_read_cases rt address data size r with ⟨_, _, hm, _⟩ | ⟨he, _⟩
    · exact hcount _ hm
    · rw [he] at hs; exact knc_error_t.noConfusion hs
  · rcases mmu_read_cases rt address data size r with ⟨hs, _⟩ | ⟨_, he⟩
    · exact absurd hs hf
    · rw [he]
  · intro rt1 hstep j m hj
    rcases (step_mmus rt rt1 hstep).2 with hm | ⟨bank, r1, hm⟩
    · rw [hm]; exact ⟨m, hj, le_refl _, le_refl _, le_refl _⟩
    · rw [hm]; exact update_mmu_statistics_monotone _ _ _ _ _ hj

/-- The default KNC runtime after `initialize()` is reachable. -/
theorem knc_runtime_reachable : KNCRuntime.Reachable knc_runtime :=
  KNCRuntime.Reachable.step _ _ (KNCRuntime.Reachable.construct 60 KNC_MEMORY_SIZE knc_architecture_t.ARCH_KNC)
    (KNCRuntime.Step.init _)

/-- C12 (witness): a one-byte write at address 13 of the default KNC runtime
is counted on bank 5, and the balance of the counters holds afterwards. -/
theorem C12_bank_counters_witness :
    bank_counted knc_runtime.mmus (mmu_write knc_runtime 13 [171] 1 95).2.mmus 5
    ∧ ∀ m ∈ (mmu_write knc_runtime 13 [171] 1 95).2.mmus,
        m.accesses = m.cache_hits + m.cache_misses :=
  ⟨(C12_bank_counters knc_runtime knc_runtime_reachable 13 [171] 1 95).1 (by decide),
   (C12_bank_counters (mmu_write knc_runtime 13 [171] 1 95).2
      (KNCRuntime.Reachable.step _ _ knc_runtime_reachable (KNCRuntime.Step.mmu_write _ 13 [171] 1 95))
      0 [] 1 0).2.2.2.2.2⟩

end

/-! ## Program load (C13) -/

section
open KNCRuntime

theorem mapIdx_eq_map_of_lt {α β : Type} (l : List α) (f : Nat → α → β) (g : α → β)
    (h : ∀ i a, i < l.length → f i a = g a) : l.mapIdx f = l.map g := by
  apply List.ext_getElem?
  intro i
  rw [List.getElem?_mapIdx, List.getElem?_map]
  rcases Nat.lt_or_ge i l.length with hi | hi
  · rw [List.getElem?_eq_getElem hi]
    simp only [Option.map_some']
    rw [h i _ hi]
  · rw [List.getElem?_eq_none hi]
    rfl

theorem load_program_success (rt : KNCRuntime) (data : List Nat) (n : Nat)
    (hi : rt.initialized = true) (hn : n ≤ rt.memory_size) :
    load_program rt data n = (true, { rt with
      memory := memcpy_to_memory rt.memory 0 data n
      core_states := rt.core_states.mapIdx (fun i core =>
        if i < rt.num_cores then
          { core with registers := { core.registers with rip := 0 }, is_halted := false }
        else core) }) := by
  unfold load_program
  rw [hi]
  simp only [Bool.not_true, Bool.false_eq_true, if_false]
  rw [if_neg (by omega)]

theorem load_program_failure (rt : KNCRuntime) (data : List Nat) (n : Nat)
    (h : ¬ (rt.initialized = true ∧ n ≤ rt.memory_size)) :
    load_program rt data n = (false, rt) := by
  unfold load_program
  by_cases hi : rt.initialized = true
  · rw [hi]
    simp only [Bool.not_true, Bool.false_eq_true, if_false]
    rw [if_pos (by
      have : ¬ n ≤ rt.memory_size := fun hn => h ⟨hi, hn⟩
      omega)]
  · have hf : rt.initialized = false := by
      cases hb : rt.initialized
      · rfl
      · exact absurd hb hi
    rw [hf]
    rfl

/-- C13: `load_program(data, n)` returns true iff the runtime is initialized
and `n ≤ memory_size`; on success `memory[0..n)` holds the bytes of `data`,
`memory[n..)` is unchanged and every core has `rip = 0` and `is_halted =
false` (its other fields are kept); on failure the whole runtime state,
memory and core states included, is unchanged. -/
theorem C13_load_program (rt : KNCRuntime) (data : List Nat) (n : Nat)
    (hcores : rt.core_states.length = rt.num_cores) (hdata : n ≤ data.length) :
    ((load_program rt data n).1 = true ↔ rt.initialized = true ∧ n ≤ rt.memory_size)
    ∧ ((load_program rt data n).1 = true →
        (∀ i, i < n → data[i]? = some ((load_program rt data n).2.memory i))
        ∧ (∀ a, n ≤ a → (load_program rt data n).2.memory a = rt.memory a)
        ∧ (load_program rt data n).2.core_states = rt.core_states.map (fun core =>
            { core with registers := { core.registers with rip := 0 }, is_halted := false })
        ∧ (∀ core ∈ (load_program rt data n).2.core_states,
            core.registers.rip = 0 ∧ core.is_halted = false))
    ∧ ((load_program rt data n).1 = false → (load_program rt data n).2 = rt) := by
  by_cases h : rt.initialized = true ∧ n ≤ rt.memory_size
  · have hs := load_program_success rt data n h.1 h.2
    have hmap : rt.core_states.mapIdx (fun i core =>
        if i < rt.num_cores then
          ({ core with registers := { core.registers with rip := 0 }, is_halted := false } : knc_core_state_t)
        else core)
        = rt.core_states.map (fun core =>
            { core with registers := { core.registers with rip := 0 }, is_halted := false }) := by
      apply mapIdx_eq_map_of_lt
      intro i a hi
      rw [if_pos (by omega)]
    rw [hs]
    refine ⟨⟨fun _ => h, fun _ => rfl⟩, fun _ => ⟨?_, ?_, hmap, ?_⟩, fun hf => by simp at hf⟩
    · intro i hi
      simp only [memcpy_to_memory]
      rw [if_pos (by omega), Nat.sub_zero, List.getD_eq_getElem _ _ (by omega),
        List.getElem?_eq_getElem (by omega)]
    · intro a ha
      simp only [memcpy_to_memory]
      rw [if_neg (by omega)]
    · intro core hcore
      simp only [hmap, List.mem_map] at hcore
      obtain ⟨c, _, rfl⟩ := hcore
      exact ⟨rfl, rfl⟩
  · have hf := load_program_failure rt data n h
    rw [hf]
    exact ⟨⟨fun ht => by simp at ht, fun hc => absurd hc h⟩, fun ht => by simp at ht, fun _ => rfl⟩

/-- C13 (witness): a program that fills the 16 bytes of `small_runtime` exactly
is loaded and both cores are released at `rip = 0`. -/
theorem C13_load_program_witness :
    (load_program small_runtime (List.replicate 16 144) 16).1 = true
    ∧ (load_program small_runtime (List.replicate 16 144) 16).2.memory 15 = 144
    ∧ ∀ core ∈ (load_program small_runtime (List.replicate 16 144) 16).2.core_states,
        core.registers.rip = 0 ∧ core.is_halted = false :=
  have h := C13_load_program small_runtime (List.replicate 16 144) 16 (by decide) (by decide)
  have ht : (load_program small_runtime (List.replicate 16 144) 16).1 = true :=
    h.1.mpr ⟨by decide, by decide⟩
  ⟨ht, by decide, (h.2.1 ht).2.2.2⟩

end

/-! ## RET halts one core (C14) -/

section
open KNCRuntime

theorem execute_core_condition_of_core (rt : KNCRuntime) (core_id : Nat) (core : knc_core_state_t)
    (hcore : rt.core_states[core_id]? = some core) :
    execute_core_condition rt core_id = (rt.running && !rt.should_halt && !core.is_halted) := by
  unfold execute_core_condition
  rw [hcore]

theorem execute_core_body_ret (rt : KNCRuntime) (core_id : Nat) (core : knc_core_state_t)
    (hcore : rt.core_states[core_id]? = some core)
    (hrip : core.registers.rip < rt.memory_size)
    (hret : rt.memory core.registers.rip = 195) :
    execute_core_body rt core_id
      = (false, { rt with core_states := rt.core_states.set core_id (core_after_ret core) }) := by
  unfold execute_core_body
  rw [hcore]
  simp only
  rw [if_neg (by omega)]
  have hx : execute_instruction rt core core.registers.rip
      = (knc_error_t.KNC_SUCCESS, { core with is_halted := true }, rt) := by
    unfold execute_instruction
    rw [hret]
    simp
  rw [hx]
  simp [core_after_ret]

theorem getElem?_set_self_of_some {α : Type} (l : List α) (i : Nat) (a b : α)
    (h : l[i]? = some a) : (l.set i b)[i]? = some b := by
  have hi : i < l.length := by
    rcases Nat.lt_or_ge i l.length with hi | hi
    · exact hi
    · rw [List.getElem?_eq_none hi] at h
      cases h
  rw [List.getElem?_set_self (by simpa using hi)]

/-- C14: for a core whose worker loop is running (`running`, no global halt,
core not halted) with `rip < memory_size` and `memory[rip] = 0xC3`, one pass of
the `execute_core` loop does not return early and leaves the state equal to
the old one except for that core, which is halted, has `cycles_executed`
increased by exactly 1 and `rip` advanced by one; the loop condition is then
false, so the worker terminates (for every bound of at least two loop tests)
in exactly that state: no other core, and not the global halt flag, is
touched. -/
theorem C14_ret_halts_core (rt : KNCRuntime) (core_id : Nat) (core : knc_core_state_t)
    (hcore : rt.core_states[core_id]? = some core)
    (hrun : rt.running = true) (hhalt : rt.should_halt = false)
    (hnot : core.is_halted = false)
    (hrip : core.registers.rip < rt.memory_size)
    (hret : rt.memory core.registers.rip = 195) :
    execute_core_condition rt core_id = true
    ∧ execute_core_body rt core_id
        = (false, { rt with core_states := rt.core_states.set core_id (core_after_ret core) })
    ∧ (core_after_ret core).is_halted = true
    ∧ (core_after_ret core).cycles_executed = core.cycles_executed + 1
    ∧ execute_core_condition
        { rt with core_states := rt.core_states.set core_id (core_after_ret core) } core_id = false
    ∧ (∀ fuel, execute_core (fuel + 2) rt core_id
        = some { rt with core_states := rt.core_states.set core_id (core_after_ret core) })
    ∧ (∀ j, j ≠ core_id → (rt.core_states.set core_id (core_after_ret core))[j]? = rt.core_states[j]?) := by
  have hc : execute_core_condition rt core_id = true := by
    rw [execute_core_condition_of_core rt core_id core hcore, hrun, hhalt, hnot]
    rfl
  have hb := execute_core_body_ret rt core_id core hcore hrip hret
  have hc2 : execute_core_condition
      { rt with core_states := rt.core_states.set core_id (core_after_ret core) } core_id = false := by
    rw [execute_core_condition_of_core _ core_id (core_after_ret core)
      (getElem?_set_self_of_some _ _ _ _ hcore)]
    simp [core_after_ret]
  refine ⟨hc, hb, rfl, rfl, hc2, ?_, ?_⟩
  · intro fuel
    show (if execute_core_condition rt core_id = true then _ else _) = _
    rw [if_pos hc]
    simp only [hb]
    show (if execute_core_condition _ core_id = true then _ else _) = _
    rw [if_neg (by rw [hc2]; simp)]
  · intro j hj
    rw [List.getElem?_set_ne (Ne.symm hj)]

/-- C14 (witness): on the 2-core runtime loaded with the one-byte program
`0xC3`, the worker of core 0 followed by the worker of core 1 leaves both
cores halted with `cycles_executed = 1`. -/
theorem C14_ret_halts_core_witness :
    (∀ fuel, execute_core (fuel + 2) ret_runtime 0
        = some { ret_runtime with
            core_states := ret_runtime.core_states.set 0 (core_after_ret ret_core) })
    ∧ ((execute_core 2 ret_runtime 0).bind (fun rt => execute_core 2 rt 1)).map
        (fun rt => rt.core_states.map (fun core => (core.is_halted, core.cycles_executed)))
        = some [(true, 1), (true, 1)] :=
  ⟨(C14_ret_halts_core ret_runtime 0 ret_core (by decide) (by decide) (by decide) (by decide)
      (by decide) (by decide)).2.2.2.2.2.1, by decide⟩

end

/-! ## Exit system call program (C15) -/

section
open KNCRuntime

theorem exit_program_no_syscall (a : Nat) (ha : a ≠ 7) : exit_program.getD a 0 ≠ 15 := by
  rcases Nat.lt_or_ge a 9 with h | h
  · interval_cases a <;> simp [exit_program] at ha ⊢
  · rw [List.getD_eq_default _ _ (by simpa [exit_program] using h)]
    decide

theorem exit_program_no_nop_ret (a : Nat) :
    exit_program.getD a 0 ≠ 144 ∧ exit_program.getD a 0 ≠ 195 := by
  rcases Nat.lt_or_ge a 9 with h | h
  · interval_cases a <;> simp [exit_program]
  · rw [List.getD_eq_default _ _ (by simpa [exit_program] using h)]
    decide

theorem core_set_gpr_zero (core : knc_core_state_t)
    (hg : core.registers.gpr = List.replicate 16 0) :
    ({ core with registers := { core.registers with gpr := core.registers.gpr.set 0 0 } } : knc_core_state_t)
      = core := by
  rcases core with ⟨⟨zmm, k, gpr, rip, rflags⟩, cid, tid, h, c⟩
  simp only at hg
  subst hg
  rfl

/-- With all general-purpose registers zero the instruction at any address of
the `exit_program` image has no effect: the `0F 05` at address 7 is dispatched
as system call 0 (read) on descriptor 0, which stores 0 in `gpr[0]`. -/
theorem execute_instruction_exit_program (rt : KNCRuntime) (core : knc_core_state_t)
    (hmem : ∀ a, rt.memory a = exit_program.getD a 0)
    (hg : core.registers.gpr = List.replicate 16 0) (a : Nat) :
    execute_instruction rt core a = (knc_error_t.KNC_SUCCESS, core, rt) := by
  unfold execute_instruction
  by_cases h7 : a = 7
  · subst h7
    rw [if_pos (by rw [hmem, hmem]; decide)]
    have h0 : core.registers.gpr.getD 0 0 % 4294967296 = 0 := by rw [hg]; rfl
    rw [h0]
    unfold handle_system_call
    rw [if_neg (by decide), if_neg (by decide), if_pos rfl]
    unfold syscall_read
    have h1 : core.registers.gpr.getD 1 0 = 0 := by rw [hg]; rfl
    simp only [h1, if_true]
    rw [core_set_gpr_zero core hg]
  · rw [if_neg (by
      rw [hmem]
      intro hc
      exact exit_program_no_syscall a h7 hc.1)]
    rw [if_neg (by rw [hmem]; exact (exit_program_no_nop_ret a).1)]
    rw [if_neg (by rw [hmem]; exact (exit_program_no_nop_ret a).2)]

theorem execute_core_body_exit_program (mem_size : Nat) (rt : KNCRuntime) (core_id : Nat)
    (core : knc_core_state_t) (hinv : exit_inv mem_size rt)
    (hcore : rt.core_states[core_id]? = some core) :
    execute_core_body rt core_id =
      if core.registers.rip ≥ mem_size then
        (true, { rt with core_states := rt.core_states.set core_id { core with is_halted := true } })
      else
        (false, { rt with core_states := rt.core_states.set core_id (core_advance core) }) := by
  obtain ⟨_, _, hsize, hmem, hcores⟩ := hinv
  have hg := (hcores core (List.getElem?_mem hcore)).1
  subst hsize
  unfold execute_core_body
  rw [hcore]
  simp only
  split
  · rfl
  · rw [execute_instruction_exit_program rt core hmem hg]
    simp [core_advance]

theorem exit_inv_set (mem_size : Nat) (rt : KNCRuntime) (core_id : Nat) (core1 : knc_core_state_t)
    (hinv : exit_inv mem_size rt)
    (h1 : core1.registers.gpr = List.replicate 16 0
      ∧ core1.registers.rip ≤ mem_size
      ∧ core1.cycles_executed = core1.registers.rip
      ∧ (core1.is_halted = true → core1.registers.rip = mem_size)) :
    exit_inv mem_size { rt with core_states := rt.core_states.set core_id core1 } := by
  obtain ⟨hr, hh, hsize, hmem, hcores⟩ := hinv
  refine ⟨hr, hh, hsize, hmem, ?_⟩
  intro c hc
  rcases List.mem_or_eq_of_mem_set hc with hc | hc
  · exact hcores c hc
  · rw [hc]
    exact h1

theorem exit_inv_step (mem_size : Nat) (h64 : mem_size < 18446744073709551616)
    (rt : KNCRuntime) (core_id : Nat) (hinv : exit_inv mem_size rt) :
    exit_inv mem_size (execute_core_step rt core_id) := by
  unfold execute_core_step
  split
  · rename_i hc
    cases hcore : rt.core_states[core_id]? with
    | none =>
      unfold execute_core_condition at hc
      rw [hcore] at hc
      cases hc
    | some core =>
      rw [execute_core_body_exit_program mem_size rt core_id core hinv hcore]
      have hco := hinv.2.2.2.2 core (List.getElem?_mem hcore)
      split
      · rename_i hge
        exact exit_inv_set mem_size rt core_id _ hinv
          ⟨hco.1, hco.2.1, hco.2.2.1, fun _ => by
            have := hco.2.1
            show core.registers.rip = mem_size
            omega⟩
      · rename_i hlt
        have hmod : (core.registers.rip + 1) % 18446744073709551616 = core.registers.rip + 1 :=
          Nat.mod_eq_of_lt (by omega)
        refine exit_inv_set mem_size rt core_id (core_advance core) hinv ⟨hco.1, ?_, ?_, ?_⟩
        · show (core.registers.rip + 1) % 18446744073709551616 ≤ mem_size
          rw [hmod]; omega
        · show core.cycles_executed + 1 = (core.registers.rip + 1) % 18446744073709551616
          rw [hmod, hco.2.2.1]
        · intro hh
          have h3 := hco.2.2.2 hh
          omega
  · exact hinv

theorem exit_inv_run_schedule (mem_size : Nat) (h64 : mem_size < 18446744073709551616)
    (schedule : List Nat) (rt : KNCRuntime) (hinv : exit_inv mem_size rt) :
    exit_inv mem_size (run_schedule rt schedule) := by
  unfold run_schedule
  induction schedule generalizing rt with
  | nil => exact hinv
  | cons id rest ih => exact ih _ (exit_inv_step mem_size h64 rt id hinv)

theorem exit_runtime_eq (cores mem_size : Nat) (arch : knc_architecture_t) (hM : 9 ≤ mem_size) :
    exit_runtime cores mem_size arch =
      { (init_runtime (KNCRuntime.construct cores mem_size arch)).2 with
        memory := memcpy_to_memory (fun _ => 0) 0 exit_program 9
        core_states := (List.range cores).map (fun i =>
          { registers := { zmm := List.replicate 32 0, k := List.replicate 8 0, gpr := List.replicate 16 0, rip := 0, rflags := 0 }
            core_id := i
            tile_id := i / KNC_CORES_PER_TILE
            is_halted := false
            cycles_executed := 0 })
        running := true
        should_halt := false } := by
  unfold exit_runtime
  rw [load_program_success _ _ _ rfl (by simpa [init_runtime, KNCRuntime.construct] using hM)]
  have hmap : ∀ l : List knc_core_state_t, l.length = cores →
      l.mapIdx (fun i core =>
        if i < cores then
          ({ core with registers := { core.registers with rip := 0 }, is_halted := false } : knc_core_state_t)
        else core)
      = l.map (fun core =>
          { core with registers := { core.registers with rip := 0 }, is_halted := false }) := by
    intro l hl
    apply mapIdx_eq_map_of_lt
    intro i a hi
    rw [if_pos (by omega)]
  simp only [run_begin, init_runtime, KNCRuntime.construct]
  simp only [Bool.not_true, Bool.false_eq_true, if_false]
  rw [hmap _ (by simp)]
  simp only [List.map_map]
  rfl

theorem exit_runtime_inv (cores mem_size : Nat) (arch : knc_architecture_t) (hM : 9 ≤ mem_size) :
    exit_inv mem_size (exit_runtime cores mem_size arch) := by
  rw [exit_runtime_eq cores mem_size arch hM]
  refine ⟨rfl, rfl, rfl, ?_, ?_⟩
  · intro a
    show memcpy_to_memory (fun _ => 0) 0 exit_program 9 a = _
    unfold memcpy_to_memory
    split
    · rfl
    · rename_i h
      rw [List.getD_eq_default _ _ (by simp [exit_program]; omega)]
  · intro core hc
    simp only [List.mem_map] at hc
    obtain ⟨i, _, rfl⟩ := hc
    refine ⟨rfl, Nat.zero_le _, rfl, ?_⟩
    intro h
    cases h

/-- From a state of the `exit_program` run in which the core is not halted
and `k` bytes short of the end of memory, the worker needs `k + 1` loop tests:
it walks to the end of memory and is halted there by the bounds check. -/
theorem execute_core_exit_program (mem_size : Nat) (h64 : mem_size < 18446744073709551616)
    (core_id : Nat) (k : Nat) :
    ∀ (rt : KNCRuntime) (core : knc_core_state_t), exit_inv mem_size rt →
      rt.core_states[core_id]? = some core → core.is_halted = false →
      core.registers.rip + k = mem_size →
      ∀ fuel, ∃ (rt1 : KNCRuntime) (core1 : knc_core_state_t),
        execute_core (k + 1 + fuel) rt core_id = some rt1 ∧ exit_inv mem_size rt1
        ∧ rt1.core_states[core_id]? = some core1 ∧ core1.is_halted = true := by
  induction k with
  | zero =>
    intro rt core hinv hcore hnot hk fuel
    have hc : execute_core_condition rt core_id = true := by
      rw [execute_core_condition_of_core rt core_id core hcore, hinv.1, hinv.2.1, hnot]
      rfl
    have hb := execute_core_body_exit_program mem_size rt core_id core hinv hcore
    rw [if_pos (by omega)] at hb
    have hco := hinv.2.2.2.2 core (List.getElem?_mem hcore)
    refine ⟨{ rt with core_states := rt.core_states.set core_id { core with is_halted := true } },
      { core with is_halted := true }, ?_, ?_, getElem?_set_self_of_some _ _ _ _ hcore, rfl⟩
    · rw [show 0 + 1 + fuel = fuel + 1 by omega]
      show (if execute_core_condition rt core_id = true then _ else _) = _
      rw [if_pos hc]
      simp only [hb, if_true]
    · exact exit_inv_set mem_size rt core_id _ hinv
        ⟨hco.1, hco.2.1, hco.2.2.1, fun _ => by
          show core.registers.rip = mem_size
          omega⟩
  | succ k ih =>
    intro rt core hinv hcore hnot hk fuel
    have hc : execute_core_condition rt core_id = true := by
      rw [execute_core_condition_of_core rt core_id core hcore, hinv.1, hinv.2.1, hnot]
      rfl
    have hb := execute_core_body_exit_program mem_size rt core_id core hinv hcore
    rw [if_neg (by omega)] at hb
    have hstep : execute_core_step rt core_id = (execute_core_body rt core_id).2 := by
      unfold execute_core_step
      rw [if_pos hc]
    have hinv1 := exit_inv_step mem_size h64 rt core_id hinv
    rw [hstep, hb] at hinv1
    have hmod : (core.registers.rip + 1) % 18446744073709551616 = core.registers.rip + 1 :=
      Nat.mod_eq_of_lt (by omega)
    have hk1 : (core_advance core).registers.rip + k = mem_size := by
      show (core.registers.rip + 1) % 18446744073709551616 + k = mem_size
      rw [hmod]; omega
    obtain ⟨rt1, core1, hrun, hinvr, hcore1, hhalt1⟩ :=
      ih { rt with core_states := rt.core_states.set core_id (core_advance core) } (core_advance core)
        hinv1 (getElem?_set_self_of_some _ _ _ _ hcore) hnot hk1 fuel
    refine ⟨rt1, core1, ?_, hinvr, hcore1, hhalt1⟩
    rw [show k + 1 + 1 + fuel = (k + 1 + fuel) + 1 by omega]
    show (if execute_core_condition rt core_id = true then _ else _) = _
    rw [if_pos hc]
    simp only [hb]
    exact hrun

/-- C15 (counterexample): on the 2-core runtime of 16 bytes loaded with the
nine bytes, the worker of core 0 run to completion never reaches the exit
system call: it ends halted by the bounds check at `rip = 16` with `gpr[0] = 0`
and the global halt flag clear, core 1 is not stopped, and no interleaving of
worker steps sets the global halt flag. -/
theorem C15_counterexample :
    (execute_core 17 (exit_runtime 2 16 knc_architecture_t.ARCH_KNC) 0).map
        (fun rt => (rt.should_halt, rt.core_states.map (fun core =>
          (core.is_halted, core.registers.rip, core.registers.gpr.getD 0 0))))
      = some (false, [(true, 16, 0), (false, 0, 0)])
    ∧ ∀ schedule : List Nat,
        (run_schedule (exit_runtime 2 16 knc_architecture_t.ARCH_KNC) schedule).should_halt = false :=
  ⟨by decide, fun schedule =>
    (exit_inv_run_schedule 16 (by decide) schedule _
      (exit_runtime_inv 2 16 knc_architecture_t.ARCH_KNC (by decide))).2.1⟩

/-- C15 (amended): after `load_program` of the nine bytes `48 C7 C0 3C 00 00 00
0F 05` into a freshly initialized runtime (`9 ≤ memory_size < 2^64`), under
every interleaving of worker steps the global halt flag stays clear, the
coordinator condition stays true, every general-purpose register stays zero
and a halted core stands at `rip = memory_size`; and the worker of every core
terminates within `memory_size + 1` loop tests, halted by the bounds check at
`rip = memory_size` after `memory_size` cycles, with the global halt flag
clear. -/
theorem C15_exit_program_never_exits (cores mem_size : Nat) (arch : knc_architecture_t)
    (hM : 9 ≤ mem_size) (h64 : mem_size < 18446744073709551616) :
    (∀ schedule : List Nat,
      (run_schedule (exit_runtime cores mem_size arch) schedule).should_halt = false
      ∧ run_loop_condition (run_schedule (exit_runtime cores mem_size arch) schedule) = true
      ∧ ∀ core ∈ (run_schedule (exit_runtime cores mem_size arch) schedule).core_states,
          core.registers.gpr = List.replicate 16 0
          ∧ (core.is_halted = true → core.registers.rip = mem_size))
    ∧ (∀ core_id, core_id < cores → ∀ fuel, ∃ (rt1 : KNCRuntime) (core1 : knc_core_state_t),
        execute_core (mem_size + 1 + fuel) (exit_runtime cores mem_size arch) core_id = some rt1
        ∧ rt1.should_halt = false
        ∧ rt1.core_states[core_id]? = some core1
        ∧ core1.is_halted = true
        ∧ core1.registers.rip = mem_size
        ∧ core1.cycles_executed = mem_size
        ∧ core1.registers.gpr = List.replicate 16 0) := by
  have hinv0 := exit_runtime_inv cores mem_size arch hM
  constructor
  · intro schedule
    have hinv := exit_inv_run_schedule mem_size h64 schedule _ hinv0
    refine ⟨hinv.2.1, ?_, fun core hc => ⟨(hinv.2.2.2.2 core hc).1, (hinv.2.2.2.2 core hc).2.2.2⟩⟩
    unfold run_loop_condition
    rw [hinv.1, hinv.2.1]
    rfl
  · intro core_id hid fuel
    have hcore : (exit_runtime cores mem_size arch).core_states[core_id]?
        = some { registers := { zmm := List.replicate 32 0, k := List.replicate 8 0, gpr := List.replicate 16 0, rip := 0, rflags := 0 }
                 core_id := core_id
                 tile_id := core_id / KNC_CORES_PER_TILE
                 is_halted := false
                 cycles_executed := 0 } := by
      rw [exit_runtime_eq cores mem_size arch hM]
      simp [hid]
    obtain ⟨rt1, core1, hrun, hinv1, hcore1, hhalt1⟩ :=
      execute_core_exit_program mem_size h64 core_id mem_size _ _ hinv0 hcore rfl
        (Nat.zero_add _) fuel
    have hco := hinv1.2.2.2.2 core1 (List.getElem?_mem hcore1)
    have hrip := hco.2.2.2 hhalt1
    exact ⟨rt1, core1, hrun, hinv1.2.1, hcore1, hhalt1, hrip, by rw [hco.2.2.1, hrip], hco.1⟩

/-- C15 (witness): the amended statement at the 2-core runtime of 16 bytes. -/
theorem C15_exit_program_never_exits_witness :
    (9 ≤ 16 ∧ 16 < 18446744073709551616)
    ∧ (∀ schedule : List Nat,
        (run_schedule (exit_runtime 2 16 knc_architecture_t.ARCH_KNC) schedule).should_halt = false)
    ∧ (∃ (rt1 : KNCRuntime) (core1 : knc_core_state_t),
        execute_core 17 (exit_runtime 2 16 knc_architecture_t.ARCH_KNC) 1 = some rt1
        ∧ rt1.should_halt = false
        ∧ rt1.core_states[1]? = some core1
        ∧ core1.is_halted = true
        ∧ core1.registers.rip = 16) :=
  have h := C15_exit_program_never_exits 2 16 knc_architecture_t.ARCH_KNC (by decide) (by decide)
  ⟨⟨by decide, by decide⟩, fun schedule => (h.1 schedule).1,
    (h.2 1 (by decide) 0).imp fun _ h1 => h1.imp fun _ h2 =>
      ⟨h2.1, h2.2.1, h2.2.2.1, h2.2.2.2.1, h2.2.2.2.2.1⟩⟩

end

/-! ## Unsupported system calls (C16) -/

section
open KNCRuntime

theorem execute_instruction_unsupported (rt : KNCRuntime) (core : knc_core_state_t) (a : Nat)
    (h0 : rt.memory a = 15) (h1 : rt.memory (a + 1) = 5)
    (hsys : core.registers.gpr.getD 0 0 % 4294967296 ≠ 60
      ∧ core.registers.gpr.getD 0 0 % 4294967296 ≠ 1
      ∧ core.registers.gpr.getD 0 0 % 4294967296 ≠ 0) :
    execute_instruction rt core a = (knc_error_t.KNC_ERROR_SYSTEM_CALL, core, rt) := by
  unfold execute_instruction
  rw [if_pos ⟨h0, h1⟩]
  unfold handle_system_call
  rw [if_neg hsys.1, if_neg hsys.2.1, if_neg hsys.2.2]

/-- C16 (counterexample): with `gpr[0] = 2` the pass of the worker loop over
`0F 05` returns from the worker with the core halted, `gpr[0]` still 2 (not
2^64 - 1), and `rip` and `cycles_executed` not advanced. -/
theorem C16_counterexample :
    (execute_core_body syscall_runtime 0).1 = true
    ∧ (execute_core_body syscall_runtime 0).2.core_states.map (fun core =>
        (core.is_halted, core.registers.gpr.getD 0 0, core.registers.rip, core.cycles_executed))
      = [(true, 2, 0, 0), (false, 0, 0, 0)] := by
  decide

/-- C16 (amended): for every value of `gpr[0]` whose low 32 bits (the cast to
the system call enumeration) are other than 60, 1 and 0, executing the
instruction `0F 05` at `rip < memory_size` on a running core makes
`execute_instruction` return `KNC_ERROR_SYSTEM_CALL`; the worker then sets
`is_halted` on the core and returns (for every bound of at least one loop
test), without advancing `rip` or `cycles_executed` and without touching any
other core, `running` or the global halt flag: the core does not continue with
the next instruction. -/
theorem C16_unsupported_syscall_halts_core (rt : KNCRuntime) (core_id : Nat)
    (core : knc_core_state_t)
    (hcore : rt.core_states[core_id]? = some core)
    (hrun : rt.running = true) (hhalt : rt.should_halt = false)
    (hnot : core.is_halted = false)
    (hrip : core.registers.rip < rt.memory_size)
    (h0 : rt.memory core.registers.rip = 15) (h1 : rt.memory (core.registers.rip + 1) = 5)
    (hsys : core.registers.gpr.getD 0 0 % 4294967296 ≠ 60
      ∧ core.registers.gpr.getD 0 0 % 4294967296 ≠ 1
      ∧ core.registers.gpr.getD 0 0 % 4294967296 ≠ 0) :
    (execute_instruction rt core core.registers.rip).1 = knc_error_t.KNC_ERROR_SYSTEM_CALL
    ∧ ∃ (rt1 : KNCRuntime) (core1 : knc_core_state_t),
        execute_core_body rt core_id = (true, rt1)
        ∧ (∀ fuel, execute_core (fuel + 1) rt core_id = some rt1)
        ∧ rt1.core_states[core_id]? = some core1
        ∧ core1.is_halted = true
        ∧ core1.registers.rip = core.registers.rip
        ∧ core1.cycles_executed = core.cycles_executed
        ∧ rt1.should_halt = false ∧ rt1.running = true
        ∧ execute_core_condition rt1 core_id = false
        ∧ ∀ j, j ≠ core_id → rt1.core_states[j]? = rt.core_states[j]? := by
  have hx := execute_instruction_unsupported rt core core.registers.rip h0 h1 hsys
  have hc : execute_core_condition rt core_id = true := by
    rw [execute_core_condition_of_core rt core_id core hcore, hrun, hhalt, hnot]
    rfl
  have hb : execute_core_body rt core_id
      = (true, { rt with core_states := rt.core_states.set core_id { core with is_halted := true } }) := by
    unfold execute_core_body
    rw [hcore]
    simp only
    rw [if_neg (by omega), hx]
    simp
  have hset := getElem?_set_self_of_some rt.core_states core_id core { core with is_halted := true } hcore
  refine ⟨by rw [hx], _, { core with is_halted := true }, hb, ?_, hset, rfl, rfl, rfl, hhalt, hrun, ?_, ?_⟩
  · intro fuel
    show (if execute_core_condition rt core_id = true then _ else _) = _
    rw [if_pos hc]
    simp only [hb, if_true]
  · rw [execute_core_condition_of_core _ core_id _ hset]
    simp
  · intro j hj
    show (rt.core_states.set core_id _)[j]? = _
    rw [List.getElem?_set_ne (Ne.symm hj)]

/-- C16 (witness): the amended statement at `syscall_runtime`, core 0. -/
theorem C16_unsupported_syscall_halts_core_witness :
    syscall_runtime.core_states[0]? = some syscall_core
    ∧ (execute_instruction syscall_runtime syscall_core syscall_core.registers.rip).1
        = knc_error_t.KNC_ERROR_SYSTEM_CALL
    ∧ ∃ (rt1 : KNCRuntime) (core1 : knc_core_state_t),
        execute_core_body syscall_runtime 0 = (true, rt1)
        ∧ rt1.core_states[0]? = some core1 ∧ core1.is_halted = true :=
  have h := C16_unsupported_syscall_halts_core syscall_runtime 0 syscall_core (by decide)
    (by decide) (by decide) (by decide) (by decide) (by decide) (by decide) (by decide)
  ⟨by decide, h.1, h.2.imp fun _ h1 => h1.imp fun _ h2 => ⟨h2.1, h2.2.2.1, h2.2.2.2.1⟩⟩

end

/-! ## Coordinator loop of run() (C17) -/

section
open KNCRuntime

theorem execute_core_step_no_syscall (rt : KNCRuntime) (core_id : Nat)
    (hmem : ∀ a, ¬ (rt.memory a = 15 ∧ rt.memory (a + 1) = 5)) :
    ∃ cs, execute_core_step rt core_id = { rt with core_states := cs } := by
  unfold execute_core_step
  split
  · unfold execute_core_body
    cases hcore : rt.core_states[core_id]? with
    | none => exact ⟨rt.core_states, rfl⟩
    | some core =>
      simp only
      have hx : execute_instruction rt core core.registers.rip
          = (knc_error_t.KNC_SUCCESS,
              (if rt.memory core.registers.rip = 144 then core
               else if rt.memory core.registers.rip = 195 then { core with is_halted := true }
               else core), rt) := by
        unfold execute_instruction
        rw [if_neg (hmem _)]
        split
        · rfl
        · split <;> rfl
      split
      · exact ⟨_, rfl⟩
      · rw [hx]
        simp only [ne_eq, not_true_eq_false, if_false]
        exact ⟨_, rfl⟩
  · exact ⟨rt.core_states, rfl⟩

theorem run_schedule_no_syscall (schedule : List Nat) :
    ∀ rt : KNCRuntime, (∀ a, ¬ (rt.memory a = 15 ∧ rt.memory (a + 1) = 5)) →
      ∃ cs, run_schedule rt schedule = { rt with core_states := cs } := by
  unfold run_schedule
  induction schedule with
  | nil => exact fun rt _ => ⟨rt.core_states, rfl⟩
  | cons id rest ih =>
    intro rt hmem
    obtain ⟨cs, hcs⟩ := execute_core_step_no_syscall rt id hmem
    obtain ⟨cs1, hcs1⟩ := ih (execute_core_step rt id) (by rw [hcs]; exact hmem)
    refine ⟨cs1, ?_⟩
    rw [List.foldl_cons, hcs1, hcs]

theorem ret_runtime_memory (a : Nat) : ret_runtime.memory a ≠ 15 := by
  show memcpy_to_memory (fun _ => 0) 0 [195] 1 a ≠ 15
  unfold memcpy_to_memory
  split
  · rename_i h
    have ha : a = 0 := by omega
    subst ha
    decide
  · show (0 : Nat) ≠ 15
    decide

/-- C17 (counterexample): on the 2-core runtime loaded with the one-byte
program `0xC3`, once both workers have finished every core is halted and the
condition of the coordinator loop of `run()` is still true. -/
theorem C17_counterexample :
    ((execute_core 2 ret_runtime 0).bind (fun rt => execute_core 2 rt 1)).map
        (fun rt => (rt.core_states.map (fun core => core.is_halted), run_loop_condition rt))
      = some ([true, true], true) := by
  decide

/-- C17 (amended): the condition of the coordinator loop of `run()` is false
exactly when `running` has been cleared or the global halt flag is set; the
halted flags of the cores do not enter it.  When memory holds no system call
instruction (`0F 05`) and the loop condition holds, it still holds after every
interleaving of worker steps, whether or not the cores have halted. -/
theorem C17_run_loop_condition (rt : KNCRuntime) (schedule : List Nat)
    (hcond : run_loop_condition rt = true)
    (hmem : ∀ a, ¬ (rt.memory a = 15 ∧ rt.memory (a + 1) = 5)) :
    (run_loop_condition rt = false ↔ rt.running = false ∨ rt.should_halt = true)
    ∧ (∀ cs, run_loop_condition { rt with core_states := cs } = run_loop_condition rt)
    ∧ run_loop_condition (run_schedule rt schedule) = true := by
  refine ⟨?_, fun _ => rfl, ?_⟩
  · unfold run_loop_condition
    cases rt.running <;> cases rt.should_halt <;> simp
  · obtain ⟨cs, hcs⟩ := run_schedule_no_syscall schedule rt hmem
    rw [hcs]
    exact hcond

/-- C17 (witness): on the runtime loaded with `0xC3` the coordinator condition
holds after the schedule 0, 1, 0, 1, in which both cores have halted. -/
theorem C17_run_loop_condition_witness :
    run_loop_condition ret_runtime = true
    ∧ (run_schedule ret_runtime [0, 1, 0, 1]).core_states.map (fun core => core.is_halted)
        = [true, true]
    ∧ run_loop_condition (run_schedule ret_runtime [0, 1, 0, 1]) = true :=
  ⟨by decide, by decide,
    (C17_run_loop_condition ret_runtime [0, 1, 0, 1] (by decide)
      (fun a h => ret_runtime_memory a h.1)).2.2⟩

end

/-! ## Translation cache (C18, C19) -/

section
open KNCInstructionTranslator

theorem translate_instruction_hit (t : KNCInstructionTranslator) (address : Nat)
    (instruction_bytes : List Nat) (decoded_length indeterminate_length : Nat)
    (entry : knc_translation_cache_entry_t)
    (he : t.translation_cache[get_cache_index address]? = some entry)
    (hhit : entry.is_valid = true ∧ entry.original_address = address) :
    translate_instruction t address instruction_bytes decoded_length indeterminate_length
      = (entry.translated, { t with
          instructions_translated := t.instructions_translated + 1
          cache_hits := t.cache_hits + 1
          translation_cache := t.translation_cache.set (get_cache_index address)
            { entry with access_count := (entry.access_count + 1) % 4294967296 } }) := by
  unfold translate_instruction lookup_in_cache
  simp only [he]
  rw [if_pos hhit]

theorem translate_instruction_miss (t : KNCInstructionTranslator) (address : Nat)
    (instruction_bytes : List Nat) (decoded_length indeterminate_length : Nat)
    (entry : knc_translation_cache_entry_t)
    (he : t.translation_cache[get_cache_index address]? = some entry)
    (hmiss : ¬ (entry.is_valid = true ∧ entry.original_address = address)) :
    translate_instruction t address instruction_bytes decoded_length indeterminate_length
      = (passthrough_record instruction_bytes decoded_length, { t with
          instructions_translated := t.instructions_translated + 1
          cache_misses := t.cache_misses + 1
          translation_cache := t.translation_cache.set (get_cache_index address)
            { original_address := address
              original_bytes := instruction_bytes.take (min 16 decoded_length)
                ++ entry.original_bytes.drop (min 16 decoded_length)
              translated := passthrough_record instruction_bytes decoded_length
              access_count := 1
              is_valid := true } }) := by
  unfold translate_instruction lookup_in_cache
  simp only [he]
  rw [if_neg hmiss]
  simp [xed_decode, xed_decoded_inst_get_iclass, is_knc_vector_instruction,
    is_knc_specific_instruction, XED_ERROR_NONE, XED_ICLASS_INVALID, XED_ICLASS_VPADDD,
    XED_ICLASS_VPSUBD, XED_ICLASS_VPMULUD, XED_ICLASS_VPERMD, XED_ICLASS_VPBROADCASTD,
    XED_ICLASS_VGATHERDPS, XED_ICLASS_VSCATTERDPS, XED_ICLASS_VCMPPS, XED_ICLASS_VMAXPS,
    XED_ICLASS_VMINPS, add_to_cache, he, passthrough_record]

theorem cache_entry_of_length (t : KNCInstructionTranslator) (address : Nat)
    (hc : t.translation_cache.length = CACHE_SIZE) :
    ∃ entry, t.translation_cache[get_cache_index address]? = some entry := by
  have hlt : get_cache_index address < t.translation_cache.length := by
    rw [hc]
    exact Nat.mod_lt _ (by decide)
  exact ⟨_, List.getElem?_eq_getElem hlt⟩

theorem empty_cache_lookup (t : KNCInstructionTranslator)
    (h0 : t.translation_cache = List.replicate CACHE_SIZE empty_cache_entry) (address : Nat) :
    t.translation_cache[get_cache_index address]? = some empty_cache_entry := by
  have hlt : get_cache_index address < CACHE_SIZE := Nat.mod_lt _ (by decide)
  rw [h0, List.getElem?_replicate, if_pos hlt]

/-- C18: for every translator state with the cache of `CACHE_SIZE` entries the
constructor allocates, every PC and all instruction bytes `b`, two consecutive
calls `translate_instruction(pc, b)` return equal records (whatever lengths
the decoder reports), and the second call increases `cache_hits` by exactly 1
and leaves `cache_misses` unchanged. -/
theorem C18_translate_twice (t : KNCInstructionTranslator) (pc : Nat) (b : List Nat)
    (l1 u1 l2 u2 : Nat) (hc : t.translation_cache.length = CACHE_SIZE) :
    (translate_instruction (translate_instruction t pc b l1 u1).2 pc b l2 u2).1
      = (translate_instruction t pc b l1 u1).1
    ∧ (translate_instruction (translate_instruction t pc b l1 u1).2 pc b l2 u2).2.cache_hits
      = (translate_instruction t pc b l1 u1).2.cache_hits + 1
    ∧ (translate_instruction (translate_instruction t pc b l1 u1).2 pc b l2 u2).2.cache_misses
      = (translate_instruction t pc b l1 u1).2.cache_misses := by
  obtain ⟨entry, he⟩ := cache_entry_of_length t pc hc
  have hlt : get_cache_index pc < t.translation_cache.length := by
    rw [hc]
    exact Nat.mod_lt _ (by decide)
  by_cases hhit : entry.is_valid = true ∧ entry.original_address = pc
  · rw [translate_instruction_hit t pc b l1 u1 entry he hhit]
    rw [translate_instruction_hit _ pc b l2 u2
      { entry with access_count := (entry.access_count + 1) % 4294967296 }
      (by simp [List.getElem?_set_self hlt]) hhit]
    exact ⟨rfl, rfl, rfl⟩
  · rw [translate_instruction_miss t pc b l1 u1 entry he hhit]
    rw [translate_instruction_hit _ pc b l2 u2
      { original_address := pc
        original_bytes := b.take (min 16 l1) ++ entry.original_bytes.drop (min 16 l1)
        translated := passthrough_record b l1
        access_count := 1
        is_valid := true }
      (by simp [List.getElem?_set_self hlt]) ⟨rfl, rfl⟩]
    exact ⟨rfl, rfl, rfl⟩

/-- C18 (witness): PC `0x1000` translated twice on the freshly initialized
translator; the first call is a miss, the second a hit. -/
theorem C18_translate_twice_witness :
    (init_translator KNCInstructionTranslator.construct).2.translation_cache.length = CACHE_SIZE
    ∧ (translate_instruction (init_translator KNCInstructionTranslator.construct).2 4096 [144] 1 0).2.cache_hits = 0
    ∧ (translate_instruction
        (translate_instruction (init_translator KNCInstructionTranslator.construct).2 4096 [144] 1 0).2
        4096 [144] 1 0).1
      = (translate_instruction (init_translator KNCInstructionTranslator.construct).2 4096 [144] 1 0).1
    ∧ (translate_instruction
        (translate_instruction (init_translator KNCInstructionTranslator.construct).2 4096 [144] 1 0).2
        4096 [144] 1 0).2.cache_hits = 0 + 1 :=
  have hc : (init_translator KNCInstructionTranslator.construct).2.translation_cache.length = CACHE_SIZE :=
    List.length_replicate _ _
  have h0 : (translate_instruction (init_translator KNCInstructionTranslator.construct).2 4096 [144] 1 0).2.cache_hits = 0 := by
    rw [translate_instruction_miss _ 4096 [144] 1 0 empty_cache_entry
      (empty_cache_lookup _ rfl 4096) (by decide)]
    rfl
  have h := C18_translate_twice (init_translator KNCInstructionTranslator.construct).2 4096 [144] 1 0 1 0 hc
  ⟨hc, h0, h.1, by rw [h.2.1, h0]⟩

theorem cache_inv_mono (S T : translate_call → Prop) (t : KNCInstructionTranslator)
    (hST : ∀ c, S c → T c) (h : cache_inv S t) : cache_inv T t := by
  refine ⟨h.1, fun index entry he hv => ?_⟩
  obtain ⟨c, hc, h1, h2⟩ := h.2 index entry he hv
  exact ⟨c, hST c hc, h1, h2⟩

theorem cache_inv_step (S : translate_call → Prop) (t : KNCInstructionTranslator)
    (c : translate_call) (h : cache_inv S t) :
    cache_inv (fun x => S x ∨ x = c)
      (translate_instruction t c.address c.instruction_bytes c.decoded_length
        c.indeterminate_length).2 := by
  obtain ⟨entry, he⟩ := cache_entry_of_length t c.address h.1
  by_cases hhit : entry.is_valid = true ∧ entry.original_address = c.address
  · rw [translate_instruction_hit t _ _ _ _ entry he hhit]
    refine ⟨by simpa using h.1, fun index e1 he1 hv => ?_⟩
    simp only at he1
    by_cases hi : get_cache_index c.address = index
    · subst hi
      rcases List.mem_or_eq_of_mem_set (List.getElem?_mem he1) with hm | hm
      · obtain ⟨j, hj⟩ := List.getElem?_of_mem hm
        obtain ⟨c1, hc1, h1, h2⟩ := h.2 j e1 hj hv
        exact ⟨c1, Or.inl hc1, h1, h2⟩
      · obtain ⟨c1, hc1, h1, h2⟩ := h.2 _ entry he hhit.1
        rw [hm]
        exact ⟨c1, Or.inl hc1, h1, h2⟩
    · rw [List.getElem?_set_ne hi] at he1
      obtain ⟨c1, hc1, h1, h2⟩ := h.2 index e1 he1 hv
      exact ⟨c1, Or.inl hc1, h1, h2⟩
  · rw [translate_instruction_miss t _ _ _ _ entry he hhit]
    refine ⟨by simpa using h.1, fun index e1 he1 hv => ?_⟩
    simp only at he1
    by_cases hi : get_cache_index c.address = index
    · subst hi
      rcases List.mem_or_eq_of_mem_set (List.getElem?_mem he1) with hm | hm
      · obtain ⟨j, hj⟩ := List.getElem?_of_mem hm
        obtain ⟨c1, hc1, h1, h2⟩ := h.2 j e1 hj hv
        exact ⟨c1, Or.inl hc1, h1, h2⟩
      · rw [hm]
        exact ⟨c, Or.inr rfl, rfl, rfl⟩
    · rw [List.getElem?_set_ne hi] at he1
      obtain ⟨c1, hc1, h1, h2⟩ := h.2 index e1 he1 hv
      exact ⟨c1, Or.inl hc1, h1, h2⟩

theorem cache_inv_run_calls (calls : List translate_call) :
    ∀ (S : translate_call → Prop) (t : KNCInstructionTranslator), cache_inv S t →
      cache_inv (fun x => S x ∨ x ∈ calls) (run_calls t calls) := by
  induction calls with
  | nil =>
    intro S t h
    exact cache_inv_mono S _ t (fun c hc => Or.inl hc) h
  | cons c rest ih =>
    intro S t h
    have h1 := ih _ _ (cache_inv_step S t c h)
    refine cache_inv_mono _ _ _ ?_ h1
    intro x hx
    rcases hx with (hx | hx) | hx
    · exact Or.inl hx
    · exact Or.inr (by rw [hx]; exact List.mem_cons_self _ _)
    · exact Or.inr (List.mem_cons_of_mem _ hx)

theorem cache_inv_empty (t : KNCInstructionTranslator)
    (h0 : t.translation_cache = List.replicate CACHE_SIZE empty_cache_entry) :
    cache_inv (fun _ => False) t := by
  refine ⟨by rw [h0]; exact List.length_replicate _ _, fun index entry he hv => ?_⟩
  rw [h0] at he
  have hm := List.getElem?_mem he
  rw [List.eq_of_mem_replicate hm] at hv
  cases hv

theorem translate_instruction_fresh (t : KNCInstructionTranslator)
    (h0 : t.translation_cache = List.replicate CACHE_SIZE empty_cache_entry)
    (pc : Nat) (b : List Nat) (l u : Nat) :
    (translate_instruction t pc b l u).1 = passthrough_record b l := by
  have hc : t.translation_cache.length = CACHE_SIZE := by
    rw [h0]; exact List.length_replicate _ _
  obtain ⟨entry, he⟩ := cache_entry_of_length t pc hc
  have hm := List.getElem?_mem he
  rw [h0] at hm
  have hv : entry.is_valid = false := by rw [List.eq_of_mem_replicate hm]; rfl
  rw [translate_instruction_miss t pc b l u entry he (by rw [hv]; simp)]

theorem translator_after_nop_entry :
    translator_after_nop.translation_cache[get_cache_index 4096]? = some nop_entry := by
  unfold translator_after_nop
  rw [translate_instruction_miss _ 4096 [144] 1 0 empty_cache_entry
    (empty_cache_lookup _ rfl 4096) (by decide)]
  have hlt : get_cache_index 4096
      < (init_translator KNCInstructionTranslator.construct).2.translation_cache.length := by
    rw [show (init_translator KNCInstructionTranslator.construct).2.translation_cache.length
      = CACHE_SIZE from List.length_replicate _ _]
    exact Nat.mod_lt _ (by decide)
  simp only [List.getElem?_set_self hlt]
  rfl

theorem run_calls_nop :
    run_calls (init_translator KNCInstructionTranslator.construct).2
      [{ address := 4096, instruction_bytes := [144], decoded_length := 1, indeterminate_length := 0 }]
      = translator_after_nop := rfl

/-- C19 (counterexample): after the byte `0x90` was translated at PC `0x1000`,
a call for the same PC with the byte `0xC3` is served from the cache (a hit)
and returns a record that differs from every fresh translation of `0xC3` at
that PC on an empty cache, whatever lengths the decoder reports. -/
theorem C19_counterexample :
    (translate_instruction translator_after_nop 4096 [195] 1 0).2.cache_hits
      = translator_after_nop.cache_hits + 1
    ∧ (translate_instruction translator_after_nop 4096 [195] 1 0).1 = passthrough_record [144] 1
    ∧ ∀ l u : Nat, (translate_instruction translator_after_nop 4096 [195] 1 0).1
        ≠ (translate_instruction KNCInstructionTranslator.construct 4096 [195] l u).1 := by
  rw [translate_instruction_hit translator_after_nop 4096 [195] 1 0 nop_entry
    translator_after_nop_entry ⟨rfl, rfl⟩]
  refine ⟨rfl, rfl, ?_⟩
  intro l u h
  rw [translate_instruction_fresh KNCInstructionTranslator.construct rfl] at h
  have hb : [144].take 1 = [195].take l := congrArg knc_translated_instruction_t.translated_bytes h
  cases l <;> simp at hb

/-- C19 (amended): starting from an empty cache, after any sequence of
`translate_instruction` calls, a call `translate_instruction(pc, b)` that is
served from the cache (`cache_hits` increases) returns the record that a fresh
translation on an empty cache returns for the bytes presented by an earlier
call for the same PC; these bytes need not be `b`. -/
theorem C19_cache_hit_returns_earlier_translation (t0 : KNCInstructionTranslator)
    (calls : List translate_call) (pc : Nat) (b : List Nat) (l u : Nat)
    (h0 : t0.translation_cache = List.replicate CACHE_SIZE empty_cache_entry)
    (hhit : (translate_instruction (run_calls t0 calls) pc b l u).2.cache_hits
      = (run_calls t0 calls).cache_hits + 1) :
    ∃ c ∈ calls, c.address = pc
      ∧ (translate_instruction (run_calls t0 calls) pc b l u).1
        = (translate_instruction KNCInstructionTranslator.construct pc c.instruction_bytes
            c.decoded_length c.indeterminate_length).1 := by
  have hinv := cache_inv_run_calls calls _ t0 (cache_inv_empty t0 h0)
  obtain ⟨entry, he⟩ := cache_entry_of_length (run_calls t0 calls) pc hinv.1
  by_cases hv : entry.is_valid = true ∧ entry.original_address = pc
  · obtain ⟨c, hc, h1, h2⟩ := hinv.2 _ entry he hv.1
    rcases hc with hc | hc
    · exact absurd hc id
    · refine ⟨c, hc, by rw [h1, hv.2], ?_⟩
      rw [translate_instruction_hit _ pc b l u entry he hv, h2,
        translate_instruction_fresh KNCInstructionTranslator.construct rfl]
  · rw [translate_instruction_miss _ pc b l u entry he hv] at hhit
    simp only at hhit
    omega

/-- C19 (witness): the hit of the call for PC `0x1000` with the byte `0xC3`
returns the translation of the byte `0x90` presented by the earlier call. -/
theorem C19_cache_hit_returns_earlier_translation_witness :
    ∃ c ∈ [({ address := 4096, instruction_bytes := [144], decoded_length := 1, indeterminate_length := 0 } : translate_call)],
      c.address = 4096
      ∧ (translate_instruction
          (run_calls (init_translator KNCInstructionTranslator.construct).2
            [{ address := 4096, instruction_bytes := [144], decoded_length := 1, indeterminate_length := 0 }])
          4096 [195] 1 0).1
        = (translate_instruction KNCInstructionTranslator.construct 4096 c.instruction_bytes
            c.decoded_length c.indeterminate_length).1 :=
  C19_cache_hit_returns_earlier_translation (init_translator KNCInstructionTranslator.construct).2
    [{ address := 4096, instruction_bytes := [144], decoded_length := 1, indeterminate_length := 0 }]
    4096 [195] 1 0 rfl (by
      rw [run_calls_nop, translate_instruction_hit translator_after_nop 4096 [195] 1 0 nop_entry
        translator_after_nop_entry ⟨rfl, rfl⟩])

end

/-! ## Broadcast (C20) -/

section
open RingBusSimulator

theorem set_cache_line_frame (s : RingBusSimulator) (p : Nat × Nat) (line : dtd_cache_line_t) :
    ∃ tiles, RingBusSimulator.set_cache_line s p line = { s with dtd_tiles := tiles } := by
  unfold RingBusSimulator.set_cache_line
  split
  · exact ⟨s.dtd_tiles, rfl⟩
  · exact ⟨_, rfl⟩

theorem dtd_invalidate_cacheline_frame (s : RingBusSimulator) (address t : Nat) :
    ∃ tiles, RingBusSimulator.dtd_invalidate_cacheline s address t = { s with dtd_tiles := tiles } := by
  unfold RingBusSimulator.dtd_invalidate_cacheline
  split
  · exact ⟨s.dtd_tiles, rfl⟩
  · split
    · exact ⟨s.dtd_tiles, rfl⟩
    · rename_i p _ _ cache_line _
      simp only []
      obtain ⟨tiles, ht⟩ := set_cache_line_frame s p
        { cache_line with
          sharer_mask := cache_line.sharer_mask &&& not32 (shl_one t)
          owner_tile := t
          timestamp := s.simulation_time }
      rw [ht]
      simp only []
      split
      · exact ⟨_, rfl⟩
      · exact ⟨_, rfl⟩

theorem dtd_update_ownership_frame (s : RingBusSimulator) (address t : Nat) (m : Bool) :
    ∃ tiles, RingBusSimulator.dtd_update_ownership s address t m = { s with dtd_tiles := tiles } := by
  unfold RingBusSimulator.dtd_update_ownership
  split
  · simp only []
    split
    · exact ⟨s.dtd_tiles, rfl⟩
    · exact ⟨_, rfl⟩
  · exact set_cache_line_frame _ _ _

theorem send_message_dtd_frame (s : RingBusSimulator) (src dst : Nat) (data : List Nat) (size : Nat) :
    (∃ tiles, (RingBusSimulator.send_message_dtd s src dst data size).1 = { s with dtd_tiles := tiles })
    ∧ ((RingBusSimulator.send_message_dtd s src dst data size).2.1 = dst
      ∨ (RingBusSimulator.send_message_dtd s src dst data size).2.1
          = RingBusSimulator.get_dtd_home_node s (RingBusSimulator.extract_memory_address data size)) := by
  unfold RingBusSimulator.send_message_dtd
  simp only []
  split
  · obtain ⟨tiles, ht⟩ := dtd_invalidate_cacheline_frame s
      (RingBusSimulator.extract_memory_address data size) src
    rw [ht]
    simp only []
    split
    · exact ⟨⟨_, rfl⟩, Or.inr rfl⟩
    · exact ⟨⟨_, rfl⟩, Or.inr rfl⟩
  · exact ⟨dtd_update_ownership_frame _ _ _ _, Or.inl rfl⟩

theorem send_message_config (s : RingBusSimulator) (src dst : Nat) (data : List Nat)
    (size priority : Nat) :
    (RingBusSimulator.send_message s src dst data size priority).2.config = s.config
    ∧ (RingBusSimulator.send_message s src dst data size priority).2.dtd_enabled = s.dtd_enabled := by
  unfold RingBusSimulator.send_message
  split
  · exact ⟨rfl, rfl⟩
  · split
    · exact ⟨rfl, rfl⟩
    · split
      · exact ⟨rfl, rfl⟩
      · simp only []
        split
        · obtain ⟨⟨tiles, ht⟩, _⟩ := send_message_dtd_frame s src dst data size
          rw [ht]
          exact ⟨rfl, rfl⟩
        · exact ⟨rfl, rfl⟩

theorem send_message_accepted (s : RingBusSimulator) (src dst : Nat) (data : List Nat)
    (size priority : Nat)
    (h : (RingBusSimulator.send_message s src dst data size priority).1 = true) :
    ∃ m : ring_bus_message_t,
      outbound_of (RingBusSimulator.send_message s src dst data size priority).2 src
        = (outbound_of s src).map (fun q => q ++ [m])
      ∧ m.source_node = src ∧ m.priority = priority
      ∧ broadcast_dest s.dtd_enabled size
          (RingBusSimulator.get_dtd_home_node s (RingBusSimulator.extract_memory_address data size))
          m dst := by
  unfold RingBusSimulator.send_message at h ⊢
  split at h
  · cases h
  · rename_i hv
    rw [if_neg hv]
    cases hsrc : s.nodes[src]? with
    | none =>
      rw [hsrc] at h
      cases h
    | some source0 =>
      rw [hsrc] at h
      simp only [] at h ⊢
      split at h
      · cases h
      · rename_i hfull
        rw [if_neg hfull]
        have hlt : src < s.nodes.length := by
          rcases Nat.lt_or_ge src s.nodes.length with hl | hl
          · exact hl
          · rw [List.getElem?_eq_none hl] at hsrc
            cases hsrc
        by_cases hd : (s.dtd_enabled && RingBusSimulator.is_memory_request data size) = true
        · rw [if_pos hd]
          obtain ⟨⟨tiles, ht⟩, hdest⟩ := send_message_dtd_frame s src dst data size
          have hen : s.dtd_enabled = true ∧ size ≥ 8 := by
            simpa [RingBusSimulator.is_memory_request] using hd
          generalize RingBusSimulator.send_message_dtd s src dst data size = r at ht hdest ⊢
          refine ⟨{ source_node := src
                    dest_node := r.2.1
                    priority := priority
                    data := data.take size
                    size := size
                    timestamp := r.1.simulation_time
                    delivery_time := r.1.simulation_time
                      + (RingBusSimulator.calculate_distance r.1 src r.2.1 * r.1.config.latency_cycles) % 4294967296
                      + r.2.2 }, ?_, rfl, rfl, ?_, fun hn => absurd hen hn⟩
          · unfold outbound_of
            have hlt1 : src < r.1.nodes.length := by rw [ht]; exact hlt
            simp only [hsrc, List.getElem?_set_self hlt1, Option.map_some']
          · rcases hdest with hdest | hdest
            · exact Or.inl hdest
            · exact Or.inr ⟨hen.1, hen.2, hdest⟩
        · rw [if_neg hd]
          refine ⟨{ source_node := src
                    dest_node := dst
                    priority := priority
                    data := data.take size
                    size := size
                    timestamp := s.simulation_time
                    delivery_time := s.simulation_time
                      + (RingBusSimulator.calculate_distance s src dst * s.config.latency_cycles) % 4294967296
                      + 0 }, ?_, rfl, rfl, Or.inl rfl, fun _ => rfl⟩
          unfold outbound_of
          simp only [hsrc, List.getElem?_set_self hlt, Option.map_some']

theorem broadcast_loop_false (src : Nat) (data : List Nat) (size : Nat) (l : List Nat) :
    ∀ s : RingBusSimulator,
      (l.foldl (fun (acc : Bool × RingBusSimulator) i =>
        if i ≠ src then
          let r := RingBusSimulator.send_message acc.2 src i data size 1
          (acc.1 && r.1, r.2)
        else acc) (false, s)).1 = false := by
  induction l with
  | nil => exact fun _ => rfl
  | cons i rest ih =>
    intro s
    rw [List.foldl_cons]
    split
    · exact ih _
    · exact ih _

theorem broadcast_loop (src : Nat) (data : List Nat) (size : Nat) (enabled : Bool) (home : Nat)
    (l : List Nat) :
    ∀ (s : RingBusSimulator) (flag : Bool),
      s.dtd_enabled = enabled →
      RingBusSimulator.get_dtd_home_node s (RingBusSimulator.extract_memory_address data size) = home →
      (l.foldl (fun (acc : Bool × RingBusSimulator) i =>
        if i ≠ src then
          let r := RingBusSimulator.send_message acc.2 src i data size 1
          (acc.1 && r.1, r.2)
        else acc) (flag, s)).1 = true →
      flag = true ∧ ∃ msgs : List ring_bus_message_t,
        outbound_of (l.foldl (fun (acc : Bool × RingBusSimulator) i =>
          if i ≠ src then
            let r := RingBusSimulator.send_message acc.2 src i data size 1
            (acc.1 && r.1, r.2)
          else acc) (flag, s)).2 src = (outbound_of s src).map (fun q => q ++ msgs)
        ∧ (∀ m ∈ msgs, m.source_node = src ∧ m.priority = 1)
        ∧ List.Forall₂ (broadcast_dest enabled size home) msgs (l.filter (fun i => i ≠ src)) := by
  induction l with
  | nil =>
    intro s flag _ _ h
    refine ⟨h, [], ?_, ?_, List.Forall₂.nil⟩
    · simp
    · intro m hm
      cases hm
  | cons i rest ih =>
    intro s flag hen hhome h
    rw [List.foldl_cons] at h ⊢
    by_cases hi : i ≠ src
    · rw [if_pos hi] at h ⊢
      simp only [] at h ⊢
      have hcfg := send_message_config s src i data size 1
      have hhome1 : RingBusSimulator.get_dtd_home_node (RingBusSimulator.send_message s src i data size 1).2
          (RingBusSimulator.extract_memory_address data size) = home := by
        unfold RingBusSimulator.get_dtd_home_node at hhome ⊢
        rw [hcfg.1]
        exact hhome
      obtain ⟨hf, msgs, h1, h2, h3⟩ :=
        ih (RingBusSimulator.send_message s src i data size 1).2
          (flag && (RingBusSimulator.send_message s src i data size 1).1)
          (by rw [hcfg.2]; exact hen) hhome1 h
      have hflag : flag = true ∧ (RingBusSimulator.send_message s src i data size 1).1 = true := by
        simpa using hf
      obtain ⟨m, hm1, hm2, hm3, hm4⟩ := send_message_accepted s src i data size 1 hflag.2
      refine ⟨hflag.1, m :: msgs, ?_, ?_, ?_⟩
      · rw [h1, hm1]
        cases outbound_of s src with
        | none => rfl
        | some q => simp
      · intro x hx
        rcases List.mem_cons.mp hx with hx | hx
        · rw [hx]
          exact ⟨hm2, hm3⟩
        · exact h2 x hx
      · rw [List.filter_cons_of_pos (by simpa using hi)]
        refine List.Forall₂.cons ?_ h3
        rw [← hen, ← hhome]
        exact hm4
    · rw [if_neg hi] at h ⊢
      obtain ⟨hf, msgs, h1, h2, h3⟩ := ih s flag hen hhome h
      refine ⟨hf, msgs, h1, h2, ?_⟩
      rw [List.filter_cons_of_neg (by simpa using hi)]
      exact h3

theorem range_filter_ne_length (n src : Nat) (h : src < n) :
    ((List.range n).filter (fun i => i ≠ src)).length = n - 1 := by
  have hnd : (List.range n).Nodup := List.nodup_range n
  have he : (List.range n).erase src = (List.range n).filter (fun i => i ≠ src) := by
    rw [hnd.erase_eq_filter]
    congr 1
    funext i
    by_cases hi : i = src <;> simp [hi]
  rw [← he, List.length_erase_of_mem (List.mem_range.mpr h), List.length_range]

/-- C20 (counterexample): on the 4-node ring in which tile 0 holds the line of
address `0x1001` Modified, the broadcast of tile 3 with an 8-byte payload
naming that address returns true and appends three messages whose
destinations are 1, 1, 2: the message for tile 0 went to the home tile 1
instead, so tile 0 does not occur and tile 1 occurs twice. -/
theorem C20_counterexample :
    (RingBusSimulator.simulate_broadcast ring4_line_owned_by_0 3 (1 :: 16 :: List.replicate 6 0) 8).1 = true
    ∧ outbound_of ring4_line_owned_by_0 3 = some []
    ∧ (outbound_of (RingBusSimulator.simulate_broadcast ring4_line_owned_by_0 3
          (1 :: 16 :: List.replicate 6 0) 8).2 3).map
        (fun q => q.map (fun m => (m.dest_node, m.priority)))
      = some [(1, 1), (1, 1), (2, 1)] := by
  decide

/-- C20 (amended): for every source tile `src < N` and payload, if
`simulate_broadcast(src, data, size)` returns true then exactly `N - 1`
messages were appended to `nodes[src].outbound_queue`, every one of them with
source `src` and priority 1, and the k-th of them was sent for the k-th tile
`dst ≠ src`: its `dest_node` is `dst`, or, when the directory is enabled and
the payload is a memory request (`size ≥ 8`), possibly the home tile of the
address instead.  When the payload is no memory request or the directory is
disabled the destinations are exactly the tiles `dst ≠ src`, each once. -/
theorem C20_simulate_broadcast (s : RingBusSimulator) (src : Nat) (data : List Nat) (size : Nat)
    (hsrc : src < s.config.num_nodes)
    (h : (RingBusSimulator.simulate_broadcast s src data size).1 = true) :
    ∃ msgs : List ring_bus_message_t,
      outbound_of (RingBusSimulator.simulate_broadcast s src data size).2 src
        = (outbound_of s src).map (fun q => q ++ msgs)
      ∧ msgs.length = s.config.num_nodes - 1
      ∧ (∀ m ∈ msgs, m.source_node = src ∧ m.priority = 1)
      ∧ List.Forall₂
          (fun (m : ring_bus_message_t) dst => m.dest_node = dst
            ∨ (s.dtd_enabled = true ∧ size ≥ 8 ∧ m.dest_node
                = RingBusSimulator.get_dtd_home_node s (RingBusSimulator.extract_memory_address data size)))
          msgs ((List.range s.config.num_nodes).filter (fun i => i ≠ src))
      ∧ (¬ (s.dtd_enabled = true ∧ size ≥ 8) →
          msgs.map (fun m => m.dest_node) = (List.range s.config.num_nodes).filter (fun i => i ≠ src)) := by
  unfold RingBusSimulator.simulate_broadcast at h ⊢
  obtain ⟨_, msgs, h1, h2, h3⟩ :=
    broadcast_loop src data size s.dtd_enabled
      (RingBusSimulator.get_dtd_home_node s (RingBusSimulator.extract_memory_address data size))
      (List.range s.config.num_nodes) s true rfl rfl h
  refine ⟨msgs, h1, ?_, h2, ?_, ?_⟩
  · rw [h3.length_eq, range_filter_ne_length _ _ hsrc]
  · exact h3.imp (fun _ _ hm => hm.1)
  · intro hn
    have h4 : List.Forall₂ (fun (m : ring_bus_message_t) dst => m.dest_node = dst) msgs
        ((List.range s.config.num_nodes).filter (fun i => i ≠ src)) :=
      h3.imp (fun _ _ hm => hm.2 hn)
    have h5 := List.forall₂_map_left_iff.mpr h4
    exact List.forall₂_eq_eq_eq ▸ h5

/-- C20 (witness): the broadcast of tile 3 on the freshly initialized 4-node
ring with a one-byte payload appends three messages, for the tiles 0, 1, 2. -/
theorem C20_simulate_broadcast_witness :
    ∃ msgs : List ring_bus_message_t,
      outbound_of (RingBusSimulator.simulate_broadcast ring4 3 [65] 1).2 3
        = (outbound_of ring4 3).map (fun q => q ++ msgs)
      ∧ msgs.length = 3
      ∧ msgs.map (fun m => m.dest_node) = [0, 1, 2] :=
  (C20_simulate_broadcast ring4 3 [65] 1 (by decide) (by decide)).imp fun _ hm =>
    ⟨hm.1, hm.2.1, hm.2.2.2.2 (by decide)⟩

end

/-! ## PCIe cycle delay (C21) -/

section
open PCIeBridge

theorem round_half_even_sub_le (q : ℚ) : |(round_half_even q : ℚ) - q| ≤ 1 / 2 := by
  have h1 := Int.floor_le q
  have h2 := Int.lt_floor_add_one q
  unfold round_half_even
  rw [abs_le]
  split_ifs <;> push_cast <;> constructor <;> linarith

theorem round_half_even_eq (q : ℚ) (k : ℤ) (h : |q - k| < 1 / 2) : round_half_even q = k := by
  have h1 := round_half_even_sub_le q
  have h2 : |((round_half_even q - k : ℤ) : ℚ)| < 1 := by
    push_cast
    have : (round_half_even q : ℚ) - k = ((round_half_even q : ℚ) - q) + (q - k) := by ring
    rw [this]
    calc |((round_half_even q : ℚ) - q) + (q - k)|
        ≤ |(round_half_even q : ℚ) - q| + |q - k| := abs_add _ _
      _ < 1 / 2 + 1 / 2 := add_lt_add_of_le_of_lt h1 h
      _ = 1 := by norm_num
  have h3 : |round_half_even q - k| < 1 := by exact_mod_cast h2
  have h4 := Int.abs_lt_one_iff.mp h3
  omega

theorem int_log_two_eq (q : ℚ) (e : ℤ) (hq : 0 < q) (h1 : (2 : ℚ) ^ e ≤ q)
    (h2 : q < (2 : ℚ) ^ (e + 1)) : Int.log 2 q = e := by
  have hb : 1 < 2 := by decide
  apply le_antisymm
  · have := (Int.lt_zpow_iff_log_lt hb hq).mp (by exact_mod_cast h2)
    omega
  · exact (Int.zpow_le_iff_le_log hb hq).mp (by exact_mod_cast h1)

/-- Rounding a positive number to binary64 changes it by at most the fraction
`2^-53` of its value, and leaves it positive. -/
theorem round_binary64_error (q : ℚ) (hq : 0 < q) :
    |round_binary64 q - q| ≤ q / 2 ^ 53 ∧ 0 < round_binary64 q := by
  have hb : 1 < 2 := by decide
  unfold round_binary64
  rw [if_neg (ne_of_gt hq), abs_of_pos hq]
  have hlow : (2 : ℚ) ^ Int.log 2 q ≤ q := by
    have := Int.zpow_log_le_self hb hq
    exact_mod_cast this
  have hu : (0 : ℚ) < 2 ^ (Int.log 2 q - 52) := zpow_pos (by norm_num) _
  have hsplit : (2 : ℚ) ^ Int.log 2 q = 2 ^ (Int.log 2 q - 52) * 2 ^ 52 := by
    have h := zpow_add₀ (two_ne_zero : (2 : ℚ) ≠ 0) (Int.log 2 q - 52) 52
    rw [sub_add_cancel] at h
    rw [h]
    norm_num
  have hr := round_half_even_sub_le (q / 2 ^ (Int.log 2 q - 52))
  rw [abs_le] at hr
  have hm : q / 2 ^ (Int.log 2 q - 52) * 2 ^ (Int.log 2 q - 52) = q := by
    field_simp
  have hq52 : (2 : ℚ) ^ 52 ≤ q / 2 ^ (Int.log 2 q - 52) := by
    rw [le_div_iff₀ hu]
    rw [hsplit] at hlow
    linarith
  constructor
  · rw [abs_le]
    have hhalf : (2 : ℚ) ^ (Int.log 2 q - 52) * (1 / 2) ≤ q / 2 ^ 53 := by
      rw [le_div_iff₀ (by norm_num)]
      rw [hsplit] at hlow
      have : (2 : ℚ) ^ 53 = 2 ^ 52 * 2 := by norm_num
      rw [this]
      nlinarith
    constructor
    · nlinarith [hr.1, hr.2]
    · nlinarith [hr.1, hr.2]
  · have : (0 : ℚ) < round_half_even (q / 2 ^ (Int.log 2 q - 52)) := by
      have h52 : (1 : ℚ) ≤ 2 ^ 52 := by norm_num
      linarith [hr.1]
    exact mul_pos this hu

/-- The binary64 rounding of a positive number whose exponent and rounded
significand are known. -/
theorem round_binary64_eq (q : ℚ) (e k : ℤ) (hq : 0 < q) (h1 : (2 : ℚ) ^ e ≤ q)
    (h2 : q < (2 : ℚ) ^ (e + 1)) (hk : |q / 2 ^ (e - 52) - k| < 1 / 2) :
    round_binary64 q = k * 2 ^ (e - 52) := by
  unfold round_binary64
  rw [if_neg (ne_of_gt hq), abs_of_pos hq, int_log_two_eq q e hq h1 h2,
    round_half_even_eq _ k hk]

theorem within_roundings_zero (x : ℚ) : within_roundings 0 x x := by
  simp [within_roundings]

theorem within_roundings_nonneg (k : Nat) (x y : ℚ) (hy : 0 ≤ y)
    (h : within_roundings k x y) : 0 ≤ x := by
  have h1 : (0 : ℚ) ≤ (1 - 1 / 2 ^ 53) ^ k := pow_nonneg (by norm_num) k
  exact le_trans (mul_nonneg hy h1) h.1

theorem within_roundings_round (k : Nat) (x y : ℚ) (hy : 0 ≤ y)
    (h : within_roundings k x y) : within_roundings (k + 1) (round_binary64 x) y := by
  have hx := within_roundings_nonneg k x y hy h
  have hlo : (0 : ℚ) ≤ 1 - 1 / 2 ^ 53 := by norm_num
  have hhi : (0 : ℚ) ≤ 1 + 1 / 2 ^ 53 := by norm_num
  have hx2 : x * (1 - 1 / 2 ^ 53) ≤ round_binary64 x ∧
      round_binary64 x ≤ x * (1 + 1 / 2 ^ 53) := by
    rcases eq_or_lt_of_le hx with h0 | hpos
    · rw [← h0]
      simp [round_binary64]
    · have he := (round_binary64_error x hpos).1
      rw [abs_le] at he
      constructor
      · have : x * (1 - 1 / 2 ^ 53) = x - x / 2 ^ 53 := by ring
        linarith [he.1]
      · have : x * (1 + 1 / 2 ^ 53) = x + x / 2 ^ 53 := by ring
        linarith [he.2]
  unfold within_roundings at h ⊢
  constructor
  · calc y * (1 - 1 / 2 ^ 53) ^ (k + 1)
        = y * (1 - 1 / 2 ^ 53) ^ k * (1 - 1 / 2 ^ 53) := by ring
      _ ≤ x * (1 - 1 / 2 ^ 53) := mul_le_mul_of_nonneg_right h.1 hlo
      _ ≤ round_binary64 x := hx2.1
  · calc round_binary64 x ≤ x * (1 + 1 / 2 ^ 53) := hx2.2
      _ ≤ y * (1 + 1 / 2 ^ 53) ^ k * (1 + 1 / 2 ^ 53) := mul_le_mul_of_nonneg_right h.2 hhi
      _ = y * (1 + 1 / 2 ^ 53) ^ (k + 1) := by ring

theorem within_roundings_mul (k : Nat) (x y c : ℚ) (hc : 0 ≤ c)
    (h : within_roundings k x y) : within_roundings k (x * c) (y * c) := by
  unfold within_roundings at h ⊢
  constructor
  · calc y * c * (1 - 1 / 2 ^ 53) ^ k = y * (1 - 1 / 2 ^ 53) ^ k * c := by ring
      _ ≤ x * c := mul_le_mul_of_nonneg_right h.1 hc
  · calc x * c ≤ y * (1 + 1 / 2 ^ 53) ^ k * c := mul_le_mul_of_nonneg_right h.2 hc
      _ = y * c * (1 + 1 / 2 ^ 53) ^ k := by ring

theorem within_roundings_div (k : Nat) (x y c : ℚ) (hc : 0 ≤ c)
    (h : within_roundings k x y) : within_roundings k (x / c) (y / c) := by
  rw [div_eq_mul_inv, div_eq_mul_inv]
  exact within_roundings_mul k x y c⁻¹ (inv_nonneg.mpr hc) h

theorem within_roundings_add (k : Nat) (x y c : ℚ) (hc : 0 ≤ c)
    (h : within_roundings k x y) : within_roundings k (x + c) (y + c) := by
  unfold within_roundings at h ⊢
  have h1 : (1 - 1 / 2 ^ 53 : ℚ) ^ k ≤ 1 := pow_le_one₀ (by norm_num) (by norm_num)
  have h2 : (1 : ℚ) ≤ (1 + 1 / 2 ^ 53) ^ k := one_le_pow₀ (by norm_num)
  constructor
  · have : c * (1 - 1 / 2 ^ 53) ^ k ≤ c := by nlinarith
    nlinarith [h.1]
  · have : c ≤ c * (1 + 1 / 2 ^ 53) ^ k := by nlinarith
    nlinarith [h.2]

theorem round_binary64_BYTES_PER_GB :
    round_binary64 (BYTES_PER_GB : ℚ) = 1073741824 := by
  have h := round_binary64_eq 1073741824 30 4503599627370496 (by norm_num) (by norm_num)
    (by norm_num) (by norm_num)
  simp only [BYTES_PER_GB]
  norm_num at h ⊢
  exact h

theorem round_binary64_bytes_per_second :
    round_binary64 (PCIE_BANDWIDTH_GBPS * round_binary64 (BYTES_PER_GB : ℚ)) = 8589934592 := by
  rw [round_binary64_BYTES_PER_GB]
  have h := round_binary64_eq 8589934592 33 4503599627370496 (by norm_num) (by norm_num)
    (by norm_num) (by norm_num)
  simp only [PCIE_BANDWIDTH_GBPS]
  norm_num at h ⊢
  exact h

theorem KNC_CYCLE_TIME_NS_eq : KNC_CYCLE_TIME_NS = 8556839292003942 / 9007199254740992 := by
  have h := round_binary64_eq (19 / 20) (-1) 8556839292003942 (by norm_num) (by norm_num)
    (by norm_num) (by norm_num [abs_lt])
  unfold KNC_CYCLE_TIME_NS
  rw [h]
  norm_num

theorem round_binary64_100 : round_binary64 100 = 100 := by
  have h := round_binary64_eq 100 6 7036874417766400 (by norm_num) (by norm_num)
    (by norm_num) (by norm_num)
  rw [h]
  norm_num

theorem round_binary64_zero : round_binary64 0 = 0 := by
  simp [round_binary64]

theorem cycle_delay_cycles_zero :
    cycle_delay_cycles 0 = 7407236229227790 / 70368744177664 := by
  unfold cycle_delay_cycles calculate_transfer_time_ns
  simp only [round_binary64_bytes_per_second, KNC_CYCLE_TIME_NS_eq, PCIE_LATENCY_NS,
    Nat.cast_zero, round_binary64_zero, zero_div, zero_mul, zero_add, round_binary64_100]
  have h := round_binary64_eq (100 / (8556839292003942 / 9007199254740992)) 6 7407236229227790
    (by norm_num) (by norm_num) (by norm_num) (by norm_num [abs_lt])
  rw [h]
  norm_num

/-- The double `cycles` lies within five roundings of the quotient of the exact
transfer time by the double nearest to 0.95. -/
theorem cycle_delay_cycles_within (n : Nat) :
    within_roundings 5 (cycle_delay_cycles n)
      (((n : ℚ) / 8589934592 * 1000000000 + 100) / (8556839292003942 / 9007199254740992)) := by
  have hn : (0 : ℚ) ≤ n := Nat.cast_nonneg n
  have h1 := within_roundings_round 0 _ _ hn (within_roundings_zero (n : ℚ))
  have h2 := within_roundings_div 1 _ _ 8589934592 (by norm_num) h1
  have hq2 : (0 : ℚ) ≤ (n : ℚ) / 8589934592 := div_nonneg hn (by norm_num)
  have h3 := within_roundings_round 1 _ _ hq2 h2
  have h4 := within_roundings_mul 2 _ _ 1000000000 (by norm_num) h3
  have hq4 : (0 : ℚ) ≤ (n : ℚ) / 8589934592 * 1000000000 := mul_nonneg hq2 (by norm_num)
  have h5 := within_roundings_round 2 _ _ hq4 h4
  have h6 := within_roundings_add 3 _ _ 100 (by norm_num) h5
  have hq6 : (0 : ℚ) ≤ (n : ℚ) / 8589934592 * 1000000000 + 100 :=
    add_nonneg hq4 (by norm_num)
  have h7 := within_roundings_round 3 _ _ hq6 h6
  have h8 := within_roundings_div 4 _ _ (8556839292003942 / 9007199254740992) (by norm_num) h7
  have hq8 : (0 : ℚ) ≤ ((n : ℚ) / 8589934592 * 1000000000 + 100)
      / (8556839292003942 / 9007199254740992) := div_nonneg hq6 (by norm_num)
  have h9 := within_roundings_round 4 _ _ hq8 h8
  unfold cycle_delay_cycles calculate_transfer_time_ns
  simp only [round_binary64_bytes_per_second, KNC_CYCLE_TIME_NS_eq, PCIE_LATENCY_NS]
  exact h9

theorem spec_exact_cycles_nonneg (n : Nat) : 0 ≤ spec_exact_cycles n := by
  have hn : (0 : ℚ) ≤ n := Nat.cast_nonneg n
  unfold spec_exact_cycles
  positivity

theorem cycle_delay_cycles_bounds (n : Nat) :
    spec_exact_cycles n * (1 - 1 / 2 ^ 50) ≤ cycle_delay_cycles n ∧
    cycle_delay_cycles n ≤ spec_exact_cycles n * (1 + 1 / 2 ^ 50) := by
  have h := cycle_delay_cycles_within n
  have hE := spec_exact_cycles_nonneg n
  have hrel : ((n : ℚ) / 8589934592 * 1000000000 + 100) / (8556839292003942 / 9007199254740992)
      = spec_exact_cycles n * (9007199254740992 * 19 / (8556839292003942 * 20)) := by
    unfold spec_exact_cycles
    field_simp
    ring
  rw [hrel] at h
  unfold within_roundings at h
  constructor
  · refine le_trans ?_ h.1
    rw [mul_assoc]
    apply mul_le_mul_of_nonneg_left _ hE
    norm_num
  · refine le_trans h.2 ?_
    rw [mul_assoc]
    apply mul_le_mul_of_nonneg_left _ hE
    norm_num

theorem cycle_delay_cycles_nonneg (n : Nat) : 0 ≤ cycle_delay_cycles n := by
  have h := (cycle_delay_cycles_bounds n).1
  have hE := spec_exact_cycles_nonneg n
  have : (0 : ℚ) ≤ spec_exact_cycles n * (1 - 1 / 2 ^ 50) := mul_nonneg hE (by norm_num)
  linarith

theorem calculate_cycle_delay_cast (n : Nat) :
    ((calculate_cycle_delay n : Nat) : ℚ) = ((⌊cycle_delay_cycles n⌋ : ℤ) : ℚ) := by
  unfold calculate_cycle_delay
  have h : 0 ≤ ⌊cycle_delay_cycles n⌋ := Int.floor_nonneg.mpr (cycle_delay_cycles_nonneg n)
  have h2 : ((⌊cycle_delay_cycles n⌋.toNat : Nat) : ℤ) = ⌊cycle_delay_cycles n⌋ :=
    Int.toNat_of_nonneg h
  exact_mod_cast congrArg (fun z : ℤ => (z : ℚ)) h2

/-- C21, the claim fails: for zero bytes the code returns 105 cycles, and the
ceiling of the exact quotient `100 / 0.95` is 106. -/
theorem C21_counterexample :
    calculate_cycle_delay 0 = 105 ∧ ⌈spec_exact_cycles 0⌉ = 106 := by
  constructor
  · unfold calculate_cycle_delay
    rw [cycle_delay_cycles_zero]
    have : ⌊(7407236229227790 / 70368744177664 : ℚ)⌋ = 105 := by
      rw [Int.floor_eq_iff]
      norm_num
    rw [this]
    rfl
  · unfold spec_exact_cycles
    rw [Int.ceil_eq_iff]
    norm_num

/-- C21, amended: for every byte count `n` of the type `size_t`,
`calculate_cycle_delay(n)` is the integer part (not the ceiling) of the double
`cycles`, which is computed in binary64 and lies within the relative error
`2^-50` of the exact quotient `(n / (8 × 2^30) × 10^9 + 100) / 0.95`; the result
fits the type `uint64_t`. -/
theorem C21_calculate_cycle_delay (n : Nat) (hn : n < 18446744073709551616) :
    ((calculate_cycle_delay n : ℚ) ≤ cycle_delay_cycles n ∧
      cycle_delay_cycles n < (calculate_cycle_delay n : ℚ) + 1) ∧
    (spec_exact_cycles n * (1 - 1 / 2 ^ 50) ≤ cycle_delay_cycles n ∧
      cycle_delay_cycles n ≤ spec_exact_cycles n * (1 + 1 / 2 ^ 50)) ∧
    calculate_cycle_delay n < 18446744073709551616 := by
  have hb := cycle_delay_cycles_bounds n
  have hc := calculate_cycle_delay_cast n
  have hfl := Int.floor_le (cycle_delay_cycles n)
  have hlt := Int.lt_floor_add_one (cycle_delay_cycles n)
  refine ⟨⟨?_, ?_⟩, hb, ?_⟩
  · rw [hc]
    exact hfl
  · rw [hc]
    exact hlt
  · have hnq : (n : ℚ) < 18446744073709551616 := by exact_mod_cast hn
    have hE : spec_exact_cycles n * (1 + 1 / 2 ^ 50) < 18446744073709551616 := by
      unfold spec_exact_cycles
      have : ((n : ℚ) / (8 * 2 ^ 30) * 10 ^ 9 + 100) / (19 / 20) * (1 + 1 / 2 ^ 50)
          = (n : ℚ) * (10 ^ 9 / (8 * 2 ^ 30) / (19 / 20) * (1 + 1 / 2 ^ 50))
            + 100 / (19 / 20) * (1 + 1 / 2 ^ 50) := by ring
      rw [this]
      have hk : (0 : ℚ) < 10 ^ 9 / (8 * 2 ^ 30) / (19 / 20) * (1 + 1 / 2 ^ 50) := by norm_num
      have := mul_lt_mul_of_pos_right hnq hk
      norm_num at this ⊢
      linarith
    have : ((calculate_cycle_delay n : Nat) : ℚ) < ((18446744073709551616 : Nat) : ℚ) := by
      rw [hc]
      push_cast
      linarith [hb.2]
    exact_mod_cast this

/-- C21, the amended claim at 4096 bytes. -/
theorem C21_calculate_cycle_delay_witness :
    (4096 : Nat) < 18446744073709551616 ∧
    (((calculate_cycle_delay 4096 : ℚ) ≤ cycle_delay_cycles 4096 ∧
      cycle_delay_cycles 4096 < (calculate_cycle_delay 4096 : ℚ) + 1) ∧
    (spec_exact_cycles 4096 * (1 - 1 / 2 ^ 50) ≤ cycle_delay_cycles 4096 ∧
      cycle_delay_cycles 4096 ≤ spec_exact_cycles 4096 * (1 + 1 / 2 ^ 50)) ∧
    calculate_cycle_delay 4096 < 18446744073709551616) :=
  ⟨by decide, C21_calculate_cycle_delay 4096 (by decide)⟩

end

/-! ## Command line help (C22) -/

section
open KNCBinaryLoader

theorem parse_loop_help (program_name : String) (strtoul strtoull : String → Nat)
    (binary : Option String) (pre : List getopt_result) :
    ∀ (config : imic_sde_config) (help : getopt_result) (post : List getopt_result),
      help.c = 104 → (∀ r ∈ pre, option_continues r) →
      (parse_loop program_name strtoul strtoull binary (pre ++ help :: post) config).ok = false
      ∧ (parse_loop program_name strtoul strtoull binary (pre ++ help :: post) config).out
          = print_usage program_name
      ∧ (parse_loop program_name strtoul strtoull binary (pre ++ help :: post) config).err = [] := by
  induction pre with
  | nil =>
    intro config help post hh _
    simp only [List.nil_append, parse_loop, hh, if_true]
    exact ⟨trivial, trivial, trivial⟩
  | cons r rest ih =>
    intro config help post hh hpre
    have hr := hpre r (List.mem_cons_self _ _)
    have hrest : ∀ x ∈ rest, option_continues x := fun x hx => hpre x (List.mem_cons_of_mem _ hx)
    simp only [List.cons_append, parse_loop]
    rcases hr with h | h | h | h | h | h | ⟨h, ha | ha⟩
    all_goals simp only [h, if_true]
    · simp only [show ¬ ((100 : Int) = 104) by decide, if_false]
      exact ih _ help post hh hrest
    · simp only [show ¬ ((112 : Int) = 104) by decide, show ¬ ((112 : Int) = 100) by decide,
        if_false, if_true]
      exact ih _ help post hh hrest
    · simp only [show ¬ ((114 : Int) = 104) by decide, show ¬ ((114 : Int) = 100) by decide,
        show ¬ ((114 : Int) = 112) by decide, if_false, if_true]
      exact ih _ help post hh hrest
    · simp only [show ¬ ((99 : Int) = 104) by decide, show ¬ ((99 : Int) = 100) by decide,
        show ¬ ((99 : Int) = 112) by decide, show ¬ ((99 : Int) = 114) by decide,
        show ¬ ((99 : Int) = 97) by decide, if_false, if_true]
      exact ih _ help post hh hrest
    · simp only [show ¬ ((109 : Int) = 104) by decide, show ¬ ((109 : Int) = 100) by decide,
        show ¬ ((109 : Int) = 112) by decide, show ¬ ((109 : Int) = 114) by decide,
        show ¬ ((109 : Int) = 97) by decide, show ¬ ((109 : Int) = 99) by decide, if_false, if_true]
      exact ih _ help post hh hrest
    · simp only [show ¬ ((102 : Int) = 104) by decide, show ¬ ((102 : Int) = 100) by decide,
        show ¬ ((102 : Int) = 112) by decide, show ¬ ((102 : Int) = 114) by decide,
        show ¬ ((102 : Int) = 97) by decide, show ¬ ((102 : Int) = 99) by decide,
        show ¬ ((102 : Int) = 109) by decide, if_false, if_true]
      exact ih _ help post hh hrest
    · simp only [show ¬ ((97 : Int) = 104) by decide, show ¬ ((97 : Int) = 100) by decide,
        show ¬ ((97 : Int) = 112) by decide, show ¬ ((97 : Int) = 114) by decide, ha,
        if_false, if_true]
      exact ih _ help post hh hrest
    · simp only [show ¬ ((97 : Int) = 104) by decide, show ¬ ((97 : Int) = 100) by decide,
        show ¬ ((97 : Int) = 112) by decide, show ¬ ((97 : Int) = 114) by decide, ha,
        show ¬ ("knl" = "knc") by decide, if_false, if_true]
      exact ih _ help post hh hrest

/-- C22 (counterexample): for the command line `prog -h` (the option parser
reports `h` once) the program prints the usage text and `main` returns -1, not
0. -/
theorem C22_counterexample :
    (main "prog" (fun _ => 0) (fun _ => 0) [{ c := 104, optarg := "" }] none (fun _ => 0)).1 = -1
    ∧ (main "prog" (fun _ => 0) (fun _ => 0) [{ c := 104, optarg := "" }] none (fun _ => 0)).2.1
        = print_usage "prog"
    ∧ (main "prog" (fun _ => 0) (fun _ => 0) [{ c := 104, optarg := "" }] none (fun _ => 0)).1 ≠ 0 := by
  refine ⟨rfl, rfl, ?_⟩
  show (-1 : Int) ≠ 0
  decide

/-- C22 (amended): when the option parser reports `h` (for `-h` or `--help`)
after options that all let the loop go on (`d`, `p`, `r`, `c`, `m`, `f`, and
`a` with a supported architecture), whatever follows, the program prints the
usage text to standard output, prints nothing to the error stream, does not
start the emulation and `main` returns -1. -/
theorem C22_help_prints_usage (program_name : String) (strtoul strtoull : String → Nat)
    (pre post : List getopt_result) (help : getopt_result) (binary : Option String)
    (run_emulation : imic_sde_config → Int)
    (hh : help.c = 104) (hpre : ∀ r ∈ pre, option_continues r) :
    main program_name strtoul strtoull (pre ++ help :: post) binary run_emulation
      = (-1, print_usage program_name, []) := by
  have h := parse_loop_help program_name strtoul strtoull binary pre default_config help post hh hpre
  unfold main parse_arguments
  simp only [h.1, h.2.1, h.2.2, Bool.not_false, if_true]

/-- C22 (witness): the command line `prog -d --arch knl --help file`. -/
theorem C22_help_prints_usage_witness :
    main "prog" (fun _ => 0) (fun _ => 0)
        ([{ c := 100, optarg := "" }, { c := 97, optarg := "knl" }]
          ++ { c := 104, optarg := "" } :: []) (some "file") (fun _ => 0)
      = (-1, print_usage "prog", []) :=
  C22_help_prints_usage "prog" (fun _ => 0) (fun _ => 0)
    [{ c := 100, optarg := "" }, { c := 97, optarg := "knl" }] [] { c := 104, optarg := "" }
    (some "file") (fun _ => 0) rfl (by
      intro r hr
      simp only [List.mem_cons, List.mem_singleton, List.not_mem_nil, or_false] at hr
      rcases hr with hr | hr
      · rw [hr]; exact Or.inl rfl
      · rw [hr]; exact Or.inr (Or.inr (Or.inr (Or.inr (Or.inr (Or.inr ⟨rfl, Or.inr rfl⟩))))))

end

/-! ## ELF header validation (C23) -/

section
open KNCBinaryLoader

/-- C23: `validate_elf_header(h)` returns true if and only if the bytes
`e_ident[0..3]` are `7F 45 4C 46`, `e_ident[4] = 2` and `e_ident[5] = 1`; two
headers that agree on these six bytes get the same answer whatever their other
fields (in particular `e_machine`) are; and after a successful validation
`load_binary` goes on with `is_knc_binary` set exactly when `e_machine = 181`,
while a failed validation makes it return false. -/
theorem C23_validate_elf_header (h : elf64_header_t) :
    (validate_elf_header h = true ↔
      h.e_ident.getD 0 0 = 127 ∧ h.e_ident.getD 1 0 = 69 ∧ h.e_ident.getD 2 0 = 76
      ∧ h.e_ident.getD 3 0 = 70 ∧ h.e_ident.getD 4 0 = 2 ∧ h.e_ident.getD 5 0 = 1)
    ∧ (∀ h1 : elf64_header_t, (∀ i, i < 6 → h1.e_ident.getD i 0 = h.e_ident.getD i 0) →
        validate_elf_header h1 = validate_elf_header h)
    ∧ (∀ machine, validate_elf_header { h with e_machine := machine } = validate_elf_header h)
    ∧ (∀ info : knc_binary_info_t, validate_elf_header h = true →
        load_binary_header info h
          = some { info with entry_point := h.e_entry, is_knc_binary := decide (h.e_machine = 181) })
    ∧ (∀ info : knc_binary_info_t, validate_elf_header h = false →
        load_binary_header info h = none) := by
  refine ⟨?_, ?_, fun _ => rfl, ?_, ?_⟩
  · unfold validate_elf_header
    constructor
    · intro hv
      split at hv
      · cases hv
      · split at hv
        · cases hv
        · split at hv
          · cases hv
          · rename_i h1 h2 h3
            simp only [not_or, ne_eq, not_not] at h1 h2 h3
            exact ⟨h1.1, h1.2.1, h1.2.2.1, h1.2.2.2, h2, h3⟩
    · rintro ⟨h0, h1, h2, h3, h4, h5⟩
      rw [h0, h1, h2, h3, h4, h5]
      rfl
  · intro h1 hsame
    unfold validate_elf_header
    rw [hsame 0 (by decide), hsame 1 (by decide), hsame 2 (by decide), hsame 3 (by decide),
      hsame 4 (by decide), hsame 5 (by decide)]
  · intro info hv
    unfold load_binary_header
    rw [hv]
    rfl
  · intro info hv
    unfold load_binary_header
    rw [hv]
    rfl

end

/-! ## Directories of reachable states -/

section
open RingBusSimulator

/-- A property of simulator states that is established by the constructor,
does not look outside the directories, and is kept by the three directory
updates holds after every call of `send_message_dtd`. -/
theorem send_message_dtd_preserves (P : RingBusSimulator → Prop)
    (hupd : ∀ s a t m, P s → P (RingBusSimulator.dtd_update_ownership s a t m))
    (hinv : ∀ s a t, P s → P (RingBusSimulator.dtd_invalidate_cacheline s a t))
    (hsnoop : ∀ (s : RingBusSimulator) (home : Nat) (tile : dtd_tile_state_t) (n : Nat), P s →
      s.dtd_tiles[home]? = some tile →
      P { s with dtd_tiles := s.dtd_tiles.set home { tile with snoop_requests := n } })
    (s : RingBusSimulator) (src dst : Nat) (data : List Nat) (size : Nat) (h : P s) :
    P (RingBusSimulator.send_message_dtd s src dst data size).1 := by
  unfold RingBusSimulator.send_message_dtd
  simp only []
  split
  · split
    · exact hinv _ _ _ h
    · rename_i tile htile
      exact hsnoop _ _ tile _ (hinv _ _ _ h) htile
  · exact hupd _ _ _ _ h

theorem send_message_preserves (P : RingBusSimulator → Prop)
    (hframe : ∀ s s1 : RingBusSimulator, P s → s1.dtd_tiles = s.dtd_tiles → P s1)
    (hupd : ∀ s a t m, P s → P (RingBusSimulator.dtd_update_ownership s a t m))
    (hinv : ∀ s a t, P s → P (RingBusSimulator.dtd_invalidate_cacheline s a t))
    (hsnoop : ∀ (s : RingBusSimulator) (home : Nat) (tile : dtd_tile_state_t) (n : Nat), P s →
      s.dtd_tiles[home]? = some tile →
      P { s with dtd_tiles := s.dtd_tiles.set home { tile with snoop_requests := n } })
    (s : RingBusSimulator) (src dst : Nat) (data : List Nat) (size priority : Nat) (h : P s) :
    P (RingBusSimulator.send_message s src dst data size priority).2 := by
  unfold RingBusSimulator.send_message
  split
  · exact h
  · split
    · exact h
    · split
      · exact h
      · simp only []
        split
        · exact hframe _ _ (send_message_dtd_preserves P hupd hinv hsnoop s src dst data size h) rfl
        · exact hframe _ _ h rfl

theorem process_node_queue_preserves (P : RingBusSimulator → Prop)
    (hframe : ∀ s s1 : RingBusSimulator, P s → s1.dtd_tiles = s.dtd_tiles → P s1)
    (fuel : Nat) (s s1 : RingBusSimulator) (node_id : Nat) (h : P s)
    (hrun : RingBusSimulator.process_node_queue fuel s node_id = some s1) : P s1 := by
  induction fuel generalizing s with
  | zero => simp [RingBusSimulator.process_node_queue] at hrun
  | succ fuel ih =>
    unfold RingBusSimulator.process_node_queue at hrun
    split at hrun
    · cases hrun; exact h
    · split at hrun
      · cases hrun; exact h
      · rename_i node hnode message rest hq
        cases hroute : RingBusSimulator.route_message s message with
        | none => rw [hroute] at hrun; cases hrun
        | some r =>
          rw [hroute] at hrun
          simp only [] at hrun
          have hr2 := route_message_state s message r hroute
          rw [hr2] at hrun
          split at hrun
          · split at hrun
            · cases hrun; exact h
            · refine ih _ ?_ hrun
              exact hframe _ _ h rfl
          · cases hrun; exact h

theorem step_simulation_preserves (P : RingBusSimulator → Prop)
    (hframe : ∀ s s1 : RingBusSimulator, P s → s1.dtd_tiles = s.dtd_tiles → P s1)
    (fuel : Nat) (s s1 : RingBusSimulator) (h : P s)
    (hrun : RingBusSimulator.step_simulation fuel s = some s1) : P s1 := by
  unfold RingBusSimulator.step_simulation RingBusSimulator.process_pending_messages at hrun
  have hadv : P (RingBusSimulator.advance_simulation s) := hframe _ _ h rfl
  generalize RingBusSimulator.advance_simulation s = s0 at hrun hadv
  have hcfg : ∀ (l : List Nat) (s2 : RingBusSimulator), P s2 →
      l.foldlM (fun st i => RingBusSimulator.process_node_queue fuel st i) s2 = some s1 → P s1 := by
    intro l
    induction l with
    | nil =>
      intro s2 h2 hr
      simp only [List.foldlM_nil] at hr
      cases hr; exact h2
    | cons a l ih =>
      intro s2 h2 hr
      rw [List.foldlM_cons] at hr
      cases hp : RingBusSimulator.process_node_queue fuel s2 a with
      | none => rw [hp] at hr; simp at hr
      | some s3 =>
        rw [hp] at hr
        exact ih s3 (process_node_queue_preserves P hframe fuel s2 s3 a h2 hp) hr
  exact hcfg _ s0 hadv hrun

/-- Induction principle for the directories of reachable states. -/
theorem reachable_dtd_invariant (P : RingBusSimulator → Prop)
    (hframe : ∀ s s1 : RingBusSimulator, P s → s1.dtd_tiles = s.dtd_tiles → P s1)
    (hupd : ∀ s a t m, P s → P (RingBusSimulator.dtd_update_ownership s a t m))
    (hinv : ∀ s a t, P s → P (RingBusSimulator.dtd_invalidate_cacheline s a t))
    (hsnoop : ∀ (s : RingBusSimulator) (home : Nat) (tile : dtd_tile_state_t) (n : Nat), P s →
      s.dtd_tiles[home]? = some tile →
      P { s with dtd_tiles := s.dtd_tiles.set home { tile with snoop_requests := n } })
    (h0 : ∀ num_nodes arch, P (RingBusSimulator.construct num_nodes arch))
    (s : RingBusSimulator) (hs : Reachable s) : P s := by
  induction hs with
  | init num_nodes arch => exact hframe _ _ (h0 num_nodes arch) rfl
  | send s src dst data size priority _ ih =>
    exact send_message_preserves P hframe hupd hinv hsnoop _ _ _ _ _ _ ih
  | step fuel s s1 _ hrun ih =>
    exact step_simulation_preserves P hframe fuel s s1 ih hrun
  | receive s node_id message _ ih =>
    refine hframe _ _ ih ?_
    unfold RingBusSimulator.receive_message
    split
    · rfl
    · split
      · rfl
      · split
        · rfl
        · split <;> rfl
  | reset s _ ih => exact hframe _ _ ih rfl

theorem findIdx?_set_keep {α : Type} (p : α → Bool) (a : α) (ha : p a = true) (l : List α) :
    ∀ i, l.findIdx? p = some i → (l.set i a).findIdx? p = some i := by
  induction l with
  | nil => intro i h; simp at h
  | cons x xs ih =>
    intro i h
    rw [List.findIdx?_cons] at h
    by_cases hx : p x = true
    · rw [if_pos hx] at h
      have hi : i = 0 := by
        have := Option.some.inj h
        omega
      subst hi
      simp [List.findIdx?_cons, ha]
    · rw [if_neg hx] at h
      rw [List.findIdx?_succ] at h
      cases hr : xs.findIdx? p with
      | none => rw [hr] at h; simp at h
      | some j =>
        rw [hr] at h
        have hi : i = j + 1 := by
          have := Option.some.inj h
          simp at this
          omega
        subst hi
        simp only [List.set_cons_succ, List.findIdx?_cons, if_neg hx, List.findIdx?_succ, Nat.zero_add]
        rw [ih j hr]
        rfl

theorem findIdx?_getElem? {α : Type} (p : α → Bool) (l : List α) :
    ∀ i, l.findIdx? p = some i → ∃ a, l[i]? = some a ∧ p a = true := by
  intro i h
  have h1 := List.findIdx?_of_eq_some h
  cases hq : l[i]? with
  | none => rw [hq] at h1; simp at h1
  | some a =>
    rw [hq] at h1
    exact ⟨a, rfl, h1⟩

/-- What a non-null result of `find_cache_line` points to. -/
theorem find_cache_line_some (s : RingBusSimulator) (address : Nat) (p : Nat × Nat)
    (h : RingBusSimulator.find_cache_line s address = some p) :
    p.1 = RingBusSimulator.get_dtd_home_node s address
    ∧ ∃ (tile : dtd_tile_state_t) (line : dtd_cache_line_t),
        s.dtd_tiles[p.1]? = some tile
        ∧ tile.cache_directory.findIdx?
            (fun l => l.cache_line_address == RingBusSimulator.cache_line_align s address) = some p.2
        ∧ tile.cache_directory[p.2]? = some line
        ∧ line.cache_line_address = RingBusSimulator.cache_line_align s address
        ∧ RingBusSimulator.cache_line_at s p = some line := by
  unfold RingBusSimulator.find_cache_line at h
  simp only [] at h
  split at h
  · cases h
  · rename_i tile htile
    split at h
    · cases h
    · rename_i idx hidx
      cases h
      obtain ⟨line, hline, hp⟩ := findIdx?_getElem? _ _ idx hidx
      refine ⟨rfl, tile, line, htile, hidx, hline, by simpa using hp, ?_⟩
      unfold RingBusSimulator.cache_line_at
      simp only [htile, hline]

theorem find_cache_line_of_tile (s : RingBusSimulator) (address : Nat) (tile : dtd_tile_state_t)
    (htile : s.dtd_tiles[RingBusSimulator.get_dtd_home_node s address]? = some tile) :
    RingBusSimulator.find_cache_line s address
      = (tile.cache_directory.findIdx?
          (fun l => l.cache_line_address == RingBusSimulator.cache_line_align s address)).map
          (fun idx => (RingBusSimulator.get_dtd_home_node s address, idx)) := by
  unfold RingBusSimulator.find_cache_line
  simp only [htile]
  split
  · rename_i h; rw [h]; rfl
  · rename_i idx h; rw [h]; rfl

theorem record_for_of_tile (s : RingBusSimulator) (address : Nat) (tile : dtd_tile_state_t)
    (htile : s.dtd_tiles[RingBusSimulator.get_dtd_home_node s address]? = some tile) :
    record_for s address
      = (tile.cache_directory.findIdx?
          (fun l => l.cache_line_address == RingBusSimulator.cache_line_align s address)).bind
          (fun idx => tile.cache_directory[idx]?) := by
  unfold record_for
  rw [find_cache_line_of_tile s address tile htile]
  cases tile.cache_directory.findIdx?
      (fun l => l.cache_line_address == RingBusSimulator.cache_line_align s address) with
  | none => rfl
  | some idx =>
    simp only [Option.map_some', Option.some_bind, RingBusSimulator.cache_line_at, htile]

theorem record_for_none_iff (s : RingBusSimulator) (address : Nat) :
    record_for s address = none ↔ RingBusSimulator.find_cache_line s address = none := by
  constructor
  · intro h
    cases hf : RingBusSimulator.find_cache_line s address with
    | none => rfl
    | some p =>
      obtain ⟨_, tile, line, _, _, _, _, hat⟩ := find_cache_line_some s address p hf
      unfold record_for at h
      rw [hf] at h
      simp only [Option.some_bind, hat] at h
      cases h
  · intro h
    unfold record_for
    rw [h]
    rfl

/-- The home tile of every address exists once the directories are sized for a
ring of at least one node. -/
theorem home_tile_exists (s : RingBusSimulator) (address : Nat)
    (hN : 0 < s.config.num_nodes) (hlen : s.dtd_tiles.length = s.config.num_nodes) :
    ∃ tile, s.dtd_tiles[RingBusSimulator.get_dtd_home_node s address]? = some tile := by
  have hlt : RingBusSimulator.get_dtd_home_node s address < s.dtd_tiles.length := by
    unfold RingBusSimulator.get_dtd_home_node
    rw [hlen]
    exact Nat.lt_of_le_of_lt (Nat.mod_le _ _) (Nat.mod_lt _ hN)
  exact ⟨_, List.getElem?_eq_getElem hlt⟩

/-- The miss path of `dtd_update_ownership`. -/
theorem dtd_update_ownership_miss (s : RingBusSimulator) (address owner_tile : Nat)
    (is_modified : Bool) (tile : dtd_tile_state_t)
    (htile : s.dtd_tiles[RingBusSimulator.get_dtd_home_node s address]? = some tile)
    (hmiss : RingBusSimulator.find_cache_line s address = none) :
    RingBusSimulator.dtd_update_ownership s address owner_tile is_modified
      = with_tile s (RingBusSimulator.get_dtd_home_node s address)
          { tile with
            cache_directory :=
              tile.cache_directory ++ [new_cache_line s address owner_tile is_modified] } := by
  unfold RingBusSimulator.dtd_update_ownership
  rw [hmiss]
  simp only [Option.none_bind, htile]
  rfl

/-- The hit path of `dtd_update_ownership`. -/
theorem dtd_update_ownership_hit (s : RingBusSimulator) (address owner_tile : Nat)
    (is_modified : Bool) (p : Nat × Nat)
    (hfind : RingBusSimulator.find_cache_line s address = some p) :
    ∃ (tile : dtd_tile_state_t) (line : dtd_cache_line_t),
      s.dtd_tiles[RingBusSimulator.get_dtd_home_node s address]? = some tile
      ∧ tile.cache_directory.findIdx?
          (fun l => l.cache_line_address == RingBusSimulator.cache_line_align s address) = some p.2
      ∧ tile.cache_directory[p.2]? = some line
      ∧ line.cache_line_address = RingBusSimulator.cache_line_align s address
      ∧ record_for s address = some line
      ∧ RingBusSimulator.dtd_update_ownership s address owner_tile is_modified
        = with_tile s (RingBusSimulator.get_dtd_home_node s address)
            { tile with
              cache_directory :=
                tile.cache_directory.set p.2 (updated_cache_line s line owner_tile is_modified) } := by
  obtain ⟨hp1, tile, line, htile, hidx, hline, haddr, hat⟩ := find_cache_line_some s address p hfind
  rw [hp1] at htile
  refine ⟨tile, line, htile, hidx, hline, haddr, ?_, ?_⟩
  · unfold record_for
    rw [hfind]
    exact hat
  · unfold RingBusSimulator.dtd_update_ownership
    rw [hfind]
    simp only [Option.some_bind, hat, Option.map_some']
    unfold RingBusSimulator.set_cache_line
    rw [hp1]
    simp only [htile]
    rfl

theorem with_tile_getElem? (s : RingBusSimulator) (home : Nat) (tile tile1 : dtd_tile_state_t)
    (htile : s.dtd_tiles[home]? = some tile) :
    (with_tile s home tile1).dtd_tiles[home]? = some tile1 := by
  unfold with_tile
  exact getElem?_set_self_of_some _ _ _ _ htile

theorem record_for_with_tile (s : RingBusSimulator) (address : Nat) (tile tile1 : dtd_tile_state_t)
    (htile : s.dtd_tiles[RingBusSimulator.get_dtd_home_node s address]? = some tile) :
    record_for (with_tile s (RingBusSimulator.get_dtd_home_node s address) tile1) address
      = (tile1.cache_directory.findIdx?
          (fun l => l.cache_line_address == RingBusSimulator.cache_line_align s address)).bind
          (fun idx => tile1.cache_directory[idx]?) :=
  record_for_of_tile (with_tile s (RingBusSimulator.get_dtd_home_node s address) tile1) address tile1
    (with_tile_getElem? s _ tile tile1 htile)

/-- The record `find_cache_line(address)` points to after
`dtd_update_ownership(address, owner_tile, is_modified)`: the freshly
allocated record on a miss, the rewritten one on a hit. -/
theorem dtd_update_ownership_record (s : RingBusSimulator) (address owner_tile : Nat)
    (is_modified : Bool) (tile : dtd_tile_state_t)
    (htile : s.dtd_tiles[RingBusSimulator.get_dtd_home_node s address]? = some tile) :
    record_for (RingBusSimulator.dtd_update_ownership s address owner_tile is_modified) address
      = some (match record_for s address with
          | none => new_cache_line s address owner_tile is_modified
          | some line => updated_cache_line s line owner_tile is_modified) := by
  cases hfind : RingBusSimulator.find_cache_line s address with
  | none =>
    rw [(record_for_none_iff s address).mpr hfind]
    rw [dtd_update_ownership_miss s address owner_tile is_modified tile htile hfind]
    rw [record_for_with_tile s address tile _ htile]
    have hnone : tile.cache_directory.findIdx?
        (fun l => l.cache_line_address == RingBusSimulator.cache_line_align s address) = none := by
      rw [find_cache_line_of_tile s address tile htile] at hfind
      cases hq : tile.cache_directory.findIdx?
          (fun l => l.cache_line_address == RingBusSimulator.cache_line_align s address) with
      | none => rfl
      | some idx => rw [hq] at hfind; cases hfind
    simp only [List.findIdx?_append, hnone, Option.none_or]
    have hone : [new_cache_line s address owner_tile is_modified].findIdx?
        (fun l => l.cache_line_address == RingBusSimulator.cache_line_align s address) = some 0 := by
      simp [List.findIdx?_cons, new_cache_line]
    rw [hone]
    simp
  | some p =>
    obtain ⟨tile1, line, htile1, hidx, hline, haddr, hrec, hupd⟩ :=
      dtd_update_ownership_hit s address owner_tile is_modified p hfind
    have ht : tile1 = tile := by
      rw [htile] at htile1
      exact (Option.some.inj htile1).symm
    subst ht
    rw [hrec, hupd, record_for_with_tile s address tile1 _ htile]
    have hkeep := findIdx?_set_keep
      (fun l : dtd_cache_line_t => l.cache_line_address == RingBusSimulator.cache_line_align s address)
      (updated_cache_line s line owner_tile is_modified)
      (by simp [updated_cache_line, haddr]) tile1.cache_directory p.2 hidx
    simp only [hkeep, Option.some_bind]
    exact getElem?_set_self_of_some _ _ _ _ hline

/-- The miss path of `dtd_invalidate_cacheline`. -/
theorem dtd_invalidate_cacheline_miss (s : RingBusSimulator) (address requesting_tile : Nat)
    (hmiss : RingBusSimulator.find_cache_line s address = none) :
    RingBusSimulator.dtd_invalidate_cacheline s address requesting_tile = s := by
  unfold RingBusSimulator.dtd_invalidate_cacheline
  rw [hmiss]

/-- The hit path of `dtd_invalidate_cacheline`. -/
theorem dtd_invalidate_cacheline_hit (s : RingBusSimulator) (address requesting_tile : Nat)
    (p : Nat × Nat) (hfind : RingBusSimulator.find_cache_line s address = some p) :
    ∃ (tile : dtd_tile_state_t) (line : dtd_cache_line_t),
      s.dtd_tiles[RingBusSimulator.get_dtd_home_node s address]? = some tile
      ∧ tile.cache_directory.findIdx?
          (fun l => l.cache_line_address == RingBusSimulator.cache_line_align s address) = some p.2
      ∧ tile.cache_directory[p.2]? = some line
      ∧ line.cache_line_address = RingBusSimulator.cache_line_align s address
      ∧ record_for s address = some line
      ∧ RingBusSimulator.dtd_invalidate_cacheline s address requesting_tile
        = with_tile s (RingBusSimulator.get_dtd_home_node s address)
            { tile with
              cache_directory :=
                tile.cache_directory.set p.2 (invalidated_cache_line s line requesting_tile)
              invalidation_requests := (tile.invalidation_requests + 1) % 4294967296 } := by
  obtain ⟨hp1, tile, line, htile, hidx, hline, haddr, hat⟩ := find_cache_line_some s address p hfind
  rw [hp1] at htile
  refine ⟨tile, line, htile, hidx, hline, haddr, ?_, ?_⟩
  · unfold record_for
    rw [hfind]
    exact hat
  · unfold RingBusSimulator.dtd_invalidate_cacheline
    rw [hfind]
    simp only [hat]
    unfold RingBusSimulator.set_cache_line
    rw [hp1]
    simp only [htile]
    have hlt : address % s.config.num_nodes % 4294967296 < s.dtd_tiles.length := by
      rcases Nat.lt_or_ge (address % s.config.num_nodes % 4294967296) s.dtd_tiles.length with h | h
      · exact h
      · unfold RingBusSimulator.get_dtd_home_node at htile
        rw [List.getElem?_eq_none h] at htile
        cases htile
    simp only [RingBusSimulator.get_dtd_home_node, List.getElem?_set_self hlt, List.set_set]
    rfl

theorem shl_one_of_lt (t : Nat) (ht : t < 32) : shl_one t = 2 ^ t := by
  unfold shl_one
  rw [Nat.mod_eq_of_lt ht, Nat.one_shiftLeft]
  exact Nat.mod_eq_of_lt (Nat.pow_lt_pow_right (by decide) ht)

theorem shl_one_lt (t : Nat) : shl_one t < 4294967296 := by
  unfold shl_one
  exact Nat.mod_lt _ (by decide)

theorem not32_shl_one_testBit (t i : Nat) (ht : t < 32) :
    (not32 (shl_one t)).testBit i = (decide (i < 32) && decide (i ≠ t)) := by
  have h1 : not32 (shl_one t) = (2 ^ 32 - 1) ^^^ 2 ^ t := by
    rw [shl_one_of_lt t ht]
    unfold not32
    interval_cases t <;> rfl
  rw [h1, Nat.testBit_xor, Nat.testBit_two_pow_sub_one, Nat.testBit_two_pow]
  by_cases h32 : i < 32 <;> by_cases hit : t = i
  · subst hit; simp [h32]
  · have : i ≠ t := fun h => hit h.symm
    simp [h32, hit, this]
  · subst hit; omega
  · have : i ≠ t := fun h => hit h.symm
    simp [h32, hit]

/-- Clearing the bit of the requester with `mask & ~(1 << t)`, for `t < 32`. -/
theorem and_not32_shl_one_testBit (x t i : Nat) (ht : t < 32) (hx : x < 4294967296) :
    (x &&& not32 (shl_one t)).testBit i = (x.testBit i && decide (i ≠ t)) := by
  rw [Nat.testBit_and, not32_shl_one_testBit t i ht]
  by_cases h32 : i < 32
  · simp [h32]
  · have hxi : x.testBit i = false := by
      apply Nat.testBit_lt_two_pow
      have h32i : 32 ≤ i := by omega
      have hpow : (2 : Nat) ^ 32 ≤ 2 ^ i := Nat.pow_le_pow_right (by decide) h32i
      exact Nat.lt_of_lt_of_le hx hpow
    simp [hxi]

theorem popcount32_shl_one (t : Nat) (ht : t < 32) : popcount32 (shl_one t) = 1 := by
  interval_cases t <;> decide

end

/-! ## Directory invariants (C24, C25) -/

section
open RingBusSimulator

theorem ring4_line_modified_reachable : Reachable ring4_line_modified :=
  Reachable.send _ 0 2 _ 16 0 (Reachable.init 4 knc_architecture_t.ARCH_KNC)

theorem ring4_written_back_reachable : Reachable ring4_written_back :=
  Reachable.send _ 3 2 _ 8 0 ring4_line_modified_reachable

theorem ring4_written_back_twice_reachable : Reachable ring4_written_back_twice :=
  Reachable.send _ 0 2 _ 8 0 ring4_written_back_reachable

/-- C24 (failing input): on the 4-node ring tile 0 writes line `0x1000` (16
bytes) and tile 3 then requests it (8 bytes).  The state is reachable through
`send_message` alone and the record is Modified with owner 3 and
`sharer_mask = 1`, the bit of the old owner, not `1 << 3 = 8`.  After one more
request of tile 0 the record is Modified with owner 0 and `sharer_mask = 0`,
so that no bit is set at all. -/
theorem C24_modified_record_mask :
    Reachable ring4_written_back
    ∧ record_for ring4_written_back 4096
        = some { cache_line_address := 4096, owner_tile := 3, sharer_mask := 1, is_modified := true,
                 is_exclusive := true, is_shared := false, timestamp := 0 }
    ∧ shl_one 3 = 8 ∧ popcount32 1 = 1
    ∧ Reachable ring4_written_back_twice
    ∧ record_for ring4_written_back_twice 4096
        = some { cache_line_address := 4096, owner_tile := 0, sharer_mask := 0, is_modified := true,
                 is_exclusive := true, is_shared := false, timestamp := 0 }
    ∧ shl_one 0 = 1 ∧ popcount32 0 = 0 :=
  ⟨ring4_written_back_reachable, by decide, by decide, by decide,
    ring4_written_back_twice_reachable, by decide, by decide, by decide⟩

theorem all_lines_with_tile (Q : dtd_cache_line_t → Prop) (s : RingBusSimulator) (home : Nat)
    (tile tile1 : dtd_tile_state_t) (h : all_lines Q s) (htile : s.dtd_tiles[home]? = some tile)
    (hdir : ∀ line ∈ tile1.cache_directory, line ∈ tile.cache_directory ∨ Q line) :
    all_lines Q (with_tile s home tile1) := by
  intro t ht line hline
  unfold with_tile at ht
  rcases List.mem_or_eq_of_mem_set ht with hm | he
  · exact h t hm line hline
  · rw [he] at hline
    rcases hdir line hline with hl | hq
    · exact h tile (List.getElem?_mem htile) line hl
    · exact hq

/-- A property of single records that the three ways of writing a record
establish or keep holds for every record of every reachable directory. -/
theorem reachable_all_lines (Q : dtd_cache_line_t → Prop)
    (hnew : ∀ s a t m, Q (new_cache_line s a t m))
    (hupd : ∀ s line t m, Q line → Q (updated_cache_line s line t m))
    (hinv : ∀ s line t, Q line → Q (invalidated_cache_line s line t))
    (s : RingBusSimulator) (hs : Reachable s) : all_lines Q s := by
  refine reachable_dtd_invariant (all_lines Q) ?_ ?_ ?_ ?_ ?_ s hs
  · intro s s1 h heq
    unfold all_lines
    rw [heq]
    exact h
  · intro s a t m h
    cases hfind : RingBusSimulator.find_cache_line s a with
    | none =>
      cases htile : s.dtd_tiles[RingBusSimulator.get_dtd_home_node s a]? with
      | none =>
        have : RingBusSimulator.dtd_update_ownership s a t m = s := by
          unfold RingBusSimulator.dtd_update_ownership
          rw [hfind]
          simp only [Option.none_bind, htile]
        rw [this]
        exact h
      | some tile =>
        rw [dtd_update_ownership_miss s a t m tile htile hfind]
        refine all_lines_with_tile Q s _ tile _ h htile ?_
        intro line hline
        rcases List.mem_append.mp hline with hl | hl
        · exact Or.inl hl
        · rw [List.mem_singleton.mp hl]
          exact Or.inr (hnew s a t m)
    | some p =>
      obtain ⟨tile, line, htile, _, hline, _, _, heq⟩ := dtd_update_ownership_hit s a t m p hfind
      rw [heq]
      refine all_lines_with_tile Q s _ tile _ h htile ?_
      intro l hl
      rcases List.mem_or_eq_of_mem_set hl with hm | he
      · exact Or.inl hm
      · rw [he]
        exact Or.inr (hupd s line t m
          (h tile (List.getElem?_mem htile) line (List.getElem?_mem hline)))
  · intro s a t h
    cases hfind : RingBusSimulator.find_cache_line s a with
    | none =>
      rw [dtd_invalidate_cacheline_miss s a t hfind]
      exact h
    | some p =>
      obtain ⟨tile, line, htile, _, hline, _, _, heq⟩ := dtd_invalidate_cacheline_hit s a t p hfind
      rw [heq]
      refine all_lines_with_tile Q s _ tile _ h htile ?_
      intro l hl
      rcases List.mem_or_eq_of_mem_set hl with hm | he
      · exact Or.inl hm
      · rw [he]
        exact Or.inr (hinv s line t
          (h tile (List.getElem?_mem htile) line (List.getElem?_mem hline)))
  · intro s home tile n h htile
    exact all_lines_with_tile Q s home tile _ h htile (fun line hl => Or.inl hl)
  · intro num_nodes arch tile htile line hline
    simp only [RingBusSimulator.construct, List.mem_map] at htile
    obtain ⟨i, _, rfl⟩ := htile
    simp at hline

/-- C25 (counterexample): after the single 16-byte request of tile 0 on the
4-node ring the record of line `0x1000` has both `is_modified` and
`is_exclusive` set. -/
theorem C25_counterexample :
    Reachable ring4_line_modified
    ∧ record_for ring4_line_modified 4096
        = some { cache_line_address := 4096, owner_tile := 0, sharer_mask := 1, is_modified := true,
                 is_exclusive := true, is_shared := false, timestamp := 0 } :=
  ⟨ring4_line_modified_reachable, by decide⟩

/-- C25 (amended): in every reachable state every directory record has exactly
one of `is_exclusive` and `is_shared` set, and `is_modified` only together with
`is_exclusive`: a Modified record is also flagged Exclusive and never
Shared. -/
theorem C25_state_flags (s : RingBusSimulator) (hs : Reachable s) :
    ∀ tile ∈ s.dtd_tiles, ∀ line ∈ tile.cache_directory,
      line.is_exclusive = !line.is_shared
      ∧ (line.is_modified = true → line.is_exclusive = true ∧ line.is_shared = false) := by
  have h := reachable_all_lines flags_consistent
    (fun _ _ _ _ => ⟨rfl, fun _ => rfl⟩)
    (fun _ _ _ m _ => ⟨by cases m <;> rfl, fun hm => hm⟩)
    (fun _ _ _ hq => hq) s hs
  intro tile htile line hline
  obtain ⟨h1, h2⟩ := h tile htile line hline
  refine ⟨h1, fun hm => ⟨h2 hm, ?_⟩⟩
  have he := h2 hm
  rw [he] at h1
  cases hsh : line.is_shared
  · rfl
  · rw [hsh] at h1
    cases h1

/-- C25 (witness): the flags of the directories of `ring4_written_back`. -/
theorem C25_state_flags_witness :
    Reachable ring4_written_back
    ∧ ∀ tile ∈ ring4_written_back.dtd_tiles, ∀ line ∈ tile.cache_directory,
      line.is_exclusive = !line.is_shared
      ∧ (line.is_modified = true → line.is_exclusive = true ∧ line.is_shared = false) :=
  ⟨ring4_written_back_reachable, C25_state_flags ring4_written_back ring4_written_back_reachable⟩

end

/-! ## Directory updates (C26, C28, C30) -/

section
open RingBusSimulator

/-- C26 (counterexample): the 4-node ring holds a record for line `0x1000`;
after `dtd_update_ownership(0x1000, 1, false)` the record is flagged Shared
and not Exclusive. -/
theorem C26_counterexample :
    record_for ring4_line_modified 4096 ≠ none
    ∧ record_for (RingBusSimulator.dtd_update_ownership ring4_line_modified 4096 1 false) 4096
        = some { cache_line_address := 4096, owner_tile := 1, sharer_mask := 2, is_modified := false,
                 is_exclusive := false, is_shared := true, timestamp := 0 } := by
  decide

/-- C26 (amended): on a ring of at least one node whose directories are sized
for it, after `dtd_update_ownership(addr, owner, is_modified)` the record for
`addr` has `owner_tile = owner`, `sharer_mask = 1 << owner` (that is
`2 ^ owner` for `owner < 32`) and `is_modified` as given; when the record was
absent it is flagged Exclusive and not Shared, and when it was present it is
flagged Exclusive exactly when `is_modified` is true and Shared exactly when
`is_modified` is false. -/
theorem C26_dtd_update_ownership (s : RingBusSimulator) (address owner_tile : Nat)
    (is_modified : Bool) (hN : 0 < s.config.num_nodes)
    (hlen : s.dtd_tiles.length = s.config.num_nodes) :
    ∃ line : dtd_cache_line_t,
      record_for (RingBusSimulator.dtd_update_ownership s address owner_tile is_modified) address
        = some line
      ∧ line.owner_tile = owner_tile
      ∧ line.sharer_mask = shl_one owner_tile
      ∧ (owner_tile < 32 → line.sharer_mask = 2 ^ owner_tile)
      ∧ line.is_modified = is_modified
      ∧ (record_for s address = none → line.is_exclusive = true ∧ line.is_shared = false)
      ∧ (record_for s address ≠ none →
          line.is_exclusive = is_modified ∧ line.is_shared = !is_modified) := by
  obtain ⟨tile, htile⟩ := home_tile_exists s address hN hlen
  have hrec := dtd_update_ownership_record s address owner_tile is_modified tile htile
  cases hold : record_for s address with
  | none =>
    rw [hold] at hrec
    exact ⟨new_cache_line s address owner_tile is_modified, hrec, rfl, rfl,
      fun h => shl_one_of_lt _ h, rfl, fun _ => ⟨rfl, rfl⟩, fun h => absurd rfl h⟩
  | some line0 =>
    rw [hold] at hrec
    exact ⟨updated_cache_line s line0 owner_tile is_modified, hrec, rfl, rfl,
      fun h => shl_one_of_lt _ h, rfl, (fun h => Option.noConfusion h), fun _ => ⟨rfl, rfl⟩⟩

/-- C26 (witness): `dtd_update_ownership(0x1000, 1, false)` on the 4-node ring
that holds a Modified record of tile 0 for the line. -/
theorem C26_dtd_update_ownership_witness :
    ∃ line : dtd_cache_line_t,
      record_for (RingBusSimulator.dtd_update_ownership ring4_line_modified 4096 1 false) 4096
        = some line
      ∧ line.owner_tile = 1 ∧ line.sharer_mask = 2 ^ 1
      ∧ line.is_exclusive = false ∧ line.is_shared = true :=
  (C26_dtd_update_ownership ring4_line_modified 4096 1 false (by decide) (by decide)).imp
    fun _ h => ⟨h.1, h.2.1, h.2.2.2.1 (by decide), (h.2.2.2.2.2.2 (by decide)).1,
      (h.2.2.2.2.2.2 (by decide)).2⟩

/-- C28 (counterexample): the 34-node ring holds line `0x1000` with the bit of
tile 0 in `sharer_mask`; `dtd_invalidate_cacheline(0x1000, 32)` clears that bit
although tile 0 is not the requester. -/
theorem C28_counterexample :
    record_for ring34_line_modified 4096
      = some { cache_line_address := 4096, owner_tile := 0, sharer_mask := 1, is_modified := true,
               is_exclusive := true, is_shared := false, timestamp := 0 }
    ∧ record_for (RingBusSimulator.dtd_invalidate_cacheline ring34_line_modified 4096 32) 4096
      = some { cache_line_address := 4096, owner_tile := 32, sharer_mask := 0, is_modified := true,
               is_exclusive := true, is_shared := false, timestamp := 0 }
    ∧ (32 : Nat) < ring34_line_modified.config.num_nodes := by
  decide

/-- C28 (amended): for a requester tile below 32.  When no record exists for
`addr`, `dtd_invalidate_cacheline(addr, requester)` changes nothing.  When the
record `line` exists (its mask a 32-bit value), the new state differs from the
old one only in the home tile `addr mod N`: there `invalidation_requests` is
increased by 1 (modulo 2^32, so by exactly 1 below the maximum) and the record
is replaced by one with the bit of the requester cleared in `sharer_mask` and
no other bit changed, `owner_tile = requester`, `timestamp` set to the
simulation time, and the address and the three state flags unchanged. -/
theorem C28_dtd_invalidate_cacheline (s : RingBusSimulator) (address requesting_tile : Nat)
    (ht : requesting_tile < 32) :
    (record_for s address = none →
        RingBusSimulator.dtd_invalidate_cacheline s address requesting_tile = s)
    ∧ (∀ line : dtd_cache_line_t, record_for s address = some line →
        line.sharer_mask < 4294967296 →
        ∃ (tile : dtd_tile_state_t) (idx : Nat),
          s.dtd_tiles[RingBusSimulator.get_dtd_home_node s address]? = some tile
          ∧ RingBusSimulator.get_dtd_home_node s address = address % s.config.num_nodes % 4294967296
          ∧ tile.cache_directory[idx]? = some line
          ∧ RingBusSimulator.dtd_invalidate_cacheline s address requesting_tile
            = with_tile s (RingBusSimulator.get_dtd_home_node s address)
                { tile with
                  cache_directory :=
                    tile.cache_directory.set idx (invalidated_cache_line s line requesting_tile)
                  invalidation_requests := (tile.invalidation_requests + 1) % 4294967296 }
          ∧ (tile.invalidation_requests + 1 < 4294967296 →
              (tile.invalidation_requests + 1) % 4294967296 = tile.invalidation_requests + 1)
          ∧ (∀ i, (invalidated_cache_line s line requesting_tile).sharer_mask.testBit i
              = (line.sharer_mask.testBit i && decide (i ≠ requesting_tile)))
          ∧ (invalidated_cache_line s line requesting_tile).owner_tile = requesting_tile
          ∧ (invalidated_cache_line s line requesting_tile).cache_line_address = line.cache_line_address
          ∧ (invalidated_cache_line s line requesting_tile).is_modified = line.is_modified
          ∧ (invalidated_cache_line s line requesting_tile).is_exclusive = line.is_exclusive
          ∧ (invalidated_cache_line s line requesting_tile).is_shared = line.is_shared
          ∧ (∀ j, j ≠ RingBusSimulator.get_dtd_home_node s address →
              (RingBusSimulator.dtd_invalidate_cacheline s address requesting_tile).dtd_tiles[j]?
                = s.dtd_tiles[j]?)
          ∧ (∀ k, k ≠ idx →
              (tile.cache_directory.set idx (invalidated_cache_line s line requesting_tile))[k]?
                = tile.cache_directory[k]?)) := by
  constructor
  · intro hnone
    exact dtd_invalidate_cacheline_miss s address requesting_tile
      ((record_for_none_iff s address).mp hnone)
  · intro line hrec hmask
    cases hfind : RingBusSimulator.find_cache_line s address with
    | none =>
      rw [(record_for_none_iff s address).mpr hfind] at hrec
      cases hrec
    | some p =>
      obtain ⟨tile, line1, htile, _, hline, _, hrec1, heq⟩ :=
        dtd_invalidate_cacheline_hit s address requesting_tile p hfind
      have hl : line1 = line := by
        rw [hrec] at hrec1
        exact (Option.some.inj hrec1).symm
      subst hl
      refine ⟨tile, p.2, htile, rfl, hline, heq, fun h => Nat.mod_eq_of_lt h,
        fun i => and_not32_shl_one_testBit _ _ i ht hmask, rfl, rfl, rfl, rfl, rfl, ?_, ?_⟩
      · intro j hj
        rw [heq]
        unfold with_tile
        exact List.getElem?_set_ne (Ne.symm hj)
      · intro k hk
        exact List.getElem?_set_ne (Ne.symm hk)

/-- C28 (witness): tile 3 invalidates line `0x1000`, held by tile 0, on the
4-node ring. -/
theorem C28_dtd_invalidate_cacheline_witness :
    (3 : Nat) < 32
    ∧ record_for ring4_line_modified 4096
        = some { cache_line_address := 4096, owner_tile := 0, sharer_mask := 1, is_modified := true,
                 is_exclusive := true, is_shared := false, timestamp := 0 }
    ∧ ∃ (tile : dtd_tile_state_t) (idx : Nat),
        ring4_line_modified.dtd_tiles[RingBusSimulator.get_dtd_home_node ring4_line_modified 4096]?
          = some tile
        ∧ RingBusSimulator.dtd_invalidate_cacheline ring4_line_modified 4096 3
          = with_tile ring4_line_modified (RingBusSimulator.get_dtd_home_node ring4_line_modified 4096)
              { tile with
                cache_directory :=
                  tile.cache_directory.set idx
                    (invalidated_cache_line ring4_line_modified
                      { cache_line_address := 4096, owner_tile := 0, sharer_mask := 1,
                        is_modified := true, is_exclusive := true, is_shared := false,
                        timestamp := 0 } 3)
                invalidation_requests := (tile.invalidation_requests + 1) % 4294967296 } :=
  ⟨by decide, by decide,
    ((C28_dtd_invalidate_cacheline ring4_line_modified 4096 3 (by decide)).2 _ (by decide)
      (by decide)).imp fun _ h => h.imp fun _ h1 => ⟨h1.1, h1.2.2.2.1⟩⟩

/-- C30 (counterexample): KNL has 34 tiles and `main` builds a ring of 60 nodes
by default; the 32-bit masks written for the tiles 0 and 32 are the same
(`1 << 32` taken modulo 2^32 as a number is 0), here on the 34-node ring. -/
theorem C30_counterexample :
    KNL_NUM_TILES = 34
    ∧ default_config.num_cores = 60
    ∧ 2 ^ 32 % 4294967296 = 0
    ∧ shl_one 32 = shl_one 0
    ∧ (record_for (RingBusSimulator.dtd_update_ownership ring34 4096 32 true) 4096).map
        (fun line => (line.owner_tile, line.sharer_mask)) = some (32, 1)
    ∧ (record_for (RingBusSimulator.dtd_update_ownership ring34 8192 0 true) 8192).map
        (fun line => (line.owner_tile, line.sharer_mask)) = some (0, 1) := by
  decide

/-- C30 (amended): for every ring size `N ≤ 32` (the 15 tiles of KNC among
them) and all distinct tiles `t, u < N`, the mask `1 << t` written by
`dtd_update_ownership` is `2 ^ t`: a non-zero 32-bit value with exactly one bit
set, different from the mask `1 << u`; and the record `dtd_update_ownership`
leaves for an address carries that mask. -/
theorem C30_sharer_mask_bits (N t u : Nat) (hN : N ≤ 32) (ht : t < N) (hu : u < N)
    (htu : t ≠ u) :
    shl_one t = 2 ^ t ∧ shl_one t ≠ 0 ∧ shl_one t < 4294967296
    ∧ popcount32 (shl_one t) = 1
    ∧ shl_one t ≠ shl_one u
    ∧ KNC_NUM_TILES ≤ 32
    ∧ ∀ (s : RingBusSimulator) (address : Nat) (is_modified : Bool),
        0 < s.config.num_nodes → s.dtd_tiles.length = s.config.num_nodes →
        (record_for (RingBusSimulator.dtd_update_ownership s address t is_modified) address).map
          (fun line => line.sharer_mask) = some (2 ^ t) := by
  have ht32 : t < 32 := by omega
  have hu32 : u < 32 := by omega
  have h1 := shl_one_of_lt t ht32
  have h2 := shl_one_of_lt u hu32
  refine ⟨h1, ?_, shl_one_lt t, popcount32_shl_one t ht32, ?_, by decide, ?_⟩
  · rw [h1]
    exact Nat.pos_iff_ne_zero.mp (Nat.two_pow_pos t)
  · rw [h1, h2]
    intro h
    exact htu (Nat.pow_right_injective (Nat.le_refl 2) h)
  · intro s address is_modified hpos hlen
    obtain ⟨tile, htile⟩ := home_tile_exists s address hpos hlen
    rw [dtd_update_ownership_record s address t is_modified tile htile]
    cases record_for s address with
    | none => exact congrArg some h1
    | some line => exact congrArg some h1

/-- C30 (witness): the tiles 3 and 14 of the 15-tile KNC ring. -/
theorem C30_sharer_mask_bits_witness :
    shl_one 3 = 2 ^ 3 ∧ shl_one 3 ≠ shl_one 14 :=
  have h := C30_sharer_mask_bits 15 3 14 (by decide) (by decide) (by decide) (by decide)
  ⟨h.1, h.2.2.2.2.1⟩

end

/-! ## Requests for a line that is not Modified (C27) -/

section
open RingBusSimulator

theorem record_for_congr (s s1 : RingBusSimulator) (address : Nat)
    (h1 : s1.dtd_tiles = s.dtd_tiles) (h2 : s1.config = s.config)
    (h3 : s1.cache_line_size = s.cache_line_size) :
    record_for s1 address = record_for s address := by
  unfold record_for RingBusSimulator.find_cache_line RingBusSimulator.cache_line_at
    RingBusSimulator.get_dtd_home_node RingBusSimulator.cache_line_align
  rw [h1, h2, h3]

/-- The directories after an accepted `send_message` are those the coherency
action of lines 297-325 leaves, or the old ones when no action is taken. -/
theorem send_message_state (s : RingBusSimulator) (src dst : Nat) (data : List Nat)
    (size priority : Nat)
    (h : (RingBusSimulator.send_message s src dst data size priority).1 = true) :
    (RingBusSimulator.send_message s src dst data size priority).2.dtd_tiles
        = (if (s.dtd_enabled && RingBusSimulator.is_memory_request data size) = true
            then (RingBusSimulator.send_message_dtd s src dst data size).1 else s).dtd_tiles
    ∧ (RingBusSimulator.send_message s src dst data size priority).2.cache_line_size
        = s.cache_line_size := by
  unfold RingBusSimulator.send_message at h ⊢
  split at h
  · cases h
  · rename_i hv
    rw [if_neg hv]
    cases hsrc : s.nodes[src]? with
    | none => rw [hsrc] at h; cases h
    | some source0 =>
      rw [hsrc] at h
      simp only [] at h ⊢
      split at h
      · cases h
      · rename_i hfull
        rw [if_neg hfull]
        by_cases hd : (s.dtd_enabled && RingBusSimulator.is_memory_request data size) = true
        · simp only [if_pos hd]
          obtain ⟨⟨tiles, ht⟩, _⟩ := send_message_dtd_frame s src dst data size
          refine ⟨trivial, ?_⟩
          rw [ht]
        · simp only [if_neg hd]
          exact ⟨trivial, trivial⟩

/-- The coherency action of `send_message` when `dtd_check_coherency` answers
true: the ownership is rewritten and the destination is kept. -/
theorem send_message_dtd_coherent (s : RingBusSimulator) (src dst : Nat) (data : List Nat)
    (size : Nat)
    (hc : RingBusSimulator.dtd_check_coherency s
      (RingBusSimulator.extract_memory_address data size) src = true) :
    (RingBusSimulator.send_message_dtd s src dst data size).1
        = RingBusSimulator.dtd_update_ownership s
            (RingBusSimulator.extract_memory_address data size) src (decide (size > 8))
    ∧ (RingBusSimulator.send_message_dtd s src dst data size).2.1 = dst := by
  unfold RingBusSimulator.send_message_dtd
  simp only [hc, Bool.not_true, Bool.false_eq_true, if_false]
  exact ⟨trivial, trivial⟩

theorem dtd_check_coherency_clean (s : RingBusSimulator) (address requesting_tile : Nat)
    (line : dtd_cache_line_t) (hrec : record_for s address = some line)
    (hclean : line.is_modified = false) :
    RingBusSimulator.dtd_check_coherency s address requesting_tile = true := by
  unfold RingBusSimulator.dtd_check_coherency
  unfold record_for at hrec
  rw [hrec]
  simp only [hclean]
  split <;> rfl

/-- C27 (counterexample): on the 4-node ring line `0x1000` is Shared with
owner 1 and `sharer_mask = 2`.  The 8-byte request of tile 2 leaves
`sharer_mask = 4`, not `2 | 4 = 6`, and the latency added for the directory is
the hop distance 1 from node 2 to node 3 with no extra hop; the 16-byte request
of tile 2 leaves the record Modified and not Shared. -/
theorem C27_counterexample :
    record_for ring4_line_shared 4096
      = some { cache_line_address := 4096, owner_tile := 1, sharer_mask := 2, is_modified := false,
               is_exclusive := false, is_shared := true, timestamp := 0 }
    ∧ (RingBusSimulator.send_message ring4_line_shared 2 3 payload_0x1000 8 0).1 = true
    ∧ record_for (RingBusSimulator.send_message ring4_line_shared 2 3 payload_0x1000 8 0).2 4096
      = some { cache_line_address := 4096, owner_tile := 2, sharer_mask := 4, is_modified := false,
               is_exclusive := false, is_shared := true, timestamp := 0 }
    ∧ 2 ||| shl_one 2 = 6
    ∧ RingBusSimulator.calculate_distance ring4_line_shared 2 3 = 1
    ∧ (RingBusSimulator.send_message_dtd ring4_line_shared 2 3 payload_0x1000 8).2.2 = 1
    ∧ record_for (RingBusSimulator.send_message ring4_line_shared 2 3
          (payload_0x1000 ++ [1, 2, 3, 4, 5, 6, 7, 8]) 16 0).2 4096
      = some { cache_line_address := 4096, owner_tile := 2, sharer_mask := 4, is_modified := true,
               is_exclusive := true, is_shared := false, timestamp := 0 } := by
  decide

/-- C27 (amended): when the directory is enabled and holds the line of a
memory request (`size ≥ 8`) in a state that is not Modified (Shared, in
particular), an accepted `send_message` of tile `r` for that line is not
redirected and rewrites the record: `owner_tile = r`, `sharer_mask = 1 << r`
with every previous sharer bit dropped, and the flags set from `size > 8`: the
record is Shared afterwards exactly when `size = 8` and Modified and Exclusive
exactly when `size > 8`. -/
theorem C27_clean_line_request (s : RingBusSimulator) (r dst : Nat) (data : List Nat)
    (size priority : Nat) (line : dtd_cache_line_t)
    (hen : s.dtd_enabled = true) (hsize : size ≥ 8)
    (hrec : record_for s (RingBusSimulator.extract_memory_address data size) = some line)
    (hclean : line.is_modified = false)
    (hacc : (RingBusSimulator.send_message s r dst data size priority).1 = true) :
    record_for (RingBusSimulator.send_message s r dst data size priority).2
        (RingBusSimulator.extract_memory_address data size)
      = some (updated_cache_line s line r (decide (size > 8)))
    ∧ (updated_cache_line s line r (decide (size > 8))).owner_tile = r
    ∧ (updated_cache_line s line r (decide (size > 8))).sharer_mask = shl_one r
    ∧ ((updated_cache_line s line r (decide (size > 8))).is_shared = true ↔ size = 8)
    ∧ ((updated_cache_line s line r (decide (size > 8))).is_modified = true ↔ size > 8)
    ∧ ((updated_cache_line s line r (decide (size > 8))).is_exclusive = true ↔ size > 8)
    ∧ (RingBusSimulator.send_message_dtd s r dst data size).2.1 = dst := by
  have hc := dtd_check_coherency_clean s _ r line hrec hclean
  obtain ⟨hst, hdst⟩ := send_message_dtd_coherent s r dst data size hc
  obtain ⟨htiles, hcls⟩ := send_message_state s r dst data size priority hacc
  have hd : (s.dtd_enabled && RingBusSimulator.is_memory_request data size) = true := by
    simp [hen, RingBusSimulator.is_memory_request, hsize]
  rw [if_pos hd, hst] at htiles
  have hcfg := (send_message_config s r dst data size priority).1
  obtain ⟨tiles, hframe⟩ := dtd_update_ownership_frame s
    (RingBusSimulator.extract_memory_address data size) r (decide (size > 8))
  have hrec1 : record_for (RingBusSimulator.send_message s r dst data size priority).2
      (RingBusSimulator.extract_memory_address data size)
      = record_for (RingBusSimulator.dtd_update_ownership s
          (RingBusSimulator.extract_memory_address data size) r (decide (size > 8)))
          (RingBusSimulator.extract_memory_address data size) := by
    apply record_for_congr
    · exact htiles
    · rw [hcfg, hframe]
    · rw [hcls, hframe]
  have htile : ∃ tile, s.dtd_tiles[RingBusSimulator.get_dtd_home_node s
      (RingBusSimulator.extract_memory_address data size)]? = some tile := by
    cases hfind : RingBusSimulator.find_cache_line s
        (RingBusSimulator.extract_memory_address data size) with
    | none =>
      rw [(record_for_none_iff s _).mpr hfind] at hrec
      cases hrec
    | some p =>
      obtain ⟨hp1, tile, _, ht, _⟩ := find_cache_line_some s _ p hfind
      rw [hp1] at ht
      exact ⟨tile, ht⟩
  obtain ⟨tile, htile⟩ := htile
  rw [hrec1, dtd_update_ownership_record s _ r _ tile htile, hrec]
  refine ⟨rfl, rfl, rfl, ?_, ?_, ?_, hdst⟩
  · show ((!decide (size > 8)) = true ↔ size = 8)
    simp only [Bool.not_eq_true', decide_eq_false_iff_not]
    omega
  · show (decide (size > 8) = true ↔ size > 8)
    simp
  · show (decide (size > 8) = true ↔ size > 8)
    simp

/-- C27 (witness): the 8-byte request of tile 2 for the Shared line `0x1000`. -/
theorem C27_clean_line_request_witness :
    record_for (RingBusSimulator.send_message ring4_line_shared 2 3 payload_0x1000 8 0).2
        (RingBusSimulator.extract_memory_address payload_0x1000 8)
      = some (updated_cache_line ring4_line_shared
          { cache_line_address := 4096, owner_tile := 1, sharer_mask := 2, is_modified := false,
            is_exclusive := false, is_shared := true, timestamp := 0 } 2 (decide (8 > 8))) :=
  (C27_clean_line_request ring4_line_shared 2 3 payload_0x1000 8 0
    { cache_line_address := 4096, owner_tile := 1, sharer_mask := 2, is_modified := false,
      is_exclusive := false, is_shared := true, timestamp := 0 }
    (by decide) (by decide) (by decide) (by decide) (by decide)).1

end

/-! ## Directory capacity (C29) -/

section
open RingBusSimulator

theorem extract_address_bytes (a : Nat) (ha : a < 18446744073709551616) :
    RingBusSimulator.extract_memory_address (address_bytes a) 8 = a := by
  unfold RingBusSimulator.extract_memory_address address_bytes
  simp only [ge_iff_le, Nat.le_refl, if_true, List.take, List.foldr]
  omega

theorem and_line_mask (a : Nat) : a &&& 4294967232 = 2 ^ 6 * (a / 2 ^ 6 % 2 ^ 26) := by
  apply Nat.eq_of_testBit_eq
  intro i
  have hm : (4294967232 : Nat) = 2 ^ 6 * (2 ^ 26 - 1) := by decide
  rw [hm, Nat.testBit_and, Nat.testBit_mul_pow_two, Nat.testBit_mul_pow_two,
    Nat.testBit_two_pow_sub_one, Nat.testBit_mod_two_pow, ← Nat.shiftRight_eq_div_pow,
    Nat.testBit_shiftRight]
  by_cases h6 : i ≥ 6
  · have : 6 + (i - 6) = i := by omega
    rw [this]
    cases a.testBit i <;> simp [h6]
  · simp [h6]

/-- With 64-byte lines `address & ~(cache_line_size - 1)` keeps the bits 6 to 31
of the address. -/
theorem cache_line_align_eq (s : RingBusSimulator) (a : Nat) (hcls : s.cache_line_size = 64) :
    RingBusSimulator.cache_line_align s a = 64 * (a / 64 % 67108864) := by
  unfold RingBusSimulator.cache_line_align
  rw [hcls]
  have hn : not32 ((64 + 4294967295) % 4294967296) = 4294967232 := by decide
  rw [hn, and_line_mask]
  rfl

theorem send_message_accepts (s : RingBusSimulator) (src dst : Nat) (data : List Nat)
    (size priority : Nat) (source0 : ring_bus_node_t)
    (hsrc : src < s.config.num_nodes) (hdst : dst < s.config.num_nodes)
    (hnode : s.nodes[src]? = some source0)
    (hfit : (source0.buffer_occupancy + size) % 4294967296 ≤ s.config.buffer_size) :
    (RingBusSimulator.send_message s src dst data size priority).1 = true := by
  unfold RingBusSimulator.send_message
  rw [if_neg (by omega)]
  simp only [hnode]
  rw [if_neg (by omega)]

theorem dtd_check_coherency_miss (s : RingBusSimulator) (address requesting_tile : Nat)
    (hmiss : RingBusSimulator.find_cache_line s address = none) :
    RingBusSimulator.dtd_check_coherency s address requesting_tile = true := by
  unfold RingBusSimulator.dtd_check_coherency
  rw [hmiss]
  rfl

theorem fill_inv_step (k : Nat) (hk : k < 16777216) (s : RingBusSimulator) (h : fill_inv k s) :
    fill_inv (k + 1)
      (RingBusSimulator.reset_simulation
        (RingBusSimulator.send_message s 0 0 (address_bytes (256 * k)) 8 0).2) := by
  obtain ⟨hcfg, hen, hcls, ⟨node, hnode, hocc⟩, tile, htile, hsize, hdir⟩ := h
  have hN : s.config.num_nodes = 4 := by rw [hcfg]; rfl
  have hbuf : s.config.buffer_size = 1024 := by rw [hcfg]; rfl
  have haddr := extract_address_bytes (256 * k) (by omega)
  have hhome : RingBusSimulator.get_dtd_home_node s (256 * k) = 0 := by
    unfold RingBusSimulator.get_dtd_home_node
    rw [hN]
    omega
  have halign : RingBusSimulator.cache_line_align s (256 * k) = 256 * k := by
    rw [cache_line_align_eq s _ hcls]
    omega
  have htile0 : s.dtd_tiles[RingBusSimulator.get_dtd_home_node s (256 * k)]? = some tile := by
    rw [hhome]; exact htile
  have hmiss : RingBusSimulator.find_cache_line s (256 * k) = none := by
    rw [find_cache_line_of_tile s _ tile htile0]
    have hnone : tile.cache_directory.findIdx?
        (fun l => l.cache_line_address == RingBusSimulator.cache_line_align s (256 * k)) = none := by
      rw [List.findIdx?_eq_none_iff]
      intro x hx
      have hxm : x.cache_line_address ∈ tile.cache_directory.map (fun line => line.cache_line_address) :=
        List.mem_map_of_mem _ hx
      rw [hdir] at hxm
      obtain ⟨j, hj, hje⟩ := List.mem_map.mp hxm
      have hjk : j < k := List.mem_range.mp hj
      rw [halign]
      simp only [beq_eq_false_iff_ne, ne_eq]
      omega
    rw [hnone]
    rfl
  have hacc : (RingBusSimulator.send_message s 0 0 (address_bytes (256 * k)) 8 0).1 = true :=
    send_message_accepts s 0 0 _ 8 0 node (by omega) (by omega) hnode (by rw [hocc, hbuf]; decide)
  obtain ⟨htiles, hcls1⟩ := send_message_state s 0 0 (address_bytes (256 * k)) 8 0 hacc
  have hd : (s.dtd_enabled && RingBusSimulator.is_memory_request (address_bytes (256 * k)) 8) = true := by
    rw [hen]; rfl
  rw [if_pos hd] at htiles
  have hco := send_message_dtd_coherent s 0 0 (address_bytes (256 * k)) 8
    (by rw [haddr]; exact dtd_check_coherency_miss s _ 0 hmiss)
  rw [hco.1, haddr, dtd_update_ownership_miss s (256 * k) 0 _ tile htile0 hmiss] at htiles
  obtain ⟨hcfg1, hen1⟩ := send_message_config s 0 0 (address_bytes (256 * k)) 8 0
  obtain ⟨m, hout, _⟩ := send_message_accepted s 0 0 (address_bytes (256 * k)) 8 0 hacc
  refine ⟨?_, ?_, ?_, ?_, ?_⟩
  · show (RingBusSimulator.send_message s 0 0 (address_bytes (256 * k)) 8 0).2.config = _
    rw [hcfg1, hcfg]
  · show (RingBusSimulator.send_message s 0 0 (address_bytes (256 * k)) 8 0).2.dtd_enabled = _
    rw [hen1, hen]
  · show (RingBusSimulator.send_message s 0 0 (address_bytes (256 * k)) 8 0).2.cache_line_size = _
    rw [hcls1, hcls]
  · unfold outbound_of at hout
    rw [hnode] at hout
    cases hn1 : (RingBusSimulator.send_message s 0 0 (address_bytes (256 * k)) 8 0).2.nodes[0]? with
    | none => rw [hn1] at hout; cases hout
    | some node1 =>
      refine ⟨{ node1 with
                inbound_queue := []
                outbound_queue := []
                buffer_occupancy := 0
                last_activity_time := 0
                messages_sent := 0
                messages_received := 0
                bytes_transmitted := 0
                contention_cycles := 0 }, ?_, rfl⟩
      show (List.map _ (RingBusSimulator.send_message s 0 0 (address_bytes (256 * k)) 8 0).2.nodes)[0]? = _
      rw [List.getElem?_map, hn1]
      rfl
  · show ∃ tile1, (RingBusSimulator.send_message s 0 0 (address_bytes (256 * k)) 8 0).2.dtd_tiles[0]?
        = some tile1 ∧ _
    rw [htiles, hhome]
    refine ⟨_, with_tile_getElem? s 0 tile _ htile, hsize, ?_⟩
    simp only [List.map_append, hdir, List.map_cons, List.map_nil, new_cache_line, halign]
    rw [List.range_succ, List.map_append]
    rfl

theorem fill_directory_inv (k : Nat) (hk : k ≤ 16777216) : fill_inv k (fill_directory k) := by
  induction k with
  | zero =>
    refine ⟨rfl, rfl, rfl, ⟨ring4_node0, by decide, rfl⟩, ?_⟩
    exact ⟨{ tile_id := 0, cache_directory := [], directory_size := 1024, snoop_requests := 0,
             invalidation_requests := 0, cache_misses := 0, cache_hits := 0 }, by decide, rfl, rfl⟩
  | succ k ih =>
    exact fill_inv_step k (by omega) _ (ih (by omega))

theorem fill_directory_reachable (k : Nat) : Reachable (fill_directory k) := by
  induction k with
  | zero => exact Reachable.init 4 knc_architecture_t.ARCH_KNC
  | succ k ih => exact Reachable.reset _ (Reachable.send _ 0 0 _ 8 0 ih)

/-- The buffers after an accepted `send_message`: the sender has `size` more
bytes (modulo 2^32), every other node is as before. -/
theorem send_message_occupancy (s : RingBusSimulator) (src dst : Nat) (data : List Nat)
    (size priority : Nat) (source0 : ring_bus_node_t) (hnode : s.nodes[src]? = some source0)
    (h : (RingBusSimulator.send_message s src dst data size priority).1 = true) :
    (∀ i, i ≠ src →
      (RingBusSimulator.send_message s src dst data size priority).2.nodes[i]? = s.nodes[i]?)
    ∧ ∃ node1, (RingBusSimulator.send_message s src dst data size priority).2.nodes[src]? = some node1
        ∧ node1.buffer_occupancy = (source0.buffer_occupancy + size) % 4294967296 := by
  have hlt : src < s.nodes.length := by
    rcases Nat.lt_or_ge src s.nodes.length with hl | hl
    · exact hl
    · rw [List.getElem?_eq_none hl] at hnode
      cases hnode
  unfold RingBusSimulator.send_message at h ⊢
  split at h
  · cases h
  · rename_i hv
    rw [if_neg hv]
    rw [hnode] at h
    simp only [hnode] at h ⊢
    split at h
    · cases h
    · rename_i hfull
      rw [if_neg hfull]
      by_cases hd : (s.dtd_enabled && RingBusSimulator.is_memory_request data size) = true
      · simp only [if_pos hd, send_message_dtd_nodes]
        constructor
        · intro i hi
          exact List.getElem?_set_ne (Ne.symm hi)
        · rw [List.getElem?_set_self hlt]
          exact ⟨_, rfl, rfl⟩
      · simp only [if_neg hd]
        constructor
        · intro i hi
          exact List.getElem?_set_ne (Ne.symm hi)
        · rw [List.getElem?_set_self hlt]
          exact ⟨_, rfl, rfl⟩

theorem sends_inv_step (k : Nat) (hk : k < 1152) (s : RingBusSimulator) (h : sends_inv k s) :
    sends_inv (k + 1)
      (RingBusSimulator.send_message s (k % 9) 0 (address_bytes (576 * k)) 8 0).2 := by
  obtain ⟨hcfg, hen, hcls, hnodes, tile, htile, hsize, hdir⟩ := h
  have hN : s.config.num_nodes = 9 := by rw [hcfg]; rfl
  have hbuf : s.config.buffer_size = 1024 := by rw [hcfg]; rfl
  have haddr := extract_address_bytes (576 * k) (by omega)
  have hhome : RingBusSimulator.get_dtd_home_node s (576 * k) = 0 := by
    unfold RingBusSimulator.get_dtd_home_node
    rw [hN]
    omega
  have halign : RingBusSimulator.cache_line_align s (576 * k) = 576 * k := by
    rw [cache_line_align_eq s _ hcls]
    omega
  have htile0 : s.dtd_tiles[RingBusSimulator.get_dtd_home_node s (576 * k)]? = some tile := by
    rw [hhome]; exact htile
  have hmiss : RingBusSimulator.find_cache_line s (576 * k) = none := by
    rw [find_cache_line_of_tile s _ tile htile0]
    have hnone : tile.cache_directory.findIdx?
        (fun l => l.cache_line_address == RingBusSimulator.cache_line_align s (576 * k)) = none := by
      rw [List.findIdx?_eq_none_iff]
      intro x hx
      have hxm : x.cache_line_address ∈ tile.cache_directory.map (fun line => line.cache_line_address) :=
        List.mem_map_of_mem _ hx
      rw [hdir] at hxm
      obtain ⟨j, hj, hje⟩ := List.mem_map.mp hxm
      have hjk : j < k := List.mem_range.mp hj
      rw [halign]
      simp only [beq_eq_false_iff_ne, ne_eq]
      omega
    rw [hnone]
    rfl
  have hsrc9 : k % 9 < 9 := Nat.mod_lt _ (by decide)
  obtain ⟨node, hnode, hocc⟩ := hnodes (k % 9) hsrc9
  have hacc : (RingBusSimulator.send_message s (k % 9) 0 (address_bytes (576 * k)) 8 0).1 = true :=
    send_message_accepts s (k % 9) 0 _ 8 0 node (by omega) (by omega) hnode
      (by rw [hocc, hbuf]; omega)
  obtain ⟨htiles, hcls1⟩ := send_message_state s (k % 9) 0 (address_bytes (576 * k)) 8 0 hacc
  have hd : (s.dtd_enabled && RingBusSimulator.is_memory_request (address_bytes (576 * k)) 8) = true := by
    rw [hen]; rfl
  rw [if_pos hd] at htiles
  have hco := send_message_dtd_coherent s (k % 9) 0 (address_bytes (576 * k)) 8
    (by rw [haddr]; exact dtd_check_coherency_miss s _ _ hmiss)
  rw [hco.1, haddr, dtd_update_ownership_miss s (576 * k) (k % 9) _ tile htile0 hmiss] at htiles
  obtain ⟨hcfg1, hen1⟩ := send_message_config s (k % 9) 0 (address_bytes (576 * k)) 8 0
  obtain ⟨hother, node1, hnode1, hocc1⟩ :=
    send_message_occupancy s (k % 9) 0 (address_bytes (576 * k)) 8 0 node hnode hacc
  refine ⟨?_, ?_, ?_, ?_, ?_⟩
  · rw [hcfg1, hcfg]
  · rw [hen1, hen]
  · rw [hcls1, hcls]
  · intro i hi
    by_cases hik : i = k % 9
    · refine ⟨node1, ?_, ?_⟩
      · rw [hik]; exact hnode1
      · rw [hocc1, hocc, hik]
        omega
    · obtain ⟨nodei, hnodei, hocci⟩ := hnodes i hi
      refine ⟨nodei, ?_, ?_⟩
      · rw [hother i hik]; exact hnodei
      · rw [hocci]
        omega
  · rw [htiles, hhome]
    refine ⟨_, with_tile_getElem? s 0 tile _ htile, hsize, ?_⟩
    simp only [List.map_append, hdir, List.map_cons, List.map_nil, new_cache_line, halign]
    rw [List.range_succ, List.map_append]
    rfl

theorem fill_by_sends_inv (k : Nat) (hk : k ≤ 1152) : sends_inv k (fill_by_sends k) := by
  induction k with
  | zero =>
    refine ⟨rfl, rfl, rfl, ?_, ?_⟩
    · intro i hi
      interval_cases i <;> exact ⟨_, rfl, rfl⟩
    · exact ⟨{ tile_id := 0, cache_directory := [], directory_size := 1024, snoop_requests := 0,
               invalidation_requests := 0, cache_misses := 0, cache_hits := 0 }, by decide, rfl, rfl⟩
  | succ k ih =>
    exact sends_inv_step k (by omega) _ (ih (by omega))

theorem fill_by_sends_reachable (k : Nat) : Reachable (fill_by_sends k) := by
  induction k with
  | zero => exact Reachable.init 9 knc_architecture_t.ARCH_KNC
  | succ k ih => exact Reachable.send _ (k % 9) 0 _ 8 0 ih

/-- C29 (failing input): on the 9-node ring 1152 sends and nothing else, send
`j` an 8-byte memory request of tile `j mod 9` for the new line `576 * j` whose
home is tile 0: every send is accepted (each tile sends 128 times 8 bytes, its
buffer of 1024 bytes) and the directory of tile 0 then holds 1152 records, more
than its `directory_size` of 1024.  On the 4-node ring the same happens after
1025 rounds of one such send of tile 0 followed by `reset_simulation`, which
leaves the directories alone. -/
theorem C29_directory_exceeds_directory_size :
    (Reachable (fill_by_sends 1152)
      ∧ ∃ tile, (fill_by_sends 1152).dtd_tiles[0]? = some tile
          ∧ tile.directory_size = 1024
          ∧ tile.cache_directory.length = 1152)
    ∧ (Reachable (fill_directory 1025)
      ∧ ∃ tile, (fill_directory 1025).dtd_tiles[0]? = some tile
          ∧ tile.directory_size = 1024
          ∧ tile.cache_directory.length = 1025) := by
  constructor
  · refine ⟨fill_by_sends_reachable 1152, ?_⟩
    obtain ⟨_, _, _, _, tile, htile, hsize, hdir⟩ := fill_by_sends_inv 1152 (by decide)
    refine ⟨tile, htile, hsize, ?_⟩
    have := congrArg List.length hdir
    simpa using this
  · refine ⟨fill_directory_reachable 1025, ?_⟩
    obtain ⟨_, _, _, _, tile, htile, hsize, hdir⟩ := fill_directory_inv 1025 (by decide)
    refine ⟨tile, htile, hsize, ?_⟩
    have := congrArg List.length hdir
    simpa using this

end

/-! ## Next hop of the routing table (C31) -/

section
open RingBusSimulator

/-- After `initialize()` the routing table holds `routing_entry` at every
position. -/
theorem get_next_hop_init (N : Nat) (arch : knc_architecture_t) (i j : Nat)
    (hi : i < N) (hj : j < N) :
    RingBusSimulator.get_next_hop
        (RingBusSimulator.init_simulator (RingBusSimulator.construct N arch)) i j
      = RingBusSimulator.routing_entry N i j := by
  unfold RingBusSimulator.get_next_hop
  have hcfg : (RingBusSimulator.init_simulator (RingBusSimulator.construct N arch)).config.num_nodes
      = N := rfl
  have htab : (RingBusSimulator.init_simulator (RingBusSimulator.construct N arch)).routing_table
      = (List.range N).map (fun i =>
          (List.range N).map (fun j => RingBusSimulator.routing_entry N i j)) := rfl
  rw [hcfg, htab, if_pos ⟨hi, hj⟩]
  rw [List.getElem?_map, List.getElem?_range hi]
  simp only [Option.map_some']
  rw [List.getD_eq_getElem?_getD, List.getElem?_map, List.getElem?_range hj]
  rfl

theorem routing_entry_cases (N i j : Nat) (hN : N < 2147483648) (hi : i < N) (hj : j < N)
    (hij : i ≠ j) :
    RingBusSimulator.routing_entry N i j
      = if (if j < i then i - j else N - (j - i)) < (if i < j then j - i else N - (i - j))
        then (if i = 0 then N - 1 else i - 1)
        else (if i + 1 = N then 0 else i + 1) := by
  unfold RingBusSimulator.routing_entry
  rw [if_neg hij]
  have hcw : (((j + 4294967296 - i) % 4294967296 + N) % 4294967296) % N
      = if i < j then j - i else N - (i - j) := by
    split
    · have h1 : (j + 4294967296 - i) % 4294967296 = j - i := by omega
      rw [h1]
      have h2 : (j - i + N) % 4294967296 = j - i + N := by omega
      rw [h2, Nat.add_mod_right]
      exact Nat.mod_eq_of_lt (by omega)
    · have h1 : (j + 4294967296 - i) % 4294967296 = 4294967296 - (i - j) := by omega
      rw [h1]
      have h2 : (4294967296 - (i - j) + N) % 4294967296 = N - (i - j) := by omega
      rw [h2]
      exact Nat.mod_eq_of_lt (by omega)
  have hccw : (((i + 4294967296 - j) % 4294967296 + N) % 4294967296) % N
      = if j < i then i - j else N - (j - i) := by
    split
    · have h1 : (i + 4294967296 - j) % 4294967296 = i - j := by omega
      rw [h1]
      have h2 : (i - j + N) % 4294967296 = i - j + N := by omega
      rw [h2, Nat.add_mod_right]
      exact Nat.mod_eq_of_lt (by omega)
    · have h1 : (i + 4294967296 - j) % 4294967296 = 4294967296 - (j - i) := by omega
      rw [h1]
      have h2 : (4294967296 - (j - i) + N) % 4294967296 = N - (j - i) := by omega
      rw [h2]
      exact Nat.mod_eq_of_lt (by omega)
  have hprev : (((i + 4294967295) % 4294967296 + N) % 4294967296) % N
      = if i = 0 then N - 1 else i - 1 := by
    split
    · rename_i h0
      subst h0
      have h2 : ((0 + 4294967295) % 4294967296 + N) % 4294967296 = N - 1 := by omega
      rw [h2]
      exact Nat.mod_eq_of_lt (by omega)
    · have h1 : (i + 4294967295) % 4294967296 = i - 1 := by omega
      rw [h1]
      have h2 : (i - 1 + N) % 4294967296 = i - 1 + N := by omega
      rw [h2, Nat.add_mod_right]
      exact Nat.mod_eq_of_lt (by omega)
  have hnext : ((i + 1) % 4294967296) % N = if i + 1 = N then 0 else i + 1 := by
    have h1 : (i + 1) % 4294967296 = i + 1 := by omega
    rw [h1]
    split
    · rename_i h; rw [h]; exact Nat.mod_self N
    · exact Nat.mod_eq_of_lt (by omega)
  simp only [hcw, hccw, hprev, hnext]

/-- The ring distance as a case distinction over natural numbers. -/
theorem calculate_distance_cases (s : RingBusSimulator) (i j : Nat)
    (hN : s.config.num_nodes < 2147483648) (hi : i < s.config.num_nodes)
    (hj : j < s.config.num_nodes) :
    RingBusSimulator.calculate_distance s i j
      = if i ≤ j then (if j - i ≤ s.config.num_nodes - (j - i) then j - i
                        else s.config.num_nodes - (j - i))
        else (if i - j ≤ s.config.num_nodes - (i - j) then i - j
              else s.config.num_nodes - (i - j)) := by
  have h := calculate_distance_formula s i j hN hi hj
  have : (RingBusSimulator.calculate_distance s i j : Int)
      = ((if i ≤ j then (if j - i ≤ s.config.num_nodes - (j - i) then j - i
                        else s.config.num_nodes - (j - i))
        else (if i - j ≤ s.config.num_nodes - (i - j) then i - j
              else s.config.num_nodes - (i - j)) : Nat) : Int) := by
    rw [h]
    by_cases hle : i ≤ j
    · rw [if_pos hle, abs_of_nonpos (by omega)]
      by_cases h2 : j - i ≤ s.config.num_nodes - (j - i)
      · rw [if_pos h2, min_eq_left (by omega)]; omega
      · rw [if_neg h2, min_eq_right (by omega)]; omega
    · rw [if_neg hle, abs_of_nonneg (by omega)]
      by_cases h2 : i - j ≤ s.config.num_nodes - (i - j)
      · rw [if_pos h2, min_eq_left (by omega)]; omega
      · rw [if_neg h2, min_eq_right (by omega)]; omega
  exact_mod_cast this

theorem ring_mod (N a b : Nat) (ha : a < N) (hb : b < N) :
    (b + N - a) % N = if a ≤ b then b - a else N - (a - b) := by
  split
  · have h : b + N - a = b - a + N := by omega
    rw [h, Nat.add_mod_right]
    exact Nat.mod_eq_of_lt (by omega)
  · have h : b + N - a = N - (a - b) := by omega
    rw [h]
    exact Nat.mod_eq_of_lt (by omega)

theorem succ_mod_cases (N i : Nat) (hi : i < N) :
    (i + 1) % N = if i + 1 = N then 0 else i + 1 := by
  split
  · rename_i h; rw [h]; exact Nat.mod_self N
  · exact Nat.mod_eq_of_lt (by omega)

theorem pred_mod_cases (N i : Nat) (hi : i < N) :
    (i + N - 1) % N = if i = 0 then N - 1 else i - 1 := by
  split
  · rename_i h
    subst h
    rw [Nat.zero_add]
    exact Nat.mod_eq_of_lt (by omega)
  · have h : i + N - 1 = i - 1 + N := by omega
    rw [h, Nat.add_mod_right]
    exact Nat.mod_eq_of_lt (by omega)

theorem routing_entry_lt (N i j : Nat) (hN : N < 2147483648) (hi : i < N) (hj : j < N) :
    RingBusSimulator.routing_entry N i j < N := by
  by_cases hij : i = j
  · unfold RingBusSimulator.routing_entry
    rw [if_pos hij]
    exact hi
  · rw [routing_entry_cases N i j hN hi hj hij]
    split_ifs <;> omega

theorem init_simulator_num_nodes (N : Nat) (arch : knc_architecture_t) :
    (RingBusSimulator.init_simulator (RingBusSimulator.construct N arch)).config.num_nodes
      = N := rfl

/-- The next hop towards another node is one hop nearer to it. -/
theorem routing_entry_nearer (s : RingBusSimulator) (N i j : Nat)
    (hs : s.config.num_nodes = N) (hN : N < 2147483648) (hi : i < N) (hj : j < N)
    (hij : i ≠ j) :
    RingBusSimulator.calculate_distance s (RingBusSimulator.routing_entry N i j) j + 1
      = RingBusSimulator.calculate_distance s i j := by
  have hlt := routing_entry_lt N i j hN hi hj
  have hr := routing_entry_cases N i j hN hi hj hij
  rw [calculate_distance_cases s _ j (by rw [hs]; exact hN) (by rw [hs]; exact hlt)
      (by rw [hs]; exact hj),
    calculate_distance_cases s i j (by rw [hs]; exact hN) (by rw [hs]; exact hi)
      (by rw [hs]; exact hj), hs]
  generalize RingBusSimulator.routing_entry N i j = r at hr hlt ⊢
  split_ifs at hr <;> split_ifs <;> omega

theorem routing_entry_clockwise (N i j : Nat) (hN : N < 2147483648) (hi : i < N) (hj : j < N)
    (hij : i ≠ j) (hle : (j + N - i) % N ≤ (i + N - j) % N) :
    RingBusSimulator.routing_entry N i j = (i + 1) % N := by
  have hr := routing_entry_cases N i j hN hi hj hij
  rw [succ_mod_cases N i hi]
  rw [ring_mod N i j hi hj, ring_mod N j i hj hi] at hle
  generalize RingBusSimulator.routing_entry N i j = r at hr ⊢
  split_ifs at hr hle ⊢ <;> omega

theorem routing_entry_counter_clockwise (N i j : Nat) (hN : N < 2147483648) (hi : i < N)
    (hj : j < N) (hij : i ≠ j) (hlt : (i + N - j) % N < (j + N - i) % N) :
    RingBusSimulator.routing_entry N i j = (i + N - 1) % N := by
  have hr := routing_entry_cases N i j hN hi hj hij
  rw [pred_mod_cases N i hi]
  rw [ring_mod N i j hi hj, ring_mod N j i hj hi] at hlt
  generalize RingBusSimulator.routing_entry N i j = r at hr ⊢
  split_ifs at hr hlt ⊢ <;> omega

/-- C31: after `initialize()` on a ring of `N < 2^31` nodes, for all nodes
`i, j < N`: the next hop is a node of the ring; for `i ≠ j` it is one hop
nearer to `j` than `i` is; it is `(i + 1) mod N` unless the counter-clockwise
distance `(i - j) mod N` is strictly smaller than the clockwise distance
`(j - i) mod N` (in particular when the two are equal), and `(i - 1) mod N`
otherwise; and `get_next_hop(i, i) = i`.  The bound on `N` holds of every ring
`initialize()` can build: its routing table has `N × N` 32-bit entries, which
for `N = 2^31` is `2^64` bytes. -/
theorem C31_next_hop (N : Nat) (arch : knc_architecture_t) (i j : Nat)
    (hN : N < 2147483648) (hi : i < N) (hj : j < N) :
    RingBusSimulator.get_next_hop
        (RingBusSimulator.init_simulator (RingBusSimulator.construct N arch)) i j < N
    ∧ (i ≠ j →
        RingBusSimulator.calculate_distance
            (RingBusSimulator.init_simulator (RingBusSimulator.construct N arch))
            (RingBusSimulator.get_next_hop
              (RingBusSimulator.init_simulator (RingBusSimulator.construct N arch)) i j) j + 1
          = RingBusSimulator.calculate_distance
              (RingBusSimulator.init_simulator (RingBusSimulator.construct N arch)) i j)
    ∧ (i ≠ j → (j + N - i) % N ≤ (i + N - j) % N →
        RingBusSimulator.get_next_hop
            (RingBusSimulator.init_simulator (RingBusSimulator.construct N arch)) i j
          = (i + 1) % N)
    ∧ (i ≠ j → (i + N - j) % N < (j + N - i) % N →
        RingBusSimulator.get_next_hop
            (RingBusSimulator.init_simulator (RingBusSimulator.construct N arch)) i j
          = (i + N - 1) % N)
    ∧ RingBusSimulator.get_next_hop
        (RingBusSimulator.init_simulator (RingBusSimulator.construct N arch)) i i = i := by
  refine ⟨?_, ?_, ?_, ?_, ?_⟩
  · rw [get_next_hop_init N arch i j hi hj]
    exact routing_entry_lt N i j hN hi hj
  · intro hij
    rw [get_next_hop_init N arch i j hi hj]
    exact routing_entry_nearer _ N i j (init_simulator_num_nodes N arch) hN hi hj hij
  · intro hij hle
    rw [get_next_hop_init N arch i j hi hj]
    exact routing_entry_clockwise N i j hN hi hj hij hle
  · intro hij hlt2
    rw [get_next_hop_init N arch i j hi hj]
    exact routing_entry_counter_clockwise N i j hN hi hj hij hlt2
  · rw [get_next_hop_init N arch i i hi hi]
    unfold RingBusSimulator.routing_entry
    rw [if_pos rfl]

/-- C31 (witness): the 15-tile KNC ring, from node 2 to node 13. -/
theorem C31_next_hop_witness :
    RingBusSimulator.get_next_hop
        (RingBusSimulator.init_simulator
          (RingBusSimulator.construct 15 knc_architecture_t.ARCH_KNC)) 2 13 < 15
    ∧ RingBusSimulator.calculate_distance
        (RingBusSimulator.init_simulator
          (RingBusSimulator.construct 15 knc_architecture_t.ARCH_KNC))
        (RingBusSimulator.get_next_hop
          (RingBusSimulator.init_simulator
            (RingBusSimulator.construct 15 knc_architecture_t.ARCH_KNC)) 2 13) 13 + 1
      = RingBusSimulator.calculate_distance
          (RingBusSimulator.init_simulator
            (RingBusSimulator.construct 15 knc_architecture_t.ARCH_KNC)) 2 13
    ∧ RingBusSimulator.get_next_hop
        (RingBusSimulator.init_simulator
          (RingBusSimulator.construct 15 knc_architecture_t.ARCH_KNC)) 2 13
      = (2 + 15 - 1) % 15 :=
  have h := C31_next_hop 15 knc_architecture_t.ARCH_KNC 2 13 (by decide) (by decide) (by decide)
  ⟨h.1, h.2.1 (by decide), h.2.2.2.1 (by decide) (by decide)⟩

end

/-! ## Memory read by the worker loop (C32) -/

section
open KNCRuntime

theorem edge_runtime_reachable : KNCRuntime.Reachable edge_runtime := by
  have h0 : KNCRuntime.Reachable (run_begin (load_program small_runtime edge_program 16).2).2 :=
    KNCRuntime.Reachable.step _ _
      (KNCRuntime.Reachable.step _ _
        (KNCRuntime.Reachable.step _ _ (KNCRuntime.Reachable.construct 2 16 knc_architecture_t.ARCH_KNC)
          (KNCRuntime.Step.init _))
        (KNCRuntime.Step.load_program _ edge_program 16))
      (KNCRuntime.Step.run_begin _)
  have hgen : ∀ (l : List Nat) (rt : KNCRuntime), KNCRuntime.Reachable rt →
      KNCRuntime.Reachable (run_schedule rt l) := by
    intro l
    induction l with
    | nil => intro rt h; exact h
    | cons c l ih =>
      intro rt h
      exact ih _ (KNCRuntime.Reachable.step _ _ h (KNCRuntime.Step.execute_core_step rt c))
  exact hgen _ _ h0

theorem execute_instruction_no_memory_access_error (rt : KNCRuntime) (core : knc_core_state_t)
    (instruction : Nat) :
    (execute_instruction rt core instruction).1 ≠ knc_error_t.KNC_ERROR_MEMORY_ACCESS := by
  unfold execute_instruction handle_system_call syscall_exit syscall_write syscall_read
  simp only []
  split_ifs <;> simp

/-- C32 (failing inputs): in a runtime of 16 bytes, (1) core 0 reaches
`rip = 15` by executing fifteen NOPs; the byte there is `0x0F`, so
`execute_instruction` also reads `instruction[1]` at index 16, outside the
backing array; (2) a core that issues `write(1, 8, 16)` makes `syscall_write`
read the indices 8 to 23, the system call succeeds and returns 16.  No path of
`execute_instruction` returns the memory-access error. -/
theorem C32_reads_beyond_memory_size :
    edge_runtime.memory_size = 16
    ∧ KNCRuntime.Reachable edge_runtime
    ∧ (edge_runtime.core_states[0]?).map (fun core => (core.registers.rip, core.is_halted))
        = some (15, false)
    ∧ execute_core_condition edge_runtime 0 = true
    ∧ execute_core_body_reads edge_runtime 0 = [15, 16]
    ∧ write_runtime.memory_size = 16
    ∧ execute_core_condition write_runtime 0 = true
    ∧ execute_core_body_reads write_runtime 0
        = [0, 1, 8, 9, 10, 11, 12, 13, 14, 15, 16, 17, 18, 19, 20, 21, 22, 23]
    ∧ (execute_instruction write_runtime write_core 0).1 = knc_error_t.KNC_SUCCESS
    ∧ (execute_instruction write_runtime write_core 0).2.1.registers.gpr.getD 0 0 = 16
    ∧ ∀ (rt : KNCRuntime) (core : knc_core_state_t) (instruction : Nat),
        (execute_instruction rt core instruction).1 ≠ knc_error_t.KNC_ERROR_MEMORY_ACCESS :=
  ⟨rfl, edge_runtime_reachable, by decide, by decide, by decide, rfl, by decide, by decide,
    by decide, by decide, execute_instruction_no_memory_access_error⟩

end

/-! ## System calls read and write (C33) -/

section
open KNCRuntime

/-- C33: for every runtime state and every core (with its 16 general-purpose
registers).  The system call number is read from `gpr[0]`: on the bytes
`0F 05` `execute_instruction` dispatches on it.  System call 1 (write) and
system call 0 (read) return the runtime state unchanged (no memory byte is
modified) and the core unchanged except for `gpr[0]`, which becomes `count`
(write, `fd = 1`), `0` (read, `fd = 0`) or `2^64 - 1` (any other `fd`); every
other general-purpose register, the vector and mask registers, `rip` and
`rflags` keep their values. -/
theorem C33_syscall_read_write (rt : KNCRuntime) (core : knc_core_state_t)
    (hlen : core.registers.gpr.length = 16) :
    (∀ instruction, rt.memory instruction = 15 → rt.memory (instruction + 1) = 5 →
        (core.registers.gpr.getD 0 0 = 1 →
          execute_instruction rt core instruction = handle_system_call rt core 1)
        ∧ (core.registers.gpr.getD 0 0 = 0 →
          execute_instruction rt core instruction = handle_system_call rt core 0))
    ∧ (handle_system_call rt core 1).2.2 = rt
    ∧ (handle_system_call rt core 0).2.2 = rt
    ∧ (handle_system_call rt core 1).2.1
        = { core with registers := { core.registers with
              gpr := core.registers.gpr.set 0
                (if core.registers.gpr.getD 1 0 = 1 then core.registers.gpr.getD 3 0
                 else 18446744073709551615) } }
    ∧ (handle_system_call rt core 0).2.1
        = { core with registers := { core.registers with
              gpr := core.registers.gpr.set 0
                (if core.registers.gpr.getD 1 0 = 0 then 0 else 18446744073709551615) } }
    ∧ (handle_system_call rt core 1).2.1.registers.gpr.getD 0 0
        = (if core.registers.gpr.getD 1 0 = 1 then core.registers.gpr.getD 3 0
           else 18446744073709551615)
    ∧ (handle_system_call rt core 0).2.1.registers.gpr.getD 0 0
        = (if core.registers.gpr.getD 1 0 = 0 then 0 else 18446744073709551615)
    ∧ (∀ i, i ≠ 0 →
        (handle_system_call rt core 1).2.1.registers.gpr.getD i 0 = core.registers.gpr.getD i 0
        ∧ (handle_system_call rt core 0).2.1.registers.gpr.getD i 0
            = core.registers.gpr.getD i 0) := by
  have hw : (handle_system_call rt core 1).2.1
        = { core with registers := { core.registers with
              gpr := core.registers.gpr.set 0
                (if core.registers.gpr.getD 1 0 = 1 then core.registers.gpr.getD 3 0
                 else 18446744073709551615) } } := by
    unfold handle_system_call syscall_write
    simp only [show ¬ ((1 : Nat) = 60) by decide, if_false, if_true]
    split_ifs <;> rfl
  have hr : (handle_system_call rt core 0).2.1
        = { core with registers := { core.registers with
              gpr := core.registers.gpr.set 0
                (if core.registers.gpr.getD 1 0 = 0 then 0 else 18446744073709551615) } } := by
    unfold handle_system_call syscall_read
    simp only [show ¬ ((0 : Nat) = 60) by decide, show ¬ ((0 : Nat) = 1) by decide, if_false,
      if_true]
    split_ifs <;> rfl
  have hpos : 0 < core.registers.gpr.length := by omega
  refine ⟨?_, ?_, ?_, hw, hr, ?_, ?_, ?_⟩
  · intro instruction h0 h1
    constructor
    · intro hg
      unfold execute_instruction
      rw [if_pos ⟨h0, h1⟩, hg]
    · intro hg
      unfold execute_instruction
      rw [if_pos ⟨h0, h1⟩, hg]
  · unfold handle_system_call syscall_write
    simp only [show ¬ ((1 : Nat) = 60) by decide, if_false, if_true]
    split_ifs <;> rfl
  · unfold handle_system_call syscall_read
    simp only [show ¬ ((0 : Nat) = 60) by decide, show ¬ ((0 : Nat) = 1) by decide, if_false,
      if_true]
    split_ifs <;> rfl
  · rw [hw]
    simp only [List.getD_eq_getElem?_getD, List.getElem?_set_self hpos, Option.getD_some]
  · rw [hr]
    simp only [List.getD_eq_getElem?_getD, List.getElem?_set_self hpos, Option.getD_some]
  · intro i hi
    rw [hw, hr]
    simp only [List.getD_eq_getElem?_getD, List.getElem?_set_ne (Ne.symm hi)]
    exact ⟨trivial, trivial⟩

/-- C33 (witness): the core that issues `write(1, 8, 16)`. -/
theorem C33_syscall_read_write_witness :
    write_core.registers.gpr.length = 16
    ∧ (handle_system_call write_runtime write_core 1).2.1.registers.gpr.getD 0 0 = 16
    ∧ (handle_system_call write_runtime write_core 0).2.1.registers.gpr.getD 0 0
        = 18446744073709551615 :=
  have h := C33_syscall_read_write write_runtime write_core (by decide)
  ⟨by decide, h.2.2.2.2.2.1, h.2.2.2.2.2.2.1⟩

end

/-! ## Direct-mapped translation cache (C34) -/

section
open KNCInstructionTranslator

/-- What one call of `translate_instruction` does to the cache and the two
counters: afterwards the slot of the PC holds a valid entry for that PC, no
other slot has changed, and exactly one of `cache_hits` and `cache_misses` has
grown by 1, according to whether the slot held a valid entry for the PC. -/
theorem translate_instruction_effect (t : KNCInstructionTranslator) (address : Nat)
    (instruction_bytes : List Nat) (decoded_length indeterminate_length : Nat)
    (hc : t.translation_cache.length = CACHE_SIZE) :
    (translate_instruction t address instruction_bytes decoded_length
        indeterminate_length).2.translation_cache.length = CACHE_SIZE
    ∧ (∃ e, (translate_instruction t address instruction_bytes decoded_length
          indeterminate_length).2.translation_cache[get_cache_index address]? = some e
        ∧ e.is_valid = true ∧ e.original_address = address)
    ∧ (∀ index, index ≠ get_cache_index address →
        (translate_instruction t address instruction_bytes decoded_length
          indeterminate_length).2.translation_cache[index]? = t.translation_cache[index]?)
    ∧ (∀ e, t.translation_cache[get_cache_index address]? = some e →
        (e.is_valid = true ∧ e.original_address = address →
          (translate_instruction t address instruction_bytes decoded_length
              indeterminate_length).2.cache_hits = t.cache_hits + 1
          ∧ (translate_instruction t address instruction_bytes decoded_length
              indeterminate_length).2.cache_misses = t.cache_misses)
        ∧ (¬ (e.is_valid = true ∧ e.original_address = address) →
          (translate_instruction t address instruction_bytes decoded_length
              indeterminate_length).2.cache_misses = t.cache_misses + 1
          ∧ (translate_instruction t address instruction_bytes decoded_length
              indeterminate_length).2.cache_hits = t.cache_hits)) := by
  obtain ⟨entry, he⟩ := cache_entry_of_length t address hc
  have hlt : get_cache_index address < t.translation_cache.length := by
    rw [hc]
    exact Nat.mod_lt _ (by decide)
  by_cases hhit : entry.is_valid = true ∧ entry.original_address = address
  · rw [translate_instruction_hit t address instruction_bytes decoded_length
      indeterminate_length entry he hhit]
    refine ⟨?_, ?_, ?_, ?_⟩
    · simp only [List.length_set]
      exact hc
    · refine ⟨{ entry with access_count := (entry.access_count + 1) % 4294967296 }, ?_,
        hhit.1, hhit.2⟩
      simp only [List.getElem?_set_self hlt]
    · intro index hne
      simp only [List.getElem?_set_ne (Ne.symm hne)]
    · intro e hee
      rw [he] at hee
      cases hee
      exact ⟨fun _ => ⟨rfl, rfl⟩, fun hn => absurd hhit hn⟩
  · rw [translate_instruction_miss t address instruction_bytes decoded_length
      indeterminate_length entry he hhit]
    refine ⟨?_, ?_, ?_, ?_⟩
    · simp only [List.length_set]
      exact hc
    · simp only [List.getElem?_set_self hlt]
      exact ⟨_, rfl, rfl, rfl⟩
    · intro index hne
      simp only [List.getElem?_set_ne (Ne.symm hne)]
    · intro e hee
      rw [he] at hee
      cases hee
      exact ⟨fun hy => absurd hy hhit, fun _ => ⟨rfl, rfl⟩⟩

/-- C34: the translation cache is direct-mapped with index
`(pc >> 4) mod 16384` and unconditional replacement: for every translator state
with the cache of 16384 entries, all PCs `p ≠ q` and whatever bytes and lengths
the three calls see, after `translate_instruction(p, ·)` and
`translate_instruction(q, ·)` the call `translate_instruction(p, ·)` is a miss
(`cache_misses + 1`, `cache_hits` unchanged) when `p` and `q` have the same
index, and a hit (`cache_hits + 1`, `cache_misses` unchanged) when their
indices differ. -/
theorem C34_direct_mapped_cache (t : KNCInstructionTranslator) (p q : Nat)
    (c1 c2 c3 : translate_call)
    (hc : t.translation_cache.length = 16384) (hpq : p ≠ q)
    (h1 : c1.address = p) (h2 : c2.address = q) (h3 : c3.address = p) :
    get_cache_index p = (p >>> 4) % 16384
    ∧ (get_cache_index p = get_cache_index q →
        (run_calls t [c1, c2, c3]).cache_misses = (run_calls t [c1, c2]).cache_misses + 1
        ∧ (run_calls t [c1, c2, c3]).cache_hits = (run_calls t [c1, c2]).cache_hits)
    ∧ (get_cache_index p ≠ get_cache_index q →
        (run_calls t [c1, c2, c3]).cache_hits = (run_calls t [c1, c2]).cache_hits + 1
        ∧ (run_calls t [c1, c2, c3]).cache_misses = (run_calls t [c1, c2]).cache_misses) := by
  subst h1 h2
  have e1 := translate_instruction_effect t c1.address c1.instruction_bytes c1.decoded_length
    c1.indeterminate_length hc
  obtain ⟨hl1, ⟨ent1, hent1, hv1, ha1⟩, _, _⟩ := e1
  have e2 := translate_instruction_effect
    (translate_instruction t c1.address c1.instruction_bytes c1.decoded_length
      c1.indeterminate_length).2
    c2.address c2.instruction_bytes c2.decoded_length c2.indeterminate_length hl1
  obtain ⟨hl2, ⟨ent2, hent2, hv2, ha2⟩, hoth2, _⟩ := e2
  have e3 := translate_instruction_effect
    (translate_instruction
      (translate_instruction t c1.address c1.instruction_bytes c1.decoded_length
        c1.indeterminate_length).2
      c2.address c2.instruction_bytes c2.decoded_length c2.indeterminate_length).2
    c3.address c3.instruction_bytes c3.decoded_length c3.indeterminate_length hl2
  obtain ⟨_, _, _, hcount⟩ := e3
  rw [h3] at hcount
  refine ⟨?_, ?_, ?_⟩
  · unfold get_cache_index
    rw [Nat.shiftRight_eq_div_pow]
    rfl
  · intro hidx
    rw [hidx] at hcount
    have hmiss := (hcount ent2 hent2).2 (fun h => hpq (h.2.symm.trans ha2))
    simp only [run_calls, List.foldl, h3]
    exact hmiss
  · intro hidx
    have hkeep := hoth2 (get_cache_index c1.address) hidx
    rw [hent1] at hkeep
    have hhit := (hcount ent1 hkeep).1 ⟨hv1, ha1⟩
    simp only [run_calls, List.foldl, h3]
    exact hhit

/-- C34 (witness): from the constructed translator, the PCs `0x1000` and
`0x1001` share a slot and the PCs `0x1000` and `0x1010` do not. -/
theorem C34_direct_mapped_cache_witness :
    ((run_calls KNCInstructionTranslator.construct
        [⟨4096, [144], 1, 0⟩, ⟨4097, [144], 1, 0⟩, ⟨4096, [144], 1, 0⟩]).cache_misses
      = (run_calls KNCInstructionTranslator.construct
          [⟨4096, [144], 1, 0⟩, ⟨4097, [144], 1, 0⟩]).cache_misses + 1)
    ∧ ((run_calls KNCInstructionTranslator.construct
        [⟨4096, [144], 1, 0⟩, ⟨4112, [144], 1, 0⟩, ⟨4096, [144], 1, 0⟩]).cache_hits
      = (run_calls KNCInstructionTranslator.construct
          [⟨4096, [144], 1, 0⟩, ⟨4112, [144], 1, 0⟩]).cache_hits + 1) :=
  ⟨((C34_direct_mapped_cache KNCInstructionTranslator.construct 4096 4097
        ⟨4096, [144], 1, 0⟩ ⟨4097, [144], 1, 0⟩ ⟨4096, [144], 1, 0⟩
        (List.length_replicate _ _) (by decide) rfl rfl rfl).2.1 (by decide)).1,
    ((C34_direct_mapped_cache KNCInstructionTranslator.construct 4096 4112
        ⟨4096, [144], 1, 0⟩ ⟨4112, [144], 1, 0⟩ ⟨4096, [144], 1, 0⟩
        (List.length_replicate _ _) (by decide) rfl rfl rfl).2.2 (by decide)).1⟩

end

/-! ## Translation of vector instructions (C35, C39) -/

section
open KNCInstructionTranslator

/-- The record `translate_vector_instruction` returns depends on the context
through `knc_type` alone. -/
theorem translate_vector_instruction_type (ctx : knc_translation_context_t)
    (indeterminate_length : Nat) :
    translate_vector_instruction ctx indeterminate_length
      = translate_vector_instruction (vector_context ctx.knc_type) indeterminate_length := rfl

theorem translate_vector_instruction_known_length (knc_type : Nat)
    (indeterminate_length : Nat) (h : knc_type ∈ known_vector_types) :
    translate_vector_instruction (vector_context knc_type) indeterminate_length
      = translate_vector_instruction (vector_context knc_type) 0 := by
  simp only [known_vector_types, List.mem_cons, List.mem_singleton, List.not_mem_nil,
    or_false] at h
  rcases h with h | h | h | h | h | h | h | h | h | h <;> subst h <;> rfl

theorem translate_vector_instruction_known (knc_type : Nat) (indeterminate_length : Nat)
    (h : knc_type ∈ known_vector_types) :
    (translate_vector_instruction (vector_context knc_type) indeterminate_length).translated_bytes
        ≠ []
    ∧ (translate_vector_instruction (vector_context knc_type)
        indeterminate_length).translated_bytes.head? = some 98
    ∧ (translate_vector_instruction (vector_context knc_type)
        indeterminate_length).translated_length
      = (translate_vector_instruction (vector_context knc_type)
        indeterminate_length).translated_bytes.length
    ∧ (translate_vector_instruction (vector_context knc_type)
        indeterminate_length).is_emulated = false
    ∧ ((translate_vector_instruction (vector_context knc_type)
          indeterminate_length).emulation_overhead_cycles = 0
      ∨ (translate_vector_instruction (vector_context knc_type)
          indeterminate_length).emulation_overhead_cycles = 1) := by
  rw [translate_vector_instruction_known_length knc_type indeterminate_length h]
  simp only [known_vector_types, List.mem_cons, List.mem_singleton, List.not_mem_nil,
    or_false] at h
  rcases h with h | h | h | h | h | h | h | h | h | h <;> subst h <;> decide

theorem translate_vector_instruction_unknown (knc_type : Nat) (indeterminate_length : Nat)
    (h : knc_type ∉ known_vector_types) :
    translate_vector_instruction (vector_context knc_type) indeterminate_length
      = { translated_bytes := []
          translated_length := indeterminate_length
          description := "Unknown vector instruction - needs emulation"
          is_emulated := true
          emulation_overhead_cycles := 10 } := by
  simp only [known_vector_types, List.mem_cons, List.mem_singleton, List.not_mem_nil,
    or_false, not_or] at h
  obtain ⟨h1, h2, h3, h4, h5, h6, h7, h8, h9, h10⟩ := h
  unfold translate_vector_instruction
  simp only [vector_context, if_neg h1, if_neg h2, if_neg h3, if_neg h4, if_neg h5, if_neg h6,
    if_neg h7, if_neg h8, if_neg h9, if_neg h10]

/-- C35: for each of the ten known KNC vector types
`translate_vector_instruction` returns a record whose `translated_bytes` is
non-empty and starts with `0x62`, whose `translated_length` is the length of
`translated_bytes`, with `is_emulated = false` and an overhead of 0 or 1 cycles,
which is 1 for VGATHERDPS, VSCATTERDPS and VCMPPS; for every other type the
record has empty `translated_bytes`, `is_emulated = true` and an overhead of 10
cycles. -/
theorem C35_translate_vector_instruction (ctx : knc_translation_context_t)
    (indeterminate_length : Nat) :
    (ctx.knc_type ∈ known_vector_types →
      (translate_vector_instruction ctx indeterminate_length).translated_bytes ≠ []
      ∧ (translate_vector_instruction ctx indeterminate_length).translated_bytes.head? = some 98
      ∧ (translate_vector_instruction ctx indeterminate_length).translated_length
        = (translate_vector_instruction ctx indeterminate_length).translated_bytes.length
      ∧ (translate_vector_instruction ctx indeterminate_length).is_emulated = false
      ∧ ((translate_vector_instruction ctx indeterminate_length).emulation_overhead_cycles = 0
        ∨ (translate_vector_instruction ctx indeterminate_length).emulation_overhead_cycles = 1))
    ∧ (ctx.knc_type = KNC_INST_VGATHERDPS ∨ ctx.knc_type = KNC_INST_VSCATTERDPS
        ∨ ctx.knc_type = KNC_INST_VCMPPS →
      (translate_vector_instruction ctx indeterminate_length).emulation_overhead_cycles = 1)
    ∧ (ctx.knc_type ∉ known_vector_types →
      (translate_vector_instruction ctx indeterminate_length).translated_bytes = []
      ∧ (translate_vector_instruction ctx indeterminate_length).is_emulated = true
      ∧ (translate_vector_instruction ctx indeterminate_length).emulation_overhead_cycles = 10)
    ∧ known_vector_types = [254, 250, 113, 126, 124, 125, 127, 194, 95, 93] := by
  rw [translate_vector_instruction_type ctx indeterminate_length]
  refine ⟨translate_vector_instruction_known _ _, ?_, ?_, rfl⟩
  · intro h
    rcases h with h | h | h <;> rw [h] <;> rfl
  · intro h
    rw [translate_vector_instruction_unknown _ _ h]
    exact ⟨rfl, rfl, rfl⟩

/-- C39 (counterexample): VPMULUD and VPERMD are translated to the same three
bytes `62 00 00`. -/
theorem C39_counterexample :
    KNC_INST_VPMULUD ≠ KNC_INST_VPERMD
    ∧ (translate_vector_instruction (vector_context KNC_INST_VPMULUD) 0).translated_bytes
        = [98, 0, 0]
    ∧ (translate_vector_instruction (vector_context KNC_INST_VPERMD) 0).translated_bytes
        = [98, 0, 0] := by
  decide

/-- C39 (amended): for two distinct types among the ten known KNC vector types
the returned `translated_bytes` are equal exactly when both types are among
VPMULUD, VPERMD, VCMPPS, VMAXPS and VMINPS, for which the bytes are `62 00 00`;
so the encoding tells VPADDD, VPSUBD, VPBROADCASTD, VGATHERDPS and VSCATTERDPS
apart from every other type, and nothing more. -/
theorem C39_translated_bytes (ctx1 ctx2 : knc_translation_context_t) (l1 l2 : Nat)
    (h1 : ctx1.knc_type ∈ known_vector_types) (h2 : ctx2.knc_type ∈ known_vector_types)
    (hne : ctx1.knc_type ≠ ctx2.knc_type) :
    ((translate_vector_instruction ctx1 l1).translated_bytes
        = (translate_vector_instruction ctx2 l2).translated_bytes
      ↔ ctx1.knc_type ∈ types_without_opcode ∧ ctx2.knc_type ∈ types_without_opcode)
    ∧ (ctx1.knc_type ∈ types_without_opcode →
        (translate_vector_instruction ctx1 l1).translated_bytes = [98, 0, 0]) := by
  rw [translate_vector_instruction_type ctx1 l1, translate_vector_instruction_type ctx2 l2]
  generalize ctx1.knc_type = a at h1 hne ⊢
  generalize ctx2.knc_type = b at h2 hne ⊢
  rw [translate_vector_instruction_known_length a l1 h1,
    translate_vector_instruction_known_length b l2 h2]
  simp only [known_vector_types, List.mem_cons, List.mem_singleton, List.not_mem_nil,
    or_false] at h1 h2
  rcases h1 with h | h | h | h | h | h | h | h | h | h <;> subst h <;>
    rcases h2 with h | h | h | h | h | h | h | h | h | h <;> subst h <;>
    first
      | exact absurd rfl hne
      | decide

/-- C39 (witness): VPADDD and VPSUBD get different bytes. -/
theorem C39_translated_bytes_witness :
    KNC_INST_VPADDD ∈ known_vector_types ∧ KNC_INST_VPSUBD ∈ known_vector_types
    ∧ (translate_vector_instruction (vector_context KNC_INST_VPADDD) 0).translated_bytes
        ≠ (translate_vector_instruction (vector_context KNC_INST_VPSUBD) 0).translated_bytes :=
  ⟨by decide, by decide, fun h =>
    absurd ((C39_translated_bytes (vector_context KNC_INST_VPADDD)
      (vector_context KNC_INST_VPSUBD) 0 0 (by decide) (by decide) (by decide)).1.mp h).1
      (by decide)⟩

end

/-! ## Tiles of the cores (C36) -/

section
open KNCRuntime

theorem construct_core_state (cores mem_size : Nat) (arch : knc_architecture_t) (i : Nat)
    (hi : i < cores) :
    (KNCRuntime.construct cores mem_size arch).core_states[i]?
      = some { registers := { zmm := List.replicate 32 0, k := List.replicate 8 0,
                              gpr := List.replicate 16 0, rip := 0, rflags := 0 }
               core_id := i
               tile_id := i / KNC_CORES_PER_TILE
               is_halted := true
               cycles_executed := 0 } := by
  unfold KNCRuntime.construct
  simp only [List.getElem?_map, List.getElem?_range hi, Option.map_some']

/-- C36 (failing input): the runtime constructed for KNL with 68 cores.  Every
core `i` is created with `core_id = i`, halted and with no cycles executed, but
with `tile_id = i div 4` whatever the architecture: core 2 of the KNL runtime
is put on tile 0, not on tile `2 div 2 = 1`, and tile 0 groups the four cores
0, 1, 2, 3 although a KNL tile has two cores. -/
theorem C36_knl_tile_of_core :
    KNL_CORES_PER_TILE = 2
    ∧ knl_constructed.core_states.length = 68
    ∧ (knl_constructed.core_states[2]?).map
        (fun core => (core.core_id, core.tile_id, core.is_halted, core.cycles_executed))
        = some (2, 0, true, 0)
    ∧ 2 / KNL_CORES_PER_TILE = 1
    ∧ (knl_constructed.core_states.filter (fun core => core.tile_id = 0)).map
        (fun core => core.core_id) = [0, 1, 2, 3]
    ∧ ∀ (cores mem_size : Nat) (arch : knc_architecture_t) (i : Nat), i < cores →
        ((KNCRuntime.construct cores mem_size arch).core_states[i]?).map
          (fun core => (core.core_id, core.tile_id, core.is_halted, core.cycles_executed))
          = some (i, i / 4, true, 0) := by
  refine ⟨rfl, by decide, by decide, by decide, by decide, ?_⟩
  intro cores mem_size arch i hi
  rw [construct_core_state cores mem_size arch i hi]
  rfl

end

/-! ## Addresses of the directory (C37, C38) -/

section
open RingBusSimulator

/-- C37 (failing input): on the 4-node ring `dtd_update_ownership(2^32, 1, true)`
allocates a record with `cache_line_address = 0`, not `2^32`: the mask
`~(cache_line_size - 1)` is a 32-bit value, so the `&` clears the bits 32 to 63
of the address.  Address 0, which lies in another 64-byte line, then resolves
to the same directory record as address `2^32`.  In general the aligned address
is `64 * ((a div 64) mod 2^26)`, which is `a - a mod 64` only below `2^32`. -/
theorem C37_alignment_drops_high_bits :
    RingBusSimulator.cache_line_align ring4 4294967296 = 0
    ∧ 4294967296 - 4294967296 % 64 = 4294967296
    ∧ record_for ring4 4294967296 = none
    ∧ record_for ring4_owned_4g 4294967296
        = some { cache_line_address := 0, owner_tile := 1, sharer_mask := 2, is_modified := true,
                 is_exclusive := true, is_shared := false, timestamp := 0 }
    ∧ (4294967296 : Nat) / 64 ≠ 0 / 64
    ∧ RingBusSimulator.find_cache_line ring4_owned_4g 4294967296 = some (0, 0)
    ∧ RingBusSimulator.find_cache_line ring4_owned_4g 0 = some (0, 0)
    ∧ (∀ (s : RingBusSimulator) (a : Nat), s.cache_line_size = 64 →
        RingBusSimulator.cache_line_align s a = 64 * (a / 64 % 67108864))
    ∧ (∀ (s : RingBusSimulator) (a : Nat), s.cache_line_size = 64 → a < 4294967296 →
        RingBusSimulator.cache_line_align s a = a - a % 64) := by
  refine ⟨by decide, by decide, by decide, by decide, by decide, by decide, by decide, ?_, ?_⟩
  · intro s a hs
    exact cache_line_align_eq s a hs
  · intro s a hs ha
    rw [cache_line_align_eq s a hs]
    omega

/-- C38 (failing input): the 4-node ring after
`dtd_update_ownership(0x1000, 0, true)`.  The addresses `0x1000` and `0x1001`
lie in the same 64-byte line, but `get_dtd_home_node` takes the unaligned
address modulo 4, so `find_cache_line(0x1001)` searches the directory of tile 1
and finds nothing, and `dtd_check_coherency` answers true for `0x1001` and
false for `0x1000` when tile 3 asks.  Two addresses of one line resolve to the
same record when they also agree modulo the number of nodes. -/
theorem C38_home_of_unaligned_address :
    4096 / 64 = 4097 / 64
    ∧ RingBusSimulator.get_dtd_home_node ring4_owned_0x1000 4096 = 0
    ∧ RingBusSimulator.get_dtd_home_node ring4_owned_0x1000 4097 = 1
    ∧ RingBusSimulator.cache_line_align ring4_owned_0x1000 4097 = 4096
    ∧ RingBusSimulator.find_cache_line ring4_owned_0x1000 4096 = some (0, 0)
    ∧ RingBusSimulator.find_cache_line ring4_owned_0x1000 4097 = none
    ∧ RingBusSimulator.dtd_check_coherency ring4_owned_0x1000 4096 3 = false
    ∧ RingBusSimulator.dtd_check_coherency ring4_owned_0x1000 4097 3 = true
    ∧ ∀ (s : RingBusSimulator) (a b : Nat), s.cache_line_size = 64 → a / 64 = b / 64 →
        a % s.config.num_nodes = b % s.config.num_nodes →
        RingBusSimulator.find_cache_line s b = RingBusSimulator.find_cache_line s a := by
  refine ⟨by decide, by decide, by decide, by decide, by decide, by decide, by decide,
    by decide, ?_⟩
  intro s a b hs hline hhome
  unfold RingBusSimulator.find_cache_line RingBusSimulator.get_dtd_home_node
  rw [cache_line_align_eq s a hs, cache_line_align_eq s b hs, hline, hhome]

end

/-! ## Performance monitor (C40) -/

section
open KNCPerformanceMonitor

theorem record_instruction_vector_instructions (m : KNCPerformanceMonitor)
    (core_id inst_type : Nat) :
    (record_instruction m core_id inst_type).core_data.map
        (fun core => core.vector_instructions)
      = m.core_data.map (fun core => core.vector_instructions) := by
  unfold record_instruction
  split
  · rfl
  · cases hc : m.core_data[core_id]? with
    | none => rfl
    | some core =>
      have hno : ¬ (inst_type ≥ KNC_INST_VPADDD ∧ inst_type ≤ KNC_INST_VMINPS) := by
        unfold KNC_INST_VPADDD KNC_INST_VMINPS
        omega
      simp only [if_neg hno]
      apply List.ext_getElem?
      intro i
      simp only [List.getElem?_map]
      by_cases hi : i = core_id
      · subst hi
        have hlt : i < m.core_data.length := by
          rcases Nat.lt_or_ge i m.core_data.length with h | h
          · exact h
          · rw [List.getElem?_eq_none h] at hc
            cases hc
        rw [List.getElem?_set_self hlt, hc]
        rfl
      · rw [List.getElem?_set_ne (Ne.symm hi)]

/-- C40 (failing input): with monitoring enabled, `record_instruction(0, VPADDD)`
on the 60-core monitor increases `instructions_retired` of core 0 to 1 and
leaves its `vector_instructions` at 0.  The range test
`inst_type >= KNC_INST_VPADDD && inst_type <= KNC_INST_VMINPS` compares with
`0xFE` and `0x5D`, so no instruction type passes it and no call of
`record_instruction` ever changes a `vector_instructions` counter. -/
theorem C40_vector_instructions_never_counted :
    KNC_INST_VPADDD = 254 ∧ KNC_INST_VMINPS = 93
    ∧ knc_monitor.monitoring_enabled = true
    ∧ ((record_instruction knc_monitor 0 KNC_INST_VPADDD).core_data[0]?).map
        (fun core => (core.instructions_retired, core.vector_instructions)) = some (1, 0)
    ∧ (∀ (m : KNCPerformanceMonitor) (core_id inst_type : Nat),
        (record_instruction m core_id inst_type).core_data.map
            (fun core => core.vector_instructions)
          = m.core_data.map (fun core => core.vector_instructions))
    ∧ (∀ (m : KNCPerformanceMonitor) (core_id inst_type : Nat),
        m.monitoring_enabled = false ∨ core_id ≥ m.num_cores →
        record_instruction m core_id inst_type = m) := by
  refine ⟨rfl, rfl, rfl, by decide, record_instruction_vector_instructions, ?_⟩
  intro m core_id inst_type h
  unfold record_instruction
  rcases h with h | h
  · rw [h]
    rfl
  · simp only [decide_eq_true h, Bool.or_true, if_true]

end

/-! ## Buffer occupancy of reachable states (C3) -/

section
open RingBusSimulator

theorem routing_entry_lt_of_lt (N i j : Nat) (hi : i < N) :
    RingBusSimulator.routing_entry N i j < N := by
  unfold RingBusSimulator.routing_entry
  have hpos : 0 < N := by omega
  split
  · exact hi
  · simp only []
    split
    · exact Nat.mod_lt _ hpos
    · exact Nat.mod_lt _ hpos

theorem get_next_hop_congr (s s1 : RingBusSimulator) (hc : s1.config = s.config)
    (hr : s1.routing_table = s.routing_table) (i j : Nat) :
    RingBusSimulator.get_next_hop s1 i j = RingBusSimulator.get_next_hop s i j := by
  unfold RingBusSimulator.get_next_hop
  rw [hc, hr]

/-- In a state with `queues_inv` a call of `route_message` for a queued message
either reports the destination as reached or never returns. -/
theorem route_message_queued (s : RingBusSimulator) (node : ring_bus_node_t)
    (message : ring_bus_message_t) (r : Bool × RingBusSimulator) (hinv : queues_inv s)
    (hnode : node ∈ s.nodes) (hm : message ∈ node.outbound_queue)
    (h : RingBusSimulator.route_message s message = some r) : r = (true, s) := by
  have hsrc := (hinv.2 node hnode).2 message hm
  have hhop := hinv.1 message.source_node message.dest_node hsrc
  unfold RingBusSimulator.route_message RingBusSimulator.send_message_holding_mutex at h
  simp only [] at h
  split at h
  · split at h
    · rename_i hidx
      unfold KNC_CORES_PER_TILE at hidx
      omega
    · cases h
  · cases h; rfl

theorem queued_bytes_tail (a b occ : Nat) (h : occ = (a + b) % 4294967296) :
    (occ + 4294967296 - a % 4294967296) % 4294967296 = b % 4294967296 := by
  omega

/-- Popping the routed message keeps `queues_inv`. -/
theorem queues_inv_pop (s s2 : RingBusSimulator) (i : Nat) (node node2 : ring_bus_node_t)
    (message : ring_bus_message_t) (rest : List ring_bus_message_t) (hinv : queues_inv s)
    (hn : s.nodes[i]? = some node) (hq : node.outbound_queue = message :: rest)
    (hnodes : s2.nodes = s.nodes.set i node2) (hcfg : s2.config = s.config)
    (hrt : s2.routing_table = s.routing_table) (hq2 : node2.outbound_queue = rest)
    (hocc2 : node2.buffer_occupancy
      = (node.buffer_occupancy + 4294967296 - message.size % 4294967296) % 4294967296) :
    queues_inv s2 := by
  have hmem : node ∈ s.nodes := List.getElem?_mem hn
  have hocc := (hinv.2 node hmem).1
  refine ⟨?_, ?_⟩
  · intro a b ha
    rw [get_next_hop_congr s s2 hcfg hrt a b, hcfg]
    rw [hcfg] at ha
    exact hinv.1 a b ha
  · intro n hnmem
    rw [hnodes] at hnmem
    rw [hcfg]
    rcases List.mem_or_eq_of_mem_set hnmem with hm | he
    · exact hinv.2 n hm
    · rw [he]
      refine ⟨?_, ?_⟩
      · rw [hocc2]
        simp only [queued_bytes, hq2]
        apply queued_bytes_tail message.size
        rw [hocc]
        simp [queued_bytes, hq]
      · intro m hmm
        rw [hq2] at hmm
        exact (hinv.2 node hmem).2 m (by rw [hq]; exact List.mem_cons_of_mem _ hmm)

/-- A call of `process_node_queue` that returns has emptied the queue of its
node, whose occupancy is then 0, and has changed no other node. -/
theorem process_node_queue_drains (fuel : Nat) (s s1 : RingBusSimulator) (i : Nat)
    (hinv : queues_inv s)
    (hrun : RingBusSimulator.process_node_queue fuel s i = some s1) :
    queues_inv s1 ∧ s1.config = s.config
    ∧ (∀ j, j ≠ i → s1.nodes[j]? = s.nodes[j]?)
    ∧ (∀ node1, s1.nodes[i]? = some node1 → node1.buffer_occupancy = 0) := by
  induction fuel generalizing s with
  | zero => simp [RingBusSimulator.process_node_queue] at hrun
  | succ fuel ih =>
    unfold RingBusSimulator.process_node_queue at hrun
    cases hn : s.nodes[i]? with
    | none =>
      rw [hn] at hrun
      cases hrun
      refine ⟨hinv, rfl, fun _ _ => rfl, ?_⟩
      intro node1 h1
      rw [hn] at h1
      cases h1
    | some node =>
      rw [hn] at hrun
      simp only [] at hrun
      have hmem : node ∈ s.nodes := List.getElem?_mem hn
      cases hq : node.outbound_queue with
      | nil =>
        rw [hq] at hrun
        cases hrun
        refine ⟨hinv, rfl, fun _ _ => rfl, ?_⟩
        intro node1 h1
        rw [hn] at h1
        cases h1
        rw [(hinv.2 node hmem).1]
        simp [queued_bytes, hq]
      | cons message rest =>
        rw [hq] at hrun
        simp only [] at hrun
        cases hroute : RingBusSimulator.route_message s message with
        | none => rw [hroute] at hrun; cases hrun
        | some r =>
          rw [hroute] at hrun
          have hr := route_message_queued s node message r hinv hmem
            (by rw [hq]; exact List.mem_cons_self _ _) hroute
          subst hr
          simp only [if_true, hn] at hrun
          have hlt : i < s.nodes.length := by
            rcases Nat.lt_or_ge i s.nodes.length with h | h
            · exact h
            · rw [List.getElem?_eq_none h] at hn
              cases hn
          have hpop : ∀ s2 : RingBusSimulator,
              RingBusSimulator.process_node_queue fuel s2 i = some s1 →
              ∀ node2 : ring_bus_node_t, s2.nodes = s.nodes.set i node2 → s2.config = s.config →
              s2.routing_table = s.routing_table → node2.outbound_queue = rest →
              node2.buffer_occupancy
                = (node.buffer_occupancy + 4294967296 - message.size % 4294967296) % 4294967296 →
              queues_inv s1 ∧ s1.config = s2.config
              ∧ (∀ j, j ≠ i → s1.nodes[j]? = s2.nodes[j]?)
              ∧ (∀ node1, s1.nodes[i]? = some node1 → node1.buffer_occupancy = 0) := by
            intro s2 hrun2 node2 e1 e2 e3 e4 e5
            exact ih s2 (queues_inv_pop s s2 i node node2 message rest hinv hn hq e1 e2 e3 e4 e5)
              hrun2
          obtain ⟨h1, h2, h3, h4⟩ := hpop _ hrun _ rfl rfl rfl (by rw [hq]; rfl) rfl
          refine ⟨h1, h2, ?_, h4⟩
          intro j hj
          rw [h3 j hj]
          exact List.getElem?_set_ne (Ne.symm hj)

theorem process_node_queue_occupancy (fuel : Nat) (s s1 : RingBusSimulator) (i : Nat)
    (hinv : occupancy_inv s)
    (hrun : RingBusSimulator.process_node_queue fuel s i = some s1) : occupancy_inv s1 := by
  obtain ⟨hq, hsize, hbound⟩ := hinv
  obtain ⟨h1, h2, h3, h4⟩ := process_node_queue_drains fuel s s1 i hq hrun
  refine ⟨h1, by rw [h2]; exact hsize, ?_⟩
  intro node hnode
  obtain ⟨j, hj⟩ := List.getElem?_of_mem hnode
  by_cases hji : j = i
  · subst hji
    rw [h4 node hj]
    exact Nat.zero_le _
  · rw [h3 j hji] at hj
    rw [h2]
    exact hbound node (List.getElem?_mem hj)

theorem step_simulation_occupancy (fuel : Nat) (s s1 : RingBusSimulator)
    (hinv : occupancy_inv s)
    (hrun : RingBusSimulator.step_simulation fuel s = some s1) : occupancy_inv s1 := by
  unfold RingBusSimulator.step_simulation RingBusSimulator.process_pending_messages at hrun
  have hadv : occupancy_inv (RingBusSimulator.advance_simulation s) := by
    obtain ⟨⟨hr, hn⟩, hsize, hbound⟩ := hinv
    exact ⟨⟨fun a b ha => by
      rw [get_next_hop_congr s (RingBusSimulator.advance_simulation s) rfl rfl a b]
      exact hr a b ha, hn⟩, hsize, hbound⟩
  generalize RingBusSimulator.advance_simulation s = s0 at hrun hadv
  generalize List.range s0.config.num_nodes = l at hrun
  induction l generalizing s0 with
  | nil =>
    simp only [List.foldlM_nil] at hrun
    cases hrun
    exact hadv
  | cons a l ih =>
    rw [List.foldlM_cons] at hrun
    cases hp : RingBusSimulator.process_node_queue fuel s0 a with
    | none => rw [hp] at hrun; simp at hrun
    | some s2 =>
      rw [hp] at hrun
      have hrun2 : l.foldlM (fun st i => RingBusSimulator.process_node_queue fuel st i) s2
          = some s1 := hrun
      exact ih s2 (process_node_queue_occupancy fuel s0 s2 a hadv hp) hrun2

/-- An accepted `send_message` puts one message of the given size, sent by the
source node, at the end of the queue of the source node, whose occupancy
becomes the 32-bit sum that passed the test; nothing else that the queues
depend on changes. -/
theorem send_message_occupancy_inv (s : RingBusSimulator) (src dst : Nat) (data : List Nat)
    (size priority : Nat) (hinv : occupancy_inv s) :
    occupancy_inv (RingBusSimulator.send_message s src dst data size priority).2 := by
  obtain ⟨⟨hroute, hnodes⟩, hsize, hbound⟩ := hinv
  unfold RingBusSimulator.send_message
  split
  · exact ⟨⟨hroute, hnodes⟩, hsize, hbound⟩
  · rename_i hv
    split
    · exact ⟨⟨hroute, hnodes⟩, hsize, hbound⟩
    · rename_i source0 hsrc
      split
      · exact ⟨⟨hroute, hnodes⟩, hsize, hbound⟩
      · rename_i hfit
        simp only []
        have hframe : ∃ tiles, (if (s.dtd_enabled && RingBusSimulator.is_memory_request data size) = true
            then RingBusSimulator.send_message_dtd s src dst data size else (s, dst, 0)).1
              = { s with dtd_tiles := tiles } := by
          split
          · exact (send_message_dtd_frame s src dst data size).1
          · exact ⟨s.dtd_tiles, rfl⟩
        obtain ⟨tiles, ht⟩ := hframe
        rw [ht]
        simp only []
        have hmem0 : source0 ∈ s.nodes := List.getElem?_mem hsrc
        obtain ⟨hocc0, hsrc0⟩ := hnodes source0 hmem0
        refine ⟨⟨?_, ?_⟩, hsize, ?_⟩
        · intro a b ha
          exact hroute a b ha
        · intro n hn
          rcases List.mem_or_eq_of_mem_set hn with hm | he
          · exact hnodes n hm
          · rw [he]
            refine ⟨?_, ?_⟩
            · simp only [queued_bytes, List.map_append, List.sum_append, List.map_cons,
                List.map_nil, List.sum_cons, List.sum_nil, Nat.add_zero]
              rw [hocc0]
              simp only [queued_bytes]
              omega
            · intro m hm
              simp only [List.mem_append, List.mem_singleton] at hm
              rcases hm with hm | hm
              · exact hsrc0 m hm
              · rw [hm]
                show src < s.config.num_nodes
                omega
        · intro n hn
          rcases List.mem_or_eq_of_mem_set hn with hm | he
          · exact hbound n hm
          · rw [he]
            show (source0.buffer_occupancy + size) % 4294967296 ≤ s.config.buffer_size
            omega

theorem init_simulator_occupancy_inv (N : Nat) (arch : knc_architecture_t) :
    occupancy_inv (RingBusSimulator.init_simulator (RingBusSimulator.construct N arch)) := by
  refine ⟨⟨?_, ?_⟩, rfl, ?_⟩
  · intro i j hi
    have hi1 : i < N := hi
    show RingBusSimulator.get_next_hop _ i j < N
    by_cases hj : j < N
    · rw [get_next_hop_init N arch i j hi1 hj]
      exact routing_entry_lt_of_lt N i j hi1
    · unfold RingBusSimulator.get_next_hop
      rw [if_neg (fun h => hj h.2)]
      exact hi1
  · intro n hn
    simp only [RingBusSimulator.init_simulator, RingBusSimulator.build_ring_topology,
      RingBusSimulator.construct, List.mem_map] at hn
    obtain ⟨i, _, rfl⟩ := hn
    simp [queued_bytes]
  · intro n hn
    simp only [RingBusSimulator.init_simulator, RingBusSimulator.build_ring_topology,
      RingBusSimulator.construct, List.mem_map] at hn
    obtain ⟨i, _, rfl⟩ := hn
    simp

theorem reset_simulation_occupancy_inv (s : RingBusSimulator) (hinv : occupancy_inv s) :
    occupancy_inv (RingBusSimulator.reset_simulation s) := by
  obtain ⟨⟨hroute, _⟩, hsize, _⟩ := hinv
  refine ⟨⟨?_, ?_⟩, hsize, ?_⟩
  · intro a b ha
    rw [get_next_hop_congr s (RingBusSimulator.reset_simulation s) rfl rfl a b]
    exact hroute a b ha
  · intro n hn
    simp only [RingBusSimulator.reset_simulation, List.mem_map] at hn
    obtain ⟨m, _, rfl⟩ := hn
    simp [queued_bytes]
  · intro n hn
    simp only [RingBusSimulator.reset_simulation, List.mem_map] at hn
    obtain ⟨m, _, rfl⟩ := hn
    simp

/-- The occupancy invariant holds in every reachable state. -/
theorem reachable_occupancy_inv (s : RingBusSimulator) (hs : Reachable s) : occupancy_inv s := by
  induction hs with
  | init num_nodes arch => exact init_simulator_occupancy_inv num_nodes arch
  | send s src dst data size priority _ ih =>
    exact send_message_occupancy_inv s src dst data size priority ih
  | step fuel s s1 _ hrun ih => exact step_simulation_occupancy fuel s s1 ih hrun
  | receive s node_id message hs0 ih =>
    have hin := reachable_inbound_empty s hs0
    have hc : ¬ (node_id < s.config.num_nodes ∧ ∃ node front rest, s.nodes[node_id]? = some node
          ∧ node.inbound_queue = front :: rest ∧ s.simulation_time ≥ front.delivery_time) := by
      rintro ⟨_, node, front, rest, hn, hq, _⟩
      rw [hin node (List.getElem?_mem hn)] at hq
      exact List.noConfusion hq
    rw [(receive_message_not_ready s node_id message hc).2]
    exact ih
  | reset s _ ih => exact reset_simulation_occupancy_inv s ih

theorem ring4_oversized_reachable : Reachable ring4_oversized :=
  Reachable.send _ 0 2 _ 4294967295 0
    (Reachable.send _ 0 0 _ 1 0 (Reachable.init 4 knc_architecture_t.ARCH_KNC))

/-- C3: in every state reachable from `initialize()` by calls of `send_message`,
`step_simulation`, `receive_message` and `reset_simulation` that have returned,
with arbitrary sizes, `buffer_size` is 1024 and every node has
`buffer_occupancy ≤ buffer_size`.  (A `step_simulation` that has to forward a
message over more than one hop locks `network_mutex` a second time and does not
return; one that returns has emptied every outbound queue.) -/
theorem C3_buffer_occupancy_bounded (s : RingBusSimulator) (hs : Reachable s) :
    s.config.buffer_size = 1024
    ∧ ∀ node ∈ s.nodes, node.buffer_occupancy ≤ s.config.buffer_size := by
  obtain ⟨_, hsize, hbound⟩ := reachable_occupancy_inv s hs
  exact ⟨hsize, hbound⟩

/-- C3 (witness): the 4-node ring after a one-byte send and an accepted send of
`0xFFFFFFFF` bytes from node 0. -/
theorem C3_buffer_occupancy_bounded_witness :
    Reachable ring4_oversized
    ∧ ring4_oversized.config.buffer_size = 1024
    ∧ ∀ node ∈ ring4_oversized.nodes, node.buffer_occupancy ≤ ring4_oversized.config.buffer_size :=
  ⟨ring4_oversized_reachable, C3_buffer_occupancy_bounded ring4_oversized ring4_oversized_reachable⟩

end

end IMIC
